import Mathlib

/-!
# T50 packet injector: injection loop and RIPv2 builder

A shallow embedding of `src/t50.c` (function `main`, the signal handler) and of
`src/modules/ripv2.c` (function `ripv2`), with the properties of the specification
proved about it.

Conventions of the embedding.

* Machine integers are `Nat` (unsigned) or `Int` (signed) with the truncation of the
  C type written out (`% 256`, `% 65536`, `% 4294967296`, `wrap_int32`).
* Results of the operating system and of the parts of the program that are not in
  `t50.c` or `ripv2.c` (command line, socket, `fork`, the modules table, the GRE and IP
  header writers) are inputs of the model: fields of `Env` and of `Collab`.
* The packet buffer is a map from byte offsets to bytes.  Multi-byte fields are held in
  network byte order, the order in which `cksum` reads them, so that `htons` and `htonl`
  followed by a store put the most significant byte first.
* A run is observed through a trace of the calls it makes.
-/

namespace T50

/-! ## typedefs.h, config.h and the constants of defines.h -/

/-- Range of `threshold_t` (`typedef int threshold_t`): signed 32-bit wrap-around. -/
def wrap_int32 (x : Int) : Int := (x + 2147483648) % 4294967296 - 2147483648

/-- Value of `EXIT_FAILURE` in the C library. -/
def EXIT_FAILURE : Int := 1

/-- Modelled from the spec: the sentinel protocol number `IPPROTO_T50` of the absent
`modules.h` ("rotate through all modules"); any value of `uint8_t` range would do, 69 is
the one used upstream. -/
def IPPROTO_T50 : Nat := 69

/-- Modelled from the spec: the macro `IS_CHILD_PID` of the absent `defines.h`; the
child is the worker in which `fork` returned 0. -/
def IS_CHILD_PID (p : Int) : Bool := p == 0

/-- The `struct cidr` filled by `config_cidr`: host count and first address. -/
structure cidr where
  hostid : Nat
  __1st_addr : Nat

/-- The `ip` member of `struct config_options`, as far as `main` and `ripv2` use it. -/
structure config_ip where
  protocol : Nat
  protoname : Nat
  daddr : Nat
  saddr : Nat

/-- The `gre` member of `struct config_options`. -/
structure config_gre where
  options : Nat

/-- The `rip` member of `struct config_options`. -/
structure config_rip where
  auth : Bool
  command : Nat
  domain : Nat
  key_id : Nat
  sequence : Nat
  family : Nat
  tag : Nat
  address : Nat
  netmask : Nat
  next_hop : Nat
  metric : Nat

/-- The fields of `struct config_options` that `main` and `ripv2` read or write. -/
structure config_options where
  turbo : Bool
  flood : Bool
  threshold : Int
  bits : Nat
  encapsulated : Bool
  bogus_csum : Bool
  ip : config_ip
  gre : config_gre
  rip : config_rip

/-- Process-wide state shared by `main` and the builders: the packet buffer
(`packet`, `current_packet_size`) and the PRNG, a stream of samples with a read
position. -/
structure World where
  packet : Nat → Nat
  current_packet_size : Nat
  rng : Nat → Nat
  rng_pos : Nat

/-- One call of `RANDOM()`: the next sample of the stream. -/
def RANDOM (w : World) : Nat × World :=
  (w.rng w.rng_pos, { w with rng_pos := w.rng_pos + 1 })

/-- Modelled from the spec: `alloc_packet` of the absent packet-buffer module ("grows the
buffer so that subsequent writes of up to `size` bytes are in-bounds", "never shrinks"). -/
def alloc_packet (w : World) (size : Nat) : World :=
  { w with current_packet_size := max w.current_packet_size size }

/-- A builder, `module_func_ptr_t`: reads the configuration, writes the packet buffer
and stores the datagram size through its second argument. -/
abbrev module_func_ptr_t := config_options → World → World × Nat

/-- An entry of the modules table (`modules_table_t`); `func = none` is the NULL builder
of the sentinel entry. -/
structure modules_table_t where
  protocol_id : Nat
  func : Option module_func_ptr_t

/-! ## Observable calls -/

/-- The calls of `main` and of the signal handler that a run is observed through. -/
inductive Event
  | createSocket
  | fork (pid : Int)
  | setpriority
  | launch_banner
  | alloc_packet (size : Nat)
  | build (cursor : Nat) (protocol : Nat) (daddr : Nat)
  | send (size : Nat) (ok : Bool)
  | alarm (secs : Nat)
  | wait
  | closeSocket
  | finish_banner
  | kill (pid : Int) (sig : Nat)

/-- The two calls of the injection loop that the threshold accounts for. -/
inductive Call
  | builder
  | sendPacket
  deriving DecidableEq

/-- Projection of an event on the builder and send calls. -/
def Event.call : Event → Option Call
  | .build _ _ _ => some Call.builder
  | .send _ _ => some Call.sendPacket
  | _ => none

/-- The builder and send calls of a trace, in order. -/
def calls (t : List Event) : List Call := t.filterMap Event.call

/-- The builder invocations of a trace, in order: table cursor and `co->ip.protocol`. -/
def builds (t : List Event) : List (Nat × Nat) :=
  t.filterMap fun e => match e with
    | .build c p _ => some (c, p)
    | _ => none

/-- How a run ends: `main` returned (or `exit` was called) with a status, the fuel of the
model ran out while the loop was still running, or the program read outside the modules
table, called a NULL builder or divided by zero. -/
inductive Outcome
  | exited (status : Int)
  | running
  | fault
  deriving DecidableEq

/-! ## t50.c: main -/

/-- What `main` receives from its collaborators and from the operating system in one run
of one worker. `sendPacket i` is the result of the call number `i` (from 0);
`have_turbo` is whether `__HAVE_TURBO__` was defined at build time. -/
structure Env where
  have_turbo : Bool
  getConfigOptions : Option config_options
  getuid : Nat
  checkConfigOptions : config_options → Bool
  createSocket : Bool
  getNumberOfRegisteredModules : Nat
  fork : Int
  setpriority : Int
  config_cidr : Nat → Nat → Option cidr
  mod_table : List modules_table_t
  INITIAL_PACKET_SIZE : Nat
  sendPacket : Nat → Bool
  htonl : Nat → Nat
  world : World

/-- The test of lines 69-70: is a second worker worth forking. -/
def turbo_eligible (env : Env) (co : config_options) : Bool :=
  (co.ip.protocol == IPPROTO_T50 &&
      decide (co.threshold > wrap_int32 (env.getNumberOfRegisteredModules : Int))) ||
    (co.ip.protocol != IPPROTO_T50 && decide (co.threshold > 1))

/-- Lines 88-95: the threshold of a worker after the fork, from the threshold before it
and the value `fork` returned in this worker. C division and remainder truncate. -/
def split_threshold (threshold : Int) (pid : Int) : Int :=
  let new_threshold := wrap_int32 (threshold.tdiv 2)
  if threshold.tmod 2 ≠ 0 ∧ IS_CHILD_PID pid = false then wrap_int32 (new_threshold + 1)
  else new_threshold

/-- Result of the turbo section (lines 64-98): either `main` returns a status, or it goes
on with the value of the static `pid` and the configuration. -/
inductive TurboResult
  | ret (status : Int) (trace : List Event)
  | go (pid : Int) (co : config_options) (trace : List Event)

/-- Lines 64-98 of `main`. The static `pid` starts at -1. -/
def turbo_section (env : Env) (co : config_options) : TurboResult :=
  if env.have_turbo && co.turbo then
    if turbo_eligible env co then
      let pid := env.fork
      if pid = -1 then .ret EXIT_FAILURE [Event.fork pid]
      else if env.setpriority = -1 then .ret EXIT_FAILURE [Event.fork pid, Event.setpriority]
      else
        .go pid { co with threshold := split_threshold co.threshold pid }
          [Event.fork pid, Event.setpriority]
    else .go (-1) co []
  else .go (-1) co []

/-- State of the injection loop: the configuration, the table cursor `ptbl` (as an index
from `mod_table`), the shared state, the number of `sendPacket` calls made, the trace. -/
structure LoopState where
  co : config_options
  ptbl : Nat
  world : World
  sends : Nat
  trace : List Event

/-- The C operator `%` on unsigned operands; `none` is the division by zero. -/
def c_mod (a b : Nat) : Option Nat := if b = 0 then none else some (a % b)

/-- Lines 143-145: the destination before the conversion to network byte order. -/
def pick_daddr (cidr_ptr : cidr) (co : config_options) (w : World) :
    Option (config_options × World) :=
  let co1 := { co with ip := { co.ip with daddr := cidr_ptr.__1st_addr } }
  if cidr_ptr.hostid ≠ 0 then
    let (r, w1) := RANDOM w
    match c_mod r cidr_ptr.hostid with
    | none => none
    | some q => some ({ co1 with ip := { co1.ip with daddr := (co1.ip.daddr + q) % 4294967296 } }, w1)
  else some (co1, w)

/-- The loop condition of line 136, `co->flood || (co->threshold-- > 0)`: its value and
the configuration after it. The decrement is not evaluated when `flood` is set. -/
def loop_test (co : config_options) : Bool × config_options :=
  if co.flood then (true, co)
  else (decide (co.threshold > 0), { co with threshold := wrap_int32 (co.threshold - 1) })

/-- What one execution of the loop body does: go on, return from `main`, or fault. -/
inductive BodyResult
  | next (s : LoopState)
  | ret (status : Int) (s : LoopState)
  | fault (s : LoopState)

/-- The loop state that one execution of the body leaves. -/
def BodyResult.state : BodyResult → LoopState
  | .next s => s
  | .ret _ s => s
  | .fault s => s

/-- Lines 155-158: the table cursor after an iteration; `none` is a read outside the
table. In mixed mode the cursor moves on and goes back to the first entry when it
reaches an entry whose builder is NULL. `proto` is the local of `main`. -/
def advance_ptbl (env : Env) (proto : Nat) (ptbl : Nat) : Option Nat :=
  if proto = IPPROTO_T50 then
    match env.mod_table.get? (ptbl + 1) with
    | none => none
    | some nxt => some (if nxt.func.isNone then 0 else ptbl + 1)
  else some ptbl

/-- Lines 138-158: one execution of the loop body. `proto` is the local of `main`. -/
def loop_body (env : Env) (proto : Nat) (cidr_ptr : cidr) (s : LoopState) : BodyResult :=
  match pick_daddr cidr_ptr s.co s.world with
  | none => .fault s
  | some (co1, w1) =>
    let co2 := { co1 with ip := { co1.ip with daddr := env.htonl co1.ip.daddr } }
    match env.mod_table.get? s.ptbl with
    | none => .fault s
    | some entry =>
      let co3 := { co2 with ip := { co2.ip with protocol := entry.protocol_id } }
      match entry.func with
      | none => .fault s
      | some func =>
        let (w2, size) := func co3 w1
        let ok := env.sendPacket s.sends
        let trace := s.trace ++ [Event.build s.ptbl co3.ip.protocol co3.ip.daddr, Event.send size ok]
        if ok = false then
          .ret EXIT_FAILURE { co := co3, ptbl := s.ptbl, world := w2, sends := s.sends + 1, trace := trace }
        else
          match advance_ptbl env proto s.ptbl with
          | none => .fault { co := co3, ptbl := s.ptbl + 1, world := w2, sends := s.sends + 1, trace := trace }
          | some ptbl1 =>
            .next { co := co3, ptbl := ptbl1, world := w2, sends := s.sends + 1, trace := trace }

/-- How the loop of lines 136-159 ends. -/
inductive LoopExit
  | condition_false
  | returned (status : Int)
  | out_of_fuel
  | fault
  deriving DecidableEq

/-- Lines 136-159: the injection loop, run for at most `fuel` evaluations of its
condition. -/
def main_loop (env : Env) (proto : Nat) (cidr_ptr : cidr) : Nat → LoopState → LoopState × LoopExit
  | 0, s => (s, LoopExit.out_of_fuel)
  | fuel + 1, s =>
    match loop_test s.co with
    | (false, co1) => ({ s with co := co1 }, LoopExit.condition_false)
    | (true, co1) =>
      match loop_body env proto cidr_ptr { s with co := co1 } with
      | .next s1 => main_loop env proto cidr_ptr fuel s1
      | .ret status s1 => (s1, LoopExit.returned status)
      | .fault s1 => (s1, LoopExit.fault)

/-- Lines 161-196: what `main` does after the loop. -/
def epilogue (env : Env) (pid : Int) : List Event :=
  if IS_CHILD_PID pid = false then
    (if env.have_turbo then [Event.alarm 5, Event.wait] else []) ++
      [Event.closeSocket, Event.finish_banner]
  else []

/-- A run of `main`: its trace, how it ended, and the configuration at the end (absent
when `getConfigOptions` failed). -/
structure Run where
  trace : List Event
  outcome : Outcome
  co : Option config_options

/-- Lines 104-133 of `main`: the launch banner of the parent, the initial table cursor
(`ptbl = mod_table`, moved by `co->ip.protoname` when a single protocol is selected) and
the first allocation of the packet buffer. -/
def loop_start (env : Env) (pid : Int) (co : config_options) (trace : List Event) : LoopState :=
  { co := co
    ptbl := if co.ip.protocol % 256 ≠ IPPROTO_T50 then co.ip.protoname else 0
    world := alloc_packet env.world env.INITIAL_PACKET_SIZE
    sends := 0
    trace := trace ++ (if IS_CHILD_PID pid = false then [Event.launch_banner] else []) ++
      [Event.alloc_packet env.INITIAL_PACKET_SIZE] }

/-- Lines 152-153 and 161-196 of `main`: the value `main` returns, from the way the loop
ended. -/
def main_return (env : Env) (pid : Int) : LoopState × LoopExit → Run
  | (s, LoopExit.condition_false) =>
    { trace := s.trace ++ epilogue env pid, outcome := .exited 0, co := some s.co }
  | (s, LoopExit.returned status) =>
    { trace := s.trace, outcome := .exited status, co := some s.co }
  | (s, LoopExit.out_of_fuel) => { trace := s.trace, outcome := .running, co := some s.co }
  | (s, LoopExit.fault) => { trace := s.trace, outcome := .fault, co := some s.co }

/-- Lines 100-197 of `main`: from `config_cidr` to the return, with the static `pid` and
the configuration left by the turbo section. `proto` is `uint8_t`. -/
def main_inject (env : Env) (fuel : Nat) (pid : Int) (co : config_options)
    (trace : List Event) : Run :=
  match env.config_cidr co.bits co.ip.daddr with
  | none => { trace := trace, outcome := .exited EXIT_FAILURE, co := some co }
  | some cidr_ptr =>
    main_return env pid
      (main_loop env (co.ip.protocol % 256) cidr_ptr fuel (loop_start env pid co trace))

/-- The function `main` of t50.c. `fuel` bounds the number of evaluations of the loop
condition that the model follows. -/
def main (env : Env) (fuel : Nat) : Run :=
  match env.getConfigOptions with
  | none => { trace := [], outcome := .exited EXIT_FAILURE, co := none }
  | some co =>
    if env.getuid ≠ 0 then { trace := [], outcome := .exited EXIT_FAILURE, co := some co }
    else if env.checkConfigOptions co = false then
      { trace := [], outcome := .exited EXIT_FAILURE, co := some co }
    else if env.createSocket = false then
      { trace := [Event.createSocket], outcome := .exited EXIT_FAILURE, co := some co }
    else
      match turbo_section env co with
      | .ret status trace =>
        { trace := Event.createSocket :: trace, outcome := .exited status, co := some co }
      | .go pid co1 trace => main_inject env fuel pid co1 (Event.createSocket :: trace)

/-- The function `signal_handler` of t50.c, run with the static `pid` as `main` left it:
the calls it makes and the status it passes to `exit`. -/
def signal_handler (have_turbo : Bool) (pid : Int) (signal : Int) : List Event × Outcome :=
  let body :=
    if have_turbo then
      if IS_CHILD_PID pid = false then [Event.kill pid 9, Event.closeSocket] else []
    else [Event.closeSocket]
  (body, .exited (128 + signal))

/-! ## The Internet checksum -/

/-- One's-complement addition of two 16-bit words: the carry out of bit 15 is added
back. -/
def oc_add (a b : Nat) : Nat := (a + b) % 65536 + (a + b) / 65536

/-- The 16-bit words of the span `[off, off + len)` of a buffer, in network byte order;
a trailing odd byte is padded with a zero on the right. -/
def cksum_words (m : Nat → Nat) (off len : Nat) : List Nat :=
  (List.range (len / 2)).map (fun i => m (off + 2 * i) % 256 * 256 + m (off + 2 * i + 1) % 256) ++
    (if len % 2 = 1 then [m (off + len - 1) % 256 * 256] else [])

/-- Modelled from the spec: `cksum` of the absent checksum module, section 4.2: "Sum
16-bit words of the input in network byte order using one's-complement addition; if the
length is odd, the trailing byte is zero-padded on the right. Return the bitwise
complement of the folded sum." -/
def cksum (m : Nat → Nat) (off len : Nat) : Nat :=
  65535 - (cksum_words m off len).foldl oc_add 0

/-! ## modules/ripv2.c -/

/-- Line 20 of ripv2.c. -/
def RIPVERSION : Nat := 2

/-- The RIP port of `netinet/in.h`. -/
def IPPORT_RIP : Nat := 520

/-- Size of `struct iphdr` (no options). -/
def sizeof_iphdr : Nat := 20

/-- Size of `struct udphdr`. -/
def sizeof_udphdr : Nat := 8

/-- Size of `struct psdhdr` of typedefs.h: 4 + 4 + 1 + 1 + 2. -/
def sizeof_psdhdr : Nat := 12

/-- Modelled from the spec: constant of the absent `defines.h`, upstream value (RIP header,
4 bytes). -/
def RIP_HEADER_LENGTH : Nat := 4

/-- Modelled from the spec: constant of the absent `defines.h`, upstream value (one route
entry, 20 bytes). -/
def RIP_MESSAGE_LENGTH : Nat := 20

/-- Modelled from the spec: constant of the absent `defines.h`, upstream value (the
authentication entry, 20 bytes). -/
def RIP_AUTH_LENGTH : Nat := 20

/-- Modelled from the spec: constant of the absent `defines.h`, upstream value (the first
4 bytes of the authentication trailer). -/
def RIP_TRAILER_LENGTH : Nat := 4

/-- Modelled from the spec: constant of the absent `defines.h`, upstream value (an
HMAC-MD5 digest, 16 bytes). -/
def AUTH_TLEN_HMACMD5 : Nat := 16

/-- Modelled from the spec: constant of the absent `defines.h`, the value of a field that
must be zero. -/
def FIELD_MUST_BE_ZERO : Nat := 0

/-- Modelled from the spec: the macro `rip_hdr_len` of the absent `defines.h`: 24 bytes
without authentication, 24 + 20 + 4 + 16 with it. -/
def rip_hdr_len (auth : Bool) : Nat :=
  RIP_HEADER_LENGTH + RIP_MESSAGE_LENGTH +
    (if auth then RIP_AUTH_LENGTH + RIP_TRAILER_LENGTH + AUTH_TLEN_HMACMD5 else 0)

/-- Modelled from the spec: the macro `auth_hmac_md5_len` of the absent `defines.h`: the
digest length when authentication is on. -/
def auth_hmac_md5_len (auth : Bool) : Nat := if auth then AUTH_TLEN_HMACMD5 else 0

/-- A 16-bit value in network byte order, `htons`. Words of the buffer are read most
significant byte first, so the conversion only truncates to `uint16_t`. -/
def htons (x : Nat) : Nat := x % 65536

/-- A 32-bit value in network byte order, `htonl`; see `htons`. -/
def htonl (x : Nat) : Nat := x % 4294967296

/-- The functions that `ripv2` calls and that are not in ripv2.c. `ip_header` and
`gre_encapsulation` return the address of the IP header they wrote, as an offset in
`packet` (`none` is NULL). -/
structure Collab where
  gre_opt_len : Nat → Bool → Nat
  ip_header : World → Nat → config_options → World × Nat
  gre_encapsulation : World → config_options → Nat → World × Option Nat
  gre_checksum : World → config_options → Nat → World
  NETMASK_RND : Nat → (Nat → Nat) → Nat → Nat × Nat

/-- What the collaborators of `ripv2` are assumed to do (spec 4.5 and 4.6): `ip_header`
writes the outer header at offset 0 and returns its address, `gre_encapsulation` returns
the inner header when the datagram is encapsulated, and `gre_checksum` only writes inside
the GRE header, before the transport header. -/
def Collab.conforms (cb : Collab) (co : config_options) : Prop :=
  (∀ w n, (cb.ip_header w n co).2 = 0) ∧
  (co.encapsulated = true → ∀ w n, (cb.gre_encapsulation w co n).2.isSome = true) ∧
  (∀ w n a, sizeof_iphdr + cb.gre_opt_len co.gre.options co.encapsulated ≤ a →
    (cb.gre_checksum w co n).packet a = w.packet a)

/-- What `ripv2` does, in order: the calls it makes and the bytes it stores itself. -/
inductive Op
  | alloc_packet (size : Nat)
  | ip_header (size : Nat)
  | gre_encapsulation (len : Nat)
  | store (off : Nat)
  | cksum (off len : Nat)
  | gre_checksum (size : Nat)
  deriving DecidableEq

/-- State of a builder: the shared state, the cursor `buffer.ptr` (an offset in
`packet`) and the operations done so far. -/
structure Builder where
  world : World
  ptr : Nat
  log : List Op

/-- Store of one byte at an offset of `packet`. -/
def store8 (b : Builder) (off v : Nat) : Builder :=
  { b with
    world := { b.world with packet := fun a => if a = off then v % 256 else b.world.packet a }
    log := b.log ++ [Op.store off] }

/-- Store of a 16-bit word, most significant byte first. -/
def store16 (b : Builder) (off v : Nat) : Builder :=
  store8 (store8 b off (v / 256)) (off + 1) v

/-- Store of a 32-bit word, most significant byte first. -/
def store32 (b : Builder) (off v : Nat) : Builder :=
  store16 (store16 b off (v / 65536)) (off + 2) v

/-- Load of a byte. -/
def load8 (m : Nat → Nat) (off : Nat) : Nat := m off % 256

/-- Load of a 16-bit word, most significant byte first. -/
def load16 (m : Nat → Nat) (off : Nat) : Nat := load8 m off * 256 + load8 m (off + 1)

/-- Load of a 32-bit word, most significant byte first. -/
def load32 (m : Nat → Nat) (off : Nat) : Nat := load16 m off * 65536 + load16 m (off + 2)

/-- The statement `*buffer.byte_ptr++ = v`. -/
def put8 (b : Builder) (v : Nat) : Builder :=
  { store8 b b.ptr v with ptr := b.ptr + 1 }

/-- The statement `*buffer.word_ptr++ = v`. -/
def put16 (b : Builder) (v : Nat) : Builder :=
  { store16 b b.ptr v with ptr := b.ptr + 2 }

/-- The statements `*buffer.dword_ptr++ = v` and `*buffer.inaddr_ptr++ = v`. -/
def put32 (b : Builder) (v : Nat) : Builder :=
  { store32 b b.ptr v with ptr := b.ptr + 4 }

/-- A call of `RANDOM()` in a builder. -/
def Builder.RANDOM (b : Builder) : Nat × Builder :=
  (b.world.rng b.world.rng_pos,
    { b with world := { b.world with rng_pos := b.world.rng_pos + 1 } })

/-- Modelled from the spec: the macros `__RND` and `INADDR_RND` of the absent `defines.h`:
"if the caller supplied 0 the builder substitutes a fresh PRNG sample; otherwise it uses
the caller value verbatim". -/
def __RND (foo : Nat) (b : Builder) : Nat × Builder :=
  if foo = 0 then b.RANDOM else (foo, b)

/-- A call of the collaborator `NETMASK_RND`, which may draw PRNG samples. -/
def Builder.NETMASK_RND (cb : Collab) (v : Nat) (b : Builder) : Nat × Builder :=
  let r := cb.NETMASK_RND v b.world.rng b.world.rng_pos
  (r.1, { b with world := { b.world with rng_pos := r.2 } })

/-- Lines 108-110: command, version and routing domain. -/
def rip_header (co : config_options) (b : Builder) : Builder :=
  let b := put8 b co.rip.command
  let b := put8 b RIPVERSION
  let r := __RND co.rip.domain b
  put16 r.2 (htons r.1)

/-- Lines 158-172: the authentication entry, written when `co->rip.auth` is set. -/
def rip_auth_entry (co : config_options) (b : Builder) : Builder :=
  if co.rip.auth then
    let b := put16 b (htons 0xffff)
    let b := put16 b (htons 0x0003)
    let b := put16 b (htons (RIP_HEADER_LENGTH + RIP_AUTH_LENGTH + RIP_MESSAGE_LENGTH))
    let b := put8 b co.rip.key_id
    let b := put8 b RIP_AUTH_LENGTH
    let r := __RND co.rip.sequence b
    let b := put32 r.2 (htonl r.1)
    let b := put32 b FIELD_MUST_BE_ZERO
    put32 b FIELD_MUST_BE_ZERO
  else b

/-- Lines 203-208: the route entry. -/
def rip_route_entry (cb : Collab) (co : config_options) (b : Builder) : Builder :=
  let r := __RND co.rip.family b
  let b := put16 r.2 (htons r.1)
  let r := __RND co.rip.tag b
  let b := put16 r.2 (htons r.1)
  let r := __RND co.rip.address b
  let b := put32 r.2 r.1
  let r := Builder.NETMASK_RND cb (htonl co.rip.netmask) b
  let b := put32 r.2 r.1
  let r := __RND co.rip.next_hop b
  let b := put32 r.2 r.1
  let r := __RND co.rip.metric b
  put32 r.2 (htonl r.1)

/-- Lines 237-238: `size` bytes of digest, each a PRNG sample. -/
def rip_digest : Nat → Builder → Builder
  | 0, b => b
  | size + 1, b =>
    let r := b.RANDOM
    rip_digest size (put8 r.2 r.1)

/-- Lines 226-242: the authentication trailer, written when `co->rip.auth` is set. -/
def rip_auth_trailer (co : config_options) (b : Builder) : Builder :=
  if co.rip.auth then
    let b := put16 b (htons 0xffff)
    let b := put16 b (htons 0x0001)
    rip_digest (auth_hmac_md5_len co.rip.auth) b
  else b

/-- Lines 108-242: the RIP payload, written from the cursor on. -/
def rip_payload (cb : Collab) (co : config_options) (b : Builder) : Builder :=
  rip_auth_trailer co (rip_route_entry cb co (rip_auth_entry co (rip_header co b)))

/-- Lines 245-250: the pseudo-header at `pseudo`, its addresses copied from the IP header
at `src`; the value is the builder and `length`. -/
def rip_pseudo (co : config_options) (udp src : Nat) (b : Builder) : Builder × Nat :=
  let pseudo := b.ptr
  let b := store32 b pseudo (load32 b.world.packet (src + 12))
  let b := store32 b (pseudo + 4) (load32 b.world.packet (src + 16))
  let b := store8 b (pseudo + 8) 0
  let b := store8 b (pseudo + 9) co.ip.protocol
  let length := b.ptr - udp
  (store16 b (pseudo + 10) (htons length), length)

/-- Lines 259-260: the UDP checksum, a PRNG sample when `co->bogus_csum` is set. -/
def rip_check (co : config_options) (udp length : Nat) (b : Builder) : Builder :=
  if co.bogus_csum then
    let r := b.RANDOM
    store16 r.2 (udp + 6) r.1
  else
    let b := { b with log := b.log ++ [Op.cksum udp (length + sizeof_psdhdr)] }
    store16 b (udp + 6) (cksum b.world.packet udp (length + sizeof_psdhdr))

/-- The locals of `ripv2` at line 75, after the UDP header has been written: the builder
state, `*size`, and `ip`, `gre_ip`, `udp` as offsets in `packet`. -/
structure RipStart where
  b : Builder
  size : Nat
  ip : Nat
  gre_ip : Option Nat
  udp : Nat

/-- Lines 48-75 of `ripv2`: sizing, allocation, the IP and GRE headers (written by the
collaborators), the UDP header, and the cursor set after it. -/
def ripv2_start (cb : Collab) (co : config_options) (w : World) : RipStart :=
  let greoptlen := cb.gre_opt_len co.gre.options co.encapsulated
  let size := sizeof_iphdr + greoptlen + sizeof_udphdr + rip_hdr_len co.rip.auth + sizeof_psdhdr
  let w := alloc_packet w size
  let r := cb.ip_header w size co
  let ip := r.2
  let len := sizeof_iphdr + sizeof_udphdr + rip_hdr_len co.rip.auth
  let g := cb.gre_encapsulation r.1 co len
  let udp := ip + sizeof_iphdr + greoptlen
  let b : Builder :=
    { world := g.1, ptr := 0,
      log := [Op.alloc_packet size, Op.ip_header size, Op.gre_encapsulation len] }
  let b := store16 b udp (htons IPPORT_RIP)
  let b := store16 b (udp + 2) (htons IPPORT_RIP)
  let b := store16 b (udp + 4) (htons (sizeof_udphdr + rip_hdr_len co.rip.auth))
  let b := store16 b (udp + 6) 0
  { b := { b with ptr := udp + sizeof_udphdr }, size := size, ip := ip, gre_ip := g.2,
    udp := udp }

/-- What a call of `ripv2` leaves: the shared state, the value stored in `*size`, the
operations done, and the final values of the locals `ip`, `gre_ip`, `udp`, `pseudo`
(offsets in `packet`) and `length`. -/
structure RipRun where
  world : World
  size : Nat
  log : List Op
  ip : Nat
  gre_ip : Option Nat
  udp : Nat
  pseudo : Nat
  length : Nat

/-- Lines 245-263 of `ripv2`: pseudo-header, checksum and `gre_checksum`, with the RIP
payload written (`b`) and the IP header at `src` providing the addresses. -/
def ripv2_finish (cb : Collab) (co : config_options) (s : RipStart) (b : Builder)
    (src : Nat) : RipRun :=
  let p := rip_pseudo co s.udp src b
  let b1 := rip_check co s.udp p.2 p.1
  { world := cb.gre_checksum b1.world co s.size
    size := s.size
    log := b1.log ++ [Op.gre_checksum s.size]
    ip := s.ip
    gre_ip := s.gre_ip
    udp := s.udp
    pseudo := b.ptr
    length := p.2 }

/-- The function `ripv2` of modules/ripv2.c. `none` is a read through a NULL `gre_ip`
(`co->encapsulated ? gre_ip->saddr : ip->saddr`). -/
def ripv2 (cb : Collab) (co : config_options) (w : World) : Option RipRun :=
  let s := ripv2_start cb co w
  let b := rip_payload cb co s.b
  match (if co.encapsulated then s.gre_ip else some s.ip) with
  | none => none
  | some src => some (ripv2_finish cb co s b src)

/-! ## Definitions used by the statements and proofs -/

/-- The `protocol_id` of the entry at index `c` of a modules table (0 outside it). -/
def protocol_at (tbl : List modules_table_t) (c : Nat) : Nat :=
  match tbl.get? c with
  | some e => e.protocol_id
  | none => 0

/-- The modules table can serve the configuration: in mixed mode it holds one entry or
more with a builder, then a sentinel entry with a NULL builder; with a single protocol
the entry at `co->ip.protoname` holds a builder. -/
def table_ok (env : Env) (co : config_options) : Prop :=
  if co.ip.protocol % 256 = IPPROTO_T50 then
    ∃ entries sentinel, env.mod_table = entries ++ [sentinel] ∧ entries ≠ [] ∧
      (∀ e ∈ entries, e.func.isSome = true) ∧ sentinel.func.isNone = true
  else ∃ e, env.mod_table.get? co.ip.protoname = some e ∧ e.func.isSome = true

/-- The table cursor at the start of iteration `i` (from 0) of the loop. -/
def cursor_at (env : Env) (co : config_options) (i : Nat) : Nat :=
  if co.ip.protocol % 256 = IPPROTO_T50 then i % (env.mod_table.length - 1)
  else co.ip.protoname

/-- The value of a one's-complement sum of 16-bit words whose plain sum is `x`. -/
def oc_norm (x : Nat) : Nat := if x = 0 then 0 else (x - 1) % 65535 + 1

/-- The builder state `b1` is reached from `b` by moving the cursor forward and storing
only in `[b.ptr, b1.ptr)`. -/
def Grows (b b1 : Builder) : Prop :=
  b.ptr ≤ b1.ptr ∧ (∀ a, a < b.ptr → b1.world.packet a = b.world.packet a) ∧
  ∃ new, b1.log = b.log ++ new ∧
    ∀ op ∈ new, ∃ off, op = Op.store off ∧ b.ptr ≤ off ∧ off < b1.ptr

/-! ## Concrete inputs -/

/-- An instance of the collaborators of `ripv2`, used as a concrete input: the GRE
options take 4 bytes each after the 4-byte GRE header, `ip_header` writes the total
length and the two addresses of the outer header. -/
def collab_example : Collab :=
  { gre_opt_len := fun options encapsulated =>
      if encapsulated then
        4 + (if options % 2 = 1 then 4 else 0) + (if options / 2 % 2 = 1 then 4 else 0) +
          (if options / 4 % 2 = 1 then 4 else 0)
      else 0
    ip_header := fun w n co =>
      ({ w with packet := fun a =>
          if a = 2 then n / 256 % 256 else if a = 3 then n % 256
          else if a = 12 then co.ip.saddr / 16777216 % 256
          else if a = 13 then co.ip.saddr / 65536 % 256
          else if a = 14 then co.ip.saddr / 256 % 256
          else if a = 15 then co.ip.saddr % 256
          else if a = 16 then co.ip.daddr / 16777216 % 256
          else if a = 17 then co.ip.daddr / 65536 % 256
          else if a = 18 then co.ip.daddr / 256 % 256
          else if a = 19 then co.ip.daddr % 256
          else w.packet a }, 0)
    gre_encapsulation := fun w co _ => (w, if co.encapsulated then some 28 else none)
    gre_checksum := fun w _ _ => w
    NETMASK_RND := fun v rng pos => if v = 0 then (rng pos, pos + 1) else (v, pos) }

/-- A RIPv2 configuration with authentication and key id 7, threshold 3, used as a
concrete input. -/
def co_ripv2 : config_options :=
  { turbo := false, flood := false, threshold := 3, bits := 24, encapsulated := false,
    bogus_csum := false,
    ip := { protocol := 17, protoname := 1, daddr := 3325256704, saddr := 167772161 },
    gre := { options := 0 },
    rip := { auth := true, command := 2, domain := 0, key_id := 7, sequence := 0, family := 2,
             tag := 0, address := 0, netmask := 0, next_hop := 0, metric := 1 } }

/-- The configuration `co_ripv2` without authentication. -/
def co_ripv2_plain : config_options :=
  { co_ripv2 with rip := { co_ripv2.rip with auth := false } }

/-- The configuration `co_ripv2` with turbo set and threshold 7. -/
def co_turbo : config_options :=
  { co_ripv2 with turbo := true, threshold := 7 }

/-- The configuration `co_ripv2` in mixed mode, threshold 6. -/
def co_mixed : config_options :=
  { co_ripv2 with threshold := 6, ip := { co_ripv2.ip with protocol := IPPROTO_T50 } }

/-- A world with an empty buffer and the PRNG samples 7, 18, 29, ... -/
def world_example : World :=
  { packet := fun _ => 0, current_packet_size := 0, rng := fun i => 11 * i + 7, rng_pos := 0 }

/-- A builder that writes nothing and reports 28 bytes. -/
def builder_example : module_func_ptr_t := fun _ w => (w, 28)

/-- The block 198.51.100.0/24: first host 198.51.100.1, 254 hosts. -/
def cidr_example : cidr := { hostid := 254, __1st_addr := 3325256705 }

/-- Two registered modules. -/
def entries_example : List modules_table_t :=
  [{ protocol_id := 1, func := some builder_example },
   { protocol_id := 17, func := some builder_example }]

/-- The sentinel entry of the modules table. -/
def sentinel_example : modules_table_t := { protocol_id := 0, func := none }

/-- A run as root with two registered modules in which every send succeeds. -/
def env_example : Env :=
  { have_turbo := true
    getConfigOptions := some co_ripv2
    getuid := 0
    checkConfigOptions := fun _ => true
    createSocket := true
    getNumberOfRegisteredModules := 2
    fork := 1234
    setpriority := 0
    config_cidr := fun _ _ => some cidr_example
    mod_table := entries_example ++ [sentinel_example]
    INITIAL_PACKET_SIZE := 2048
    sendPacket := fun _ => true
    htonl := fun x => x
    world := world_example }

/-- The run `env_example` in mixed mode. -/
def env_mixed : Env := { env_example with getConfigOptions := some co_mixed }

/-- The run `env_example` in which the third send fails. -/
def env_fail : Env := { env_example with sendPacket := fun i => decide (i < 2) }

/-! ## Definitions for the turbo section, the signal handler and the privilege check -/

/-- The calls made by the turbo section. -/
def TurboResult.trace : TurboResult → List Event
  | .ret _ t => t
  | .go _ _ t => t

/-- Recognises a call of `closeSocket`. -/
def Event.is_closeSocket : Event → Bool
  | .closeSocket => true
  | _ => false

/-- Number of calls of `closeSocket` in a trace. -/
def closes (t : List Event) : Nat := t.countP Event.is_closeSocket

/-- The static `pid` of t50.c after the calls of a trace: -1 at first, then the value that
the last `fork` returned (`pid = fork()`, line 74). -/
def pid_after (t : List Event) : Int :=
  t.foldl (fun pid e => match e with
    | .fork p => p
    | _ => pid) (-1)

/-- A run of `main` ended by a trapped signal, delivered after the first `n` calls of the
run: the handler runs with the static `pid` as these calls left it and calls `exit`. -/
def interrupted (env : Env) (fuel n : Nat) (signal : Int) : Run :=
  let t := (main env fuel).trace.take n
  let h := signal_handler env.have_turbo (pid_after t) signal
  { trace := t ++ h.1, outcome := h.2, co := (main env fuel).co }

/-- The credentials of the process: real and effective user id. -/
structure Credentials where
  uid : Nat
  euid : Nat

/-- The run of a process with given credentials: `getuid()` returns the real user id. -/
def Env.run_as (env : Env) (c : Credentials) : Env := { env with getuid := c.uid }

/-- The run refused to start: `main` returned a non-zero status without having called
`createSocket` or a builder or `sendPacket`. -/
def refuses (r : Run) : Prop :=
  (∃ status, r.outcome = Outcome.exited status ∧ status ≠ 0) ∧
    Event.createSocket ∉ r.trace ∧ calls r.trace = []

/-- The configuration `co_ripv2` with flood set. -/
def co_flood : config_options := { co_ripv2 with flood := true }

/-- The run `env_example` in flood mode. -/
def env_flood : Env := { env_example with getConfigOptions := some co_flood }

/-- The run `env_example` with turbo set and threshold 7. -/
def env_turbo : Env := { env_example with getConfigOptions := some co_turbo }

/-! ## Definitions for the checksum field and the GRE layout -/

/-- Lines 48-250 of `ripv2`: the builder state and `length` right before the checksum
statement of lines 259-260, the pseudo-header written; `none` as in `ripv2`. -/
def ripv2_before_check (cb : Collab) (co : config_options) (w : World) :
    Option (Builder × Nat) :=
  let s := ripv2_start cb co w
  let b := rip_payload cb co s.b
  match (if co.encapsulated then s.gre_ip else some s.ip) with
  | none => none
  | some src => some (rip_pseudo co s.udp src b)

/-- Lines 48-65 of `ripv2`: the shared state as `ip_header` and `gre_encapsulation` leave
it, before `ripv2` stores a byte itself. -/
def ripv2_headers (cb : Collab) (co : config_options) (w : World) : World :=
  let greoptlen := cb.gre_opt_len co.gre.options co.encapsulated
  let size := sizeof_iphdr + greoptlen + sizeof_udphdr + rip_hdr_len co.rip.auth + sizeof_psdhdr
  let r := cb.ip_header (alloc_packet w size) size co
  (cb.gre_encapsulation r.1 co (sizeof_iphdr + sizeof_udphdr + rip_hdr_len co.rip.auth)).1

/-- A RIPv2 configuration without authentication in which every RIP field is given, so
that no PRNG sample is drawn, and whose route tag 45665 makes the 16-bit words of the
UDP header, the RIP payload and the pseudo-header sum to 0xFFFF. -/
def co_zero_csum : config_options :=
  { co_ripv2 with
    rip := { auth := false, command := 2, domain := 1, key_id := 0, sequence := 0, family := 2,
             tag := 45665, address := 167772160, netmask := 4294967040,
             next_hop := 167772161, metric := 1 } }

/-- The configuration `co_ripv2_plain` with `bogus_csum` set. -/
def co_bogus : config_options := { co_ripv2_plain with bogus_csum := true }

/-- The configuration `co_bogus` with other addresses and another RIP command. -/
def co_bogus_other : config_options :=
  { co_bogus with
    ip := { co_bogus.ip with saddr := 3232235777, daddr := 3232235778 },
    rip := { co_bogus.rip with command := 1 } }

/-- Modelled from the spec: the collaborators `collab_example` with the inner IP header
right after the GRE header and its options, `gre_opt_len` being "the fixed GRE header
(4 bytes) plus 4 bytes per enabled option". -/
def collab_spec : Collab :=
  { collab_example with
    gre_encapsulation := fun w co _ =>
      (w, if co.encapsulated then
        some (sizeof_iphdr + collab_example.gre_opt_len co.gre.options co.encapsulated)
      else none) }

/-- The builder state `b1` is reached from `b` by storing one byte at each offset of
`[b.ptr, b1.ptr)`, in increasing order, and doing nothing else. -/
def Fills (b b1 : Builder) : Prop :=
  b.ptr ≤ b1.ptr ∧
  b1.log = b.log ++ (List.range (b1.ptr - b.ptr)).map (fun i => Op.store (b.ptr + i))

/-! ## Definitions for the builder as a table entry and the inner header -/

/-- The builder `ripv2` as an entry of the modules table holds it (`module_func_ptr_t`,
called as `ptbl->func(co, &size)`): the shared state it leaves and the value it stores in
`*size`. A call that reads through a NULL `gre_ip` has no result; it is given the state
unchanged and size 0, and collaborators that conform exclude it. -/
def ripv2_func (cb : Collab) : module_func_ptr_t := fun co w =>
  match ripv2 cb co w with
  | some r => (r.world, r.size)
  | none => (w, 0)

/-- The run `env_example` with the configuration `co_ripv2_plain`, in which the second
registered module is the RIPv2 builder. -/
def env_rip : Env :=
  { env_example with
    getConfigOptions := some co_ripv2_plain
    mod_table :=
      [{ protocol_id := 1, func := some builder_example },
       { protocol_id := 17, func := some (ripv2_func collab_example) },
       sentinel_example] }

theorem wrap_int32_id (x : Int) (h1 : -2147483648 ≤ x) (h2 : x < 2147483648) : wrap_int32 x = x := by
  unfold wrap_int32; omega

theorem calls_append (a b : List Event) : calls (a ++ b) = calls a ++ calls b := by
  simp [calls, List.filterMap_append]

theorem builds_append (a b : List Event) : builds (a ++ b) = builds a ++ builds b := by
  simp [builds, List.filterMap_append]

theorem pick_daddr_isSome (c : cidr) (co : config_options) (w : World) :
    ∃ co1 w1, pick_daddr c co w = some (co1, w1) ∧ co1.threshold = co.threshold ∧
      co1.flood = co.flood := by
  unfold pick_daddr
  by_cases h : c.hostid = 0
  · simp [h]
  · simp [h, RANDOM, c_mod]

/-- The body of the loop when the cursor is on a real entry and the send succeeds. -/
theorem loop_body_next (env : Env) (proto : Nat) (c : cidr) (s : LoopState)
    (e : modules_table_t) (f : module_func_ptr_t) (p1 : Nat)
    (he : env.mod_table.get? s.ptbl = some e) (hf : e.func = some f)
    (hadv : advance_ptbl env proto s.ptbl = some p1)
    (hs : env.sendPacket s.sends = true) :
    ∃ s1, loop_body env proto c s = BodyResult.next s1 ∧ s1.ptbl = p1 ∧
      s1.sends = s.sends + 1 ∧ s1.co.threshold = s.co.threshold ∧ s1.co.flood = s.co.flood ∧
      calls s1.trace = calls s.trace ++ [Call.builder, Call.sendPacket] ∧
      builds s1.trace = builds s.trace ++ [(s.ptbl, e.protocol_id)] := by
  obtain ⟨co1, w1, hp, ht, hfl⟩ := pick_daddr_isSome c s.co s.world
  simp only [loop_body, hp, he, hf, hs, hadv]
  refine ⟨_, rfl, rfl, rfl, ht, hfl, ?_, ?_⟩
  · simp [calls_append, calls, Event.call]
  · simp [builds_append, builds]

/-- The body of the loop when the cursor is on a real entry and the send fails. -/
theorem loop_body_ret (env : Env) (proto : Nat) (c : cidr) (s : LoopState)
    (e : modules_table_t) (f : module_func_ptr_t)
    (he : env.mod_table.get? s.ptbl = some e) (hf : e.func = some f)
    (hs : env.sendPacket s.sends = false) :
    ∃ s1 d size, loop_body env proto c s = BodyResult.ret EXIT_FAILURE s1 ∧
      s1.sends = s.sends + 1 ∧
      s1.trace = s.trace ++ [Event.build s.ptbl e.protocol_id d, Event.send size false] := by
  obtain ⟨co1, w1, hp, ht, hfl⟩ := pick_daddr_isSome c s.co s.world
  simp only [loop_body, hp, he, hf, hs]
  exact ⟨_, _, _, rfl, rfl, rfl⟩

/-- The calls of one execution of the loop body: the builder is called with the selected
destination, converted, and `sendPacket` receives the size the builder stored. -/
theorem loop_body_trace (env : Env) (proto : Nat) (c : cidr) (s : LoopState)
    (e : modules_table_t) (f : module_func_ptr_t) (co1 : config_options) (w1 : World)
    (hp : pick_daddr c s.co s.world = some (co1, w1))
    (he : env.mod_table.get? s.ptbl = some e) (hf : e.func = some f) :
    (loop_body env proto c s).state.trace =
      s.trace ++ [Event.build s.ptbl e.protocol_id (env.htonl co1.ip.daddr),
        Event.send
          (f { co1 with ip := { co1.ip with
                daddr := env.htonl co1.ip.daddr
                protocol := e.protocol_id } } w1).2
          (env.sendPacket s.sends)] := by
  simp only [loop_body, hp, he, hf]
  cases env.sendPacket s.sends
  · rfl
  · cases advance_ptbl env proto s.ptbl <;> rfl

/-- One full turn of the loop: the test holds, the send succeeds. -/
theorem main_loop_step (env : Env) (proto : Nat) (c : cidr) (s : LoopState)
    (e : modules_table_t) (f : module_func_ptr_t) (p1 : Nat)
    (hgo : s.co.flood = true ∨ 0 < s.co.threshold)
    (hr : s.co.threshold < 2147483648)
    (he : env.mod_table.get? s.ptbl = some e) (hf : e.func = some f)
    (hadv : advance_ptbl env proto s.ptbl = some p1)
    (hs : env.sendPacket s.sends = true) :
    ∃ s1, (∀ fuel, main_loop env proto c (fuel + 1) s = main_loop env proto c fuel s1) ∧
      s1.ptbl = p1 ∧ s1.sends = s.sends + 1 ∧ s1.co.flood = s.co.flood ∧
      s1.co.threshold = (if s.co.flood = true then s.co.threshold else s.co.threshold - 1) ∧
      calls s1.trace = calls s.trace ++ [Call.builder, Call.sendPacket] ∧
      builds s1.trace = builds s.trace ++ [(s.ptbl, e.protocol_id)] := by
  by_cases hfl : s.co.flood = true
  · obtain ⟨s1, h1, h2, h3, h4, h5, h6, h7⟩ :=
      loop_body_next env proto c { s with co := s.co } e f p1 he hf hadv hs
    refine ⟨s1, ?_, h2, h3, h5, ?_, h6, h7⟩
    · intro fuel
      simp only [main_loop, loop_test, hfl, if_true]
      rw [h1]
    · simp [hfl, h4]
  · have hpos : 0 < s.co.threshold := by
      rcases hgo with h | h
      · exact absurd h hfl
      · exact h
    have hfl' : s.co.flood = false := by simpa using hfl
    obtain ⟨s1, h1, h2, h3, h4, h5, h6, h7⟩ :=
      loop_body_next env proto c
        { s with co := { s.co with threshold := wrap_int32 (s.co.threshold - 1) } } e f p1 he hf hadv hs
    have hlt : loop_test s.co =
        (true, { s.co with threshold := wrap_int32 (s.co.threshold - 1) }) := by
      simp [loop_test, hfl', hpos]
    refine ⟨s1, ?_, h2, h3, ?_, ?_, h6, h7⟩
    · intro fuel
      simp only [main_loop, hlt, h1]
    · simpa using h5
    · simp only [hfl', Bool.false_eq_true, if_false]
      rw [h4]
      exact wrap_int32_id _ (by omega) (by omega)

theorem main_loop_iterate (env : Env) (proto : Nat) (c : cidr) (cur : Nat → Nat) (k : Nat) :
    ∀ s : LoopState, s.ptbl = cur 0 →
      (0 < k → s.co.flood = true ∨ (k : Int) ≤ s.co.threshold) →
      s.co.threshold < 2147483648 →
      (∀ j < k, ∃ e f, env.mod_table.get? (cur j) = some e ∧ e.func = some f ∧
        advance_ptbl env proto (cur j) = some (cur (j + 1))) →
      (∀ j < k, env.sendPacket (s.sends + j) = true) →
      ∃ sk, (∀ fuel, main_loop env proto c (k + fuel) s = main_loop env proto c fuel sk) ∧
        sk.ptbl = cur k ∧ sk.sends = s.sends + k ∧ sk.co.flood = s.co.flood ∧
        sk.co.threshold = (if s.co.flood = true then s.co.threshold else s.co.threshold - k) ∧
        calls sk.trace =
          calls s.trace ++ (List.replicate k [Call.builder, Call.sendPacket]).flatten ∧
        builds sk.trace =
          builds s.trace ++ (List.range k).map (fun j => (cur j, protocol_at env.mod_table (cur j))) := by
  induction k with
  | zero =>
    intro s h0 _ _ _ _
    exact ⟨s, by intro fuel; simp, h0, by simp, rfl, by simp, by simp, by simp⟩
  | succ k ih =>
    intro s h0 hgo hr htab hsend
    have hgo := hgo (by omega)
    obtain ⟨sk, hk1, hk2, hk3, hk4, hk5, hk6, hk7⟩ := ih s h0
      (by intro _
          rcases hgo with h | h
          · exact Or.inl h
          · right; push_cast at h; omega) hr
      (fun j hj => htab j (by omega)) (fun j hj => hsend j (by omega))
    obtain ⟨e, f, he, hf, hadv⟩ := htab k (by omega)
    have hgo' : sk.co.flood = true ∨ 0 < sk.co.threshold := by
      rcases hgo with h | h
      · left; rw [hk4]; exact h
      · by_cases hfl : s.co.flood = true
        · left; rw [hk4]; exact hfl
        · right; rw [hk5]; simp only [hfl, if_false]; push_cast at h; omega
    have hr' : sk.co.threshold < 2147483648 := by
      rw [hk5]; split <;> omega
    obtain ⟨s1, h1, h2, h3, h4, h5, h6, h7⟩ := main_loop_step env proto c sk e f (cur (k + 1))
      hgo' hr' (by rw [hk2]; exact he) hf (by rw [hk2]; exact hadv)
      (by rw [hk3]; exact hsend k (by omega))
    refine ⟨s1, ?_, h2, ?_, ?_, ?_, ?_, ?_⟩
    · intro fuel
      have := hk1 (fuel + 1)
      rw [show k + 1 + fuel = k + (fuel + 1) by omega, this, h1]
    · rw [h3, hk3]; omega
    · rw [h4, hk4]
    · rw [h5, hk5, hk4]
      split
      · rfl
      · push_cast; omega
    · rw [h6, hk6, List.replicate_succ']
      simp
    · have hp : protocol_at env.mod_table (cur k) = e.protocol_id := by
        unfold protocol_at; rw [he]
      rw [h7, hk7, List.range_succ, hk2]
      simp [hp]


theorem table_ok_cursor (env : Env) (co : config_options) (h : table_ok env co) (j : Nat) :
    ∃ e f, env.mod_table.get? (cursor_at env co j) = some e ∧ e.func = some f ∧
      advance_ptbl env (co.ip.protocol % 256) (cursor_at env co j) =
        some (cursor_at env co (j + 1)) := by
  unfold table_ok at h
  by_cases hm : co.ip.protocol % 256 = IPPROTO_T50
  · rw [if_pos hm] at h
    obtain ⟨entries, sentinel, htbl, hne, hfun, hsent⟩ := h
    have hlen : env.mod_table.length - 1 = entries.length := by simp [htbl]
    have hpos : 0 < entries.length := List.length_pos.mpr hne
    simp only [cursor_at, if_pos hm, hlen]
    have hlt : j % entries.length < entries.length := Nat.mod_lt _ hpos
    have hget : env.mod_table.get? (j % entries.length) = some (entries.get ⟨_, hlt⟩) := by
      rw [htbl]; simp [List.getElem?_append_left hlt]
    have hsome := hfun _ (List.get_mem entries _ hlt)
    obtain ⟨f, hf⟩ := Option.isSome_iff_exists.mp hsome
    refine ⟨_, f, hget, hf, ?_⟩
    unfold advance_ptbl
    rw [if_pos hm]
    by_cases hlast : j % entries.length + 1 < entries.length
    · have hget2 : env.mod_table.get? (j % entries.length + 1) =
          some (entries.get ⟨_, hlast⟩) := by
        rw [htbl]; simp [List.getElem?_append_left hlast]
      have hsome2 := hfun _ (List.get_mem entries _ hlast)
      have hnn : (entries.get ⟨_, hlast⟩).func.isNone = false := by
        rw [Option.isNone_eq_false_iff]; exact hsome2
      have hmod : (j + 1) % entries.length = j % entries.length + 1 := by
        rw [Nat.add_mod]
        have h1 : 1 % entries.length = 1 := Nat.mod_eq_of_lt (by omega)
        rw [h1, Nat.mod_eq_of_lt hlast]
      simp only [hget2, hnn, hmod]
      simp
    · have heq : j % entries.length + 1 = entries.length := by omega
      have hget2 : env.mod_table.get? (j % entries.length + 1) = some sentinel := by
        rw [htbl, heq]; simp
      have hmod : (j + 1) % entries.length = 0 := by
        rw [Nat.add_mod]
        by_cases h1 : entries.length = 1
        · rw [h1]; exact Nat.mod_one _
        · have h1' : 1 % entries.length = 1 := Nat.mod_eq_of_lt (by omega)
          rw [h1', heq, Nat.mod_self]
      simp only [hget2, hsent, hmod]
      simp
  · rw [if_neg hm] at h
    obtain ⟨e, he, hsome⟩ := h
    obtain ⟨f, hf⟩ := Option.isSome_iff_exists.mp hsome
    simp only [cursor_at, if_neg hm]
    exact ⟨e, f, he, hf, by simp [advance_ptbl, hm]⟩

/-- The first `k` turns of the loop inside `main_inject`, when they all send. -/
theorem main_inject_loop (env : Env) (pid : Int) (co : config_options) (tr : List Event)
    (k : Nat) (htab : 0 < k → table_ok env co)
    (hgo : 0 < k → co.flood = true ∨ (k : Int) ≤ co.threshold)
    (hr : co.threshold < 2147483648)
    (hsend : ∀ j < k, env.sendPacket j = true) (cidr_ptr : cidr) :
    ∃ sk, (∀ fuel,
        main_loop env (co.ip.protocol % 256) cidr_ptr (k + fuel) (loop_start env pid co tr) =
          main_loop env (co.ip.protocol % 256) cidr_ptr fuel sk) ∧
      sk.ptbl = cursor_at env co k ∧ sk.sends = k ∧ sk.co.flood = co.flood ∧
      sk.co.threshold = (if co.flood = true then co.threshold else co.threshold - k) ∧
      calls sk.trace = calls tr ++ (List.replicate k [Call.builder, Call.sendPacket]).flatten ∧
      builds sk.trace =
        builds tr ++ (List.range k).map
          (fun j => (cursor_at env co j, protocol_at env.mod_table (cursor_at env co j))) := by
  have h := main_loop_iterate env (co.ip.protocol % 256) cidr_ptr (cursor_at env co) k
    (loop_start env pid co tr)
    (by simp only [cursor_at, loop_start]; split <;> simp_all) hgo hr
    (fun j hj => table_ok_cursor env co (htab (by omega)) j)
    (by simpa [loop_start] using hsend)
  obtain ⟨sk, h1, h2, h3, h4, h5, h6, h7⟩ := h
  refine ⟨sk, h1, h2, by simpa [loop_start] using h3, h4, h5, ?_, ?_⟩
  · rw [h6]
    cases hc : IS_CHILD_PID pid <;> simp [loop_start, calls, Event.call, hc]
  · rw [h7]
    cases hc : IS_CHILD_PID pid <;> simp [loop_start, builds, hc]

/-- The loop stops at the first test that finds the threshold exhausted. -/
theorem main_loop_stop (env : Env) (proto : Nat) (c : cidr) (s : LoopState) (fuel : Nat)
    (hfl : s.co.flood = false) (ht : s.co.threshold ≤ 0) :
    ∃ s1, main_loop env proto c (fuel + 1) s = (s1, LoopExit.condition_false) ∧
      s1.trace = s.trace := by
  have hlt : loop_test s.co =
      (false, { s.co with threshold := wrap_int32 (s.co.threshold - 1) }) := by
    simp [loop_test, hfl, ht]
  exact ⟨{ s with co := { s.co with threshold := wrap_int32 (s.co.threshold - 1) } },
    by simp only [main_loop, hlt], rfl⟩

/-- The loop returns `EXIT_FAILURE` at the first send that fails. -/
theorem main_loop_fail (env : Env) (proto : Nat) (c : cidr) (s : LoopState) (fuel : Nat)
    (e : modules_table_t) (f : module_func_ptr_t)
    (hgo : s.co.flood = true ∨ 0 < s.co.threshold)
    (he : env.mod_table.get? s.ptbl = some e) (hf : e.func = some f)
    (hs : env.sendPacket s.sends = false) :
    ∃ s1 d size, main_loop env proto c (fuel + 1) s = (s1, LoopExit.returned EXIT_FAILURE) ∧
      s1.trace = s.trace ++ [Event.build s.ptbl e.protocol_id d, Event.send size false] := by
  by_cases hfl : s.co.flood = true
  · obtain ⟨s1, d, size, h1, _, h3⟩ :=
      loop_body_ret env proto c { s with co := s.co } e f he hf hs
    have hlt : loop_test s.co = (true, s.co) := by simp [loop_test, hfl]
    exact ⟨s1, d, size, by simp only [main_loop, hlt, h1], h3⟩
  · have hpos : 0 < s.co.threshold := by
      rcases hgo with h | h
      · exact absurd h hfl
      · exact h
    have hfl' : s.co.flood = false := by simpa using hfl
    obtain ⟨s1, d, size, h1, _, h3⟩ := loop_body_ret env proto c
      { s with co := { s.co with threshold := wrap_int32 (s.co.threshold - 1) } } e f he hf hs
    have hlt : loop_test s.co =
        (true, { s.co with threshold := wrap_int32 (s.co.threshold - 1) }) := by
      simp [loop_test, hfl', hpos]
    exact ⟨s1, d, size, by simp only [main_loop, hlt, h1], h3⟩

theorem calls_epilogue (env : Env) (pid : Int) : calls (epilogue env pid) = [] := by
  unfold epilogue
  cases env.have_turbo <;> cases IS_CHILD_PID pid <;> simp [calls, Event.call]

theorem count_flatten_pair (n : Nat) :
    ((List.replicate n [Call.builder, Call.sendPacket]).flatten).count Call.builder = n ∧
    ((List.replicate n [Call.builder, Call.sendPacket]).flatten).count Call.sendPacket = n := by
  induction n with
  | zero => simp
  | succ n ih =>
    rw [List.replicate_succ]
    simp only [List.flatten_cons, List.count_append, ih.1, ih.2]
    constructor <;> simp [List.count_cons] <;> omega

/-- C1, threshold accounting. In a run of `main` that starts (configuration read, user
root, socket created), forks no second worker, has `flood` clear and in which every send
succeeds, with the initial threshold `N = co.threshold` in the range of `threshold_t`
and enough fuel to follow `N + 1` tests of the loop condition: `main` returns 0, and
its builder and `sendPacket` calls are exactly `N` pairs (builder, send), strictly
alternating, so `N` of each; for `N ≤ 0` there is none. The modules table only has to
serve the configuration when `N > 0`. -/
theorem main_threshold_accounting (env : Env) (co : config_options) (cidr_ptr : cidr)
    (fuel : Nat)
    (hcfg : env.getConfigOptions = some co) (hroot : env.getuid = 0)
    (hchk : env.checkConfigOptions co = true) (hsock : env.createSocket = true)
    (hnofork : (env.have_turbo && co.turbo && turbo_eligible env co) = false)
    (hcidr : env.config_cidr co.bits co.ip.daddr = some cidr_ptr)
    (htab : 0 < co.threshold → table_ok env co)
    (hflood : co.flood = false) (hr : co.threshold < 2147483648)
    (hsend : ∀ i, env.sendPacket i = true)
    (hfuel : co.threshold.toNat < fuel) :
    (main env fuel).outcome = Outcome.exited 0 ∧
    calls (main env fuel).trace =
      (List.replicate co.threshold.toNat [Call.builder, Call.sendPacket]).flatten ∧
    (calls (main env fuel).trace).count Call.builder = co.threshold.toNat ∧
    (calls (main env fuel).trace).count Call.sendPacket = co.threshold.toNat ∧
    (co.threshold ≤ 0 → calls (main env fuel).trace = []) := by
  have hturbo : turbo_section env co = TurboResult.go (-1) co [] := by
    unfold turbo_section
    by_cases h1 : (env.have_turbo && co.turbo) = true
    · rw [if_pos h1]
      have h2 : turbo_eligible env co = false := by
        rw [h1] at hnofork; simpa using hnofork
      simp [h2]
    · rw [if_neg h1]
  obtain ⟨sk, h1, _, _, h4, h5, h6, _⟩ := main_inject_loop env (-1) co [Event.createSocket]
    co.threshold.toNat (fun h => htab (by omega)) (fun h => Or.inr (by omega)) hr
    (fun j _ => hsend j) cidr_ptr
  obtain ⟨fuel1, hfuel1⟩ : ∃ fuel1, fuel = co.threshold.toNat + (fuel1 + 1) :=
    ⟨fuel - co.threshold.toNat - 1, by omega⟩
  obtain ⟨s1, hs1, hs1t⟩ := main_loop_stop env (co.ip.protocol % 256) cidr_ptr sk fuel1
    (by rw [h4, hflood]) (by rw [h5]; simp only [hflood, Bool.false_eq_true, if_false]; omega)
  have hloop := h1 (fuel1 + 1)
  rw [hs1] at hloop
  have hmain : main env fuel =
      { trace := s1.trace ++ epilogue env (-1), outcome := Outcome.exited 0,
        co := some s1.co } := by
    simp only [main, hcfg, hroot, hchk, hsock, hturbo, main_inject, hcidr, hfuel1, hloop,
      main_return]
    simp
  have hcalls : calls (main env fuel).trace =
      (List.replicate co.threshold.toNat [Call.builder, Call.sendPacket]).flatten := by
    rw [hmain]
    simp only [calls_append, calls_epilogue, hs1t, h6]
    simp [calls, Event.call]
  refine ⟨by rw [hmain], hcalls, ?_, ?_, ?_⟩
  · rw [hcalls]; exact (count_flatten_pair _).1
  · rw [hcalls]; exact (count_flatten_pair _).2
  · intro hle
    rw [hcalls]
    have : co.threshold.toNat = 0 := by omega
    simp [this]


theorem main_started (env : Env) (co0 co : config_options) (pid : Int) (tr : List Event)
    (fuel : Nat)
    (hcfg : env.getConfigOptions = some co0) (hroot : env.getuid = 0)
    (hchk : env.checkConfigOptions co0 = true) (hsock : env.createSocket = true)
    (hturbo : turbo_section env co0 = TurboResult.go pid co tr) :
    main env fuel = main_inject env fuel pid co (Event.createSocket :: tr) := by
  simp only [main, hcfg, hroot, hchk, hsock, hturbo]
  simp

theorem turbo_section_quiet (env : Env) (co0 co : config_options) (pid : Int)
    (tr : List Event) (hturbo : turbo_section env co0 = TurboResult.go pid co tr) :
    calls tr = [] ∧ builds tr = [] ∧ co.ip.protocol = co0.ip.protocol := by
  unfold turbo_section at hturbo
  by_cases h1 : (env.have_turbo && co0.turbo) = true
  · rw [if_pos h1] at hturbo
    by_cases h2 : turbo_eligible env co0 = true
    · rw [if_pos h2] at hturbo
      by_cases h3 : env.fork = -1
      · simp only [h3, if_true] at hturbo
        cases hturbo
      · by_cases h4 : env.setpriority = -1
        · simp only [h3, h4, if_true, if_false] at hturbo
          cases hturbo
        · simp only [h3, h4, if_false] at hturbo
          cases hturbo
          exact ⟨by simp [calls, Event.call], by simp [builds], rfl⟩
    · rw [if_neg h2] at hturbo
      cases hturbo
      exact ⟨rfl, rfl, rfl⟩
  · rw [if_neg h1] at hturbo
    cases hturbo
    exact ⟨rfl, rfl, rfl⟩

theorem count_range_mod (m : Nat) (j : Nat) (hj : j < m) (n : Nat) :
    ((List.range (n * m)).map (fun i => i % m)).count j = n := by
  induction n with
  | zero => simp
  | succ n ih =>
    have hsplit : List.range ((n + 1) * m) =
        List.range (n * m) ++ (List.range m).map (fun i => n * m + i) := by
      rw [show (n + 1) * m = n * m + m by ring, List.range_add]
    rw [hsplit, List.map_append, List.count_append, ih, List.map_map]
    have hmap : (List.range m).map ((fun i => i % m) ∘ fun i => n * m + i) = List.range m := by
      conv_rhs => rw [← List.map_id (List.range m)]
      apply List.map_congr_left
      intro i hi
      have hi' : i < m := List.mem_range.mp hi
      simp only [Function.comp, id]
      rw [Nat.mul_comm, Nat.mul_add_mod, Nat.mod_eq_of_lt hi']
    rw [hmap, List.count_eq_one_of_mem (List.nodup_range m) (List.mem_range.mpr hj)]

/-- C3, rotation. In mixed mode (`co->ip.protocol == IPPROTO_T50` at startup), for a
modules table made of `M ≥ 1` entries with a builder followed by a sentinel whose
builder is NULL, in a run of `main` that starts and whose first `k` sends succeed (with
`flood` set or `k` at most the threshold the turbo section left): iteration `i < k` of
the loop calls the builder of entry `i mod M` with `co->ip.protocol` set to that entry's
`protocol_id`, whatever that value is; and when `k = n * M` every entry is called
exactly `n` times. The run is cut after `k` iterations by the fuel. -/
theorem mixed_mode_rotation (env : Env) (co0 co : config_options) (pid : Int)
    (tr : List Event) (cidr_ptr : cidr) (entries : List modules_table_t)
    (sentinel : modules_table_t) (k : Nat)
    (hcfg : env.getConfigOptions = some co0) (hroot : env.getuid = 0)
    (hchk : env.checkConfigOptions co0 = true) (hsock : env.createSocket = true)
    (hturbo : turbo_section env co0 = TurboResult.go pid co tr)
    (hcidr : env.config_cidr co.bits co.ip.daddr = some cidr_ptr)
    (hmixed : co0.ip.protocol = IPPROTO_T50)
    (htbl : env.mod_table = entries ++ [sentinel]) (hM : 1 ≤ entries.length)
    (hfun : ∀ e ∈ entries, e.func.isSome = true) (hsent : sentinel.func.isNone = true)
    (hgo : co.flood = true ∨ (k : Int) ≤ co.threshold) (hr : co.threshold < 2147483648)
    (hsend : ∀ j < k, env.sendPacket j = true) :
    builds (main env k).trace =
      (List.range k).map
        (fun i => (i % entries.length, protocol_at entries (i % entries.length))) ∧
    (∀ n j, k = n * entries.length → j < entries.length →
      ((builds (main env k).trace).map Prod.fst).count j = n) := by
  obtain ⟨_, hb, hproto⟩ := turbo_section_quiet env co0 co pid tr hturbo
  have hmix : co.ip.protocol % 256 = IPPROTO_T50 := by rw [hproto, hmixed]; rfl
  have htab : table_ok env co := by
    unfold table_ok
    rw [if_pos hmix]
    exact ⟨entries, sentinel, htbl, by intro h; simp [h] at hM, hfun, hsent⟩
  obtain ⟨sk, h1, _, _, _, _, _, h7⟩ := main_inject_loop env pid co (Event.createSocket :: tr)
    k (fun _ => htab) (fun _ => hgo) hr hsend cidr_ptr
  have hloop := h1 0
  have hmain : (main env k).trace = sk.trace := by
    rw [main_started env co0 co pid tr k hcfg hroot hchk hsock hturbo]
    simp only [main_inject, hcidr]
    rw [show k = k + 0 by rfl, hloop]
    simp [main_loop, main_return]
  have hlen : env.mod_table.length - 1 = entries.length := by simp [htbl]
  have hbuilds : builds (main env k).trace =
      (List.range k).map
        (fun i => (i % entries.length, protocol_at entries (i % entries.length))) := by
    rw [hmain, h7]
    have : builds (Event.createSocket :: tr) = [] := by
      have := builds_append [Event.createSocket] tr
      simp only [List.singleton_append] at this
      rw [this, hb]; simp [builds]
    rw [this, List.nil_append]
    apply List.map_congr_left
    intro i _
    have hlt : i % entries.length < entries.length := Nat.mod_lt _ (by omega)
    simp only [cursor_at, if_pos hmix, hlen, protocol_at, htbl]
    simp [List.getElem?_append_left hlt]
  refine ⟨hbuilds, ?_⟩
  intro n j hk hj
  rw [hbuilds, List.map_map, hk]
  exact count_range_mod entries.length j hj n

/-- C10, send failure. In a run of `main` that starts, if the sends number `0 .. i-1`
succeed and the send number `i` (the `(i+1)`-th call) fails, and that call is reached
(`flood` set, or threshold at least `i + 1`), then `main` returns `EXIT_FAILURE`, which
is not 0; its builder and `sendPacket` calls are exactly `i + 1` pairs (builder, send),
and the failed send is the last call of the run: no retry, nothing after it. -/
theorem send_failure_aborts (env : Env) (co0 co : config_options) (pid : Int)
    (tr : List Event) (cidr_ptr : cidr) (i fuel : Nat)
    (hcfg : env.getConfigOptions = some co0) (hroot : env.getuid = 0)
    (hchk : env.checkConfigOptions co0 = true) (hsock : env.createSocket = true)
    (hturbo : turbo_section env co0 = TurboResult.go pid co tr)
    (hcidr : env.config_cidr co.bits co.ip.daddr = some cidr_ptr)
    (htab : table_ok env co)
    (hgo : co.flood = true ∨ (i : Int) + 1 ≤ co.threshold) (hr : co.threshold < 2147483648)
    (hok : ∀ j < i, env.sendPacket j = true) (hfail : env.sendPacket i = false)
    (hfuel : i < fuel) :
    (main env fuel).outcome = Outcome.exited EXIT_FAILURE ∧ EXIT_FAILURE ≠ 0 ∧
    calls (main env fuel).trace =
      (List.replicate (i + 1) [Call.builder, Call.sendPacket]).flatten ∧
    (calls (main env fuel).trace).count Call.builder = i + 1 ∧
    (calls (main env fuel).trace).count Call.sendPacket = i + 1 ∧
    ∃ size, (main env fuel).trace.getLast? = some (Event.send size false) := by
  obtain ⟨hc, _, _⟩ := turbo_section_quiet env co0 co pid tr hturbo
  obtain ⟨sk, h1, h2, h3, h4, h5, h6, _⟩ := main_inject_loop env pid co
    (Event.createSocket :: tr) i (fun _ => htab)
    (fun _ => by rcases hgo with h | h
                 · exact Or.inl h
                 · exact Or.inr (by omega)) hr hok cidr_ptr
  obtain ⟨fuel1, hfuel1⟩ : ∃ fuel1, fuel = i + (fuel1 + 1) := ⟨fuel - i - 1, by omega⟩
  obtain ⟨e, f, he, hf, _⟩ := table_ok_cursor env co htab i
  obtain ⟨s1, d, size, hs1, hs1t⟩ := main_loop_fail env (co.ip.protocol % 256) cidr_ptr sk
    fuel1 e f
    (by rcases hgo with h | h
        · left; rw [h4]; exact h
        · by_cases hfl : co.flood = true
          · left; rw [h4]; exact hfl
          · right; rw [h5]; simp only [hfl, if_false]; omega)
    (by rw [h2]; exact he) hf (by rw [h3]; exact hfail)
  have hloop := h1 (fuel1 + 1)
  rw [hs1] at hloop
  have hmain : main env fuel =
      { trace := s1.trace, outcome := Outcome.exited EXIT_FAILURE, co := some s1.co } := by
    rw [main_started env co0 co pid tr fuel hcfg hroot hchk hsock hturbo]
    simp only [main_inject, hcidr, hfuel1, hloop, main_return]
  have hcalls : calls (main env fuel).trace =
      (List.replicate (i + 1) [Call.builder, Call.sendPacket]).flatten := by
    rw [hmain]
    simp only [hs1t, calls_append, h6]
    have : calls (Event.createSocket :: tr) = [] := by
      have := calls_append [Event.createSocket] tr
      simp only [List.singleton_append] at this
      rw [this, hc]; simp [calls, Event.call]
    rw [this, List.replicate_succ']
    simp [calls, Event.call]
  refine ⟨by rw [hmain], by decide, hcalls, ?_, ?_, size, ?_⟩
  · rw [hcalls]; exact (count_flatten_pair _).1
  · rw [hcalls]; exact (count_flatten_pair _).2
  · rw [hmain]
    simp only [hs1t]
    simp [List.getLast?_append]

theorem turbo_eligible_pos (env : Env) (co : config_options)
    (hn : env.getNumberOfRegisteredModules < 2147483648)
    (h : turbo_eligible env co = true) : 0 < co.threshold := by
  unfold turbo_eligible at h
  have hw : wrap_int32 (env.getNumberOfRegisteredModules : Int) =
      (env.getNumberOfRegisteredModules : Int) := wrap_int32_id _ (by omega) (by omega)
  rw [hw] at h
  simp only [Bool.or_eq_true, Bool.and_eq_true, decide_eq_true_eq] at h
  rcases h with ⟨_, h⟩ | ⟨_, h⟩ <;> omega

theorem split_threshold_child (n : Int) (h0 : 0 < n) (h1 : n < 2147483648) :
    split_threshold n 0 = n / 2 := by
  have ht : n.tdiv 2 = n / 2 := by
    rw [Int.tdiv_eq_ediv] <;> omega
  simp only [split_threshold, IS_CHILD_PID, ht]
  simp
  exact wrap_int32_id _ (by omega) (by omega)

theorem split_threshold_parent (n pid : Int) (h0 : 0 < n) (h1 : n < 2147483648) (hp : pid ≠ 0) :
    split_threshold n pid = n - n / 2 := by
  have ht : n.tdiv 2 = n / 2 := by
    rw [Int.tdiv_eq_ediv] <;> omega
  have hm : n.tmod 2 = n % 2 := by
    rw [Int.tmod_eq_emod] <;> omega
  have hc : IS_CHILD_PID pid = false := by simp [IS_CHILD_PID, hp]
  simp only [split_threshold, hc, ht, hm]
  rw [wrap_int32_id (n / 2) (by omega) (by omega)]
  by_cases hodd : n % 2 = 0
  · simp [hodd]; omega
  · simp [hodd]
    rw [wrap_int32_id _ (by omega) (by omega)]; omega

theorem turbo_section_fork (env : Env) (co : config_options)
    (h1 : env.have_turbo = true) (h2 : co.turbo = true) (h3 : turbo_eligible env co = true)
    (h4 : env.fork ≠ -1) (h5 : env.setpriority ≠ -1) :
    turbo_section env co =
      TurboResult.go env.fork { co with threshold := split_threshold co.threshold env.fork }
        [Event.fork env.fork, Event.setpriority] := by
  unfold turbo_section
  rw [if_pos (by simp [h1, h2]), if_pos h3]
  simp only [h4, h5, if_false]

/-- C2, turbo split. For a turbo-eligible threshold `N` (the test of lines 69-70 holds,
with a number of registered modules in the range of `threshold_t`), when `fork` and
`setpriority` succeed: the worker in which `fork` returned 0 (the child) goes on with
threshold `⌊N/2⌋`, the worker in which it returned the positive pid of the child (the
parent) goes on with `⌈N/2⌉ = N - ⌊N/2⌋`; the two sum to `N`, and the parent has one more
exactly when `N` is odd. -/
theorem turbo_split (env : Env) (co : config_options) (ppid : Int)
    (hn : env.getNumberOfRegisteredModules < 2147483648)
    (hr : co.threshold < 2147483648)
    (hturbo : env.have_turbo = true) (ht : co.turbo = true)
    (helig : turbo_eligible env co = true)
    (hprio : env.setpriority ≠ -1) (hp : 0 < ppid) :
    turbo_section { env with fork := 0 } co =
      TurboResult.go 0 { co with threshold := ⌊(co.threshold : ℚ) / 2⌋ }
        [Event.fork 0, Event.setpriority] ∧
    turbo_section { env with fork := ppid } co =
      TurboResult.go ppid { co with threshold := ⌈(co.threshold : ℚ) / 2⌉ }
        [Event.fork ppid, Event.setpriority] ∧
    ⌈(co.threshold : ℚ) / 2⌉ = co.threshold - ⌊(co.threshold : ℚ) / 2⌋ ∧
    ⌊(co.threshold : ℚ) / 2⌋ + ⌈(co.threshold : ℚ) / 2⌉ = co.threshold ∧
    (⌈(co.threshold : ℚ) / 2⌉ = ⌊(co.threshold : ℚ) / 2⌋ + 1 ↔ co.threshold % 2 = 1) := by
  have hpos := turbo_eligible_pos env co hn helig
  have hfloor : ⌊(co.threshold : ℚ) / 2⌋ = co.threshold / 2 := by
    rw [Int.floor_eq_iff]
    constructor
    · rw [le_div_iff₀ (by norm_num)]
      exact_mod_cast (by omega : co.threshold / 2 * 2 ≤ co.threshold)
    · rw [div_lt_iff₀ (by norm_num)]
      exact_mod_cast (by omega : co.threshold < (co.threshold / 2 + 1) * 2)
  have hceil : ⌈(co.threshold : ℚ) / 2⌉ = co.threshold - co.threshold / 2 := by
    rw [Int.ceil_eq_iff]
    constructor
    · rw [lt_div_iff₀ (by norm_num)]
      exact_mod_cast (by omega : (co.threshold - co.threshold / 2 - 1) * 2 < co.threshold)
    · rw [div_le_iff₀ (by norm_num)]
      exact_mod_cast (by omega : co.threshold ≤ (co.threshold - co.threshold / 2) * 2)
  have he0 : turbo_eligible { env with fork := 0 } co = true := helig
  have he1 : turbo_eligible { env with fork := ppid } co = true := helig
  refine ⟨?_, ?_, ?_, ?_, ?_⟩
  · rw [turbo_section_fork { env with fork := 0 } co hturbo ht he0
      (by show (0 : Int) ≠ -1; decide) hprio]
    simp only [split_threshold_child _ hpos hr, hfloor]
  · rw [turbo_section_fork { env with fork := ppid } co hturbo ht he1
      (by show ppid ≠ -1; omega) hprio]
    simp only [split_threshold_parent _ _ hpos hr (by omega : ppid ≠ 0), hceil]
  · rw [hfloor, hceil]
  · rw [hfloor, hceil]; omega
  · rw [hfloor, hceil]; omega

/-- C4, CIDR bounds. For a CIDR descriptor with `first_host + hostid < 2^32`, in any
state of the loop (any configuration, any PRNG state), lines 143-145 select a
destination (they do not fault: the modulus is guarded) that lies in
`[first_host, first_host + hostid]`, that is the same whatever configuration (so
whatever earlier `daddr`) the iteration starts from, and that is `first_host`, with no
PRNG sample drawn, when `hostid = 0`; the builder of the iteration is called with that
destination converted by `htonl`. -/
theorem cidr_bounds (cidr_ptr : cidr) (s : LoopState)
    (h : cidr_ptr.__1st_addr + cidr_ptr.hostid < 4294967296) :
    ∃ co1 w1, pick_daddr cidr_ptr s.co s.world = some (co1, w1) ∧
      cidr_ptr.__1st_addr ≤ co1.ip.daddr ∧
      co1.ip.daddr ≤ cidr_ptr.__1st_addr + cidr_ptr.hostid ∧
      (∀ co2 : config_options,
        (pick_daddr cidr_ptr co2 s.world).map (fun r => r.1.ip.daddr) = some co1.ip.daddr) ∧
      (cidr_ptr.hostid = 0 → co1.ip.daddr = cidr_ptr.__1st_addr ∧ w1 = s.world) ∧
      (∀ (env : Env) (proto : Nat) (entry : modules_table_t) (func : module_func_ptr_t),
        env.mod_table.get? s.ptbl = some entry → entry.func = some func →
        ∃ size, (loop_body env proto cidr_ptr s).state.trace =
          s.trace ++ [Event.build s.ptbl entry.protocol_id (env.htonl co1.ip.daddr),
            Event.send size (env.sendPacket s.sends)]) := by
  have hpick : ∃ co1 w1, pick_daddr cidr_ptr s.co s.world = some (co1, w1) ∧
      cidr_ptr.__1st_addr ≤ co1.ip.daddr ∧
      co1.ip.daddr ≤ cidr_ptr.__1st_addr + cidr_ptr.hostid ∧
      (∀ co2 : config_options,
        (pick_daddr cidr_ptr co2 s.world).map (fun r => r.1.ip.daddr) = some co1.ip.daddr) ∧
      (cidr_ptr.hostid = 0 → co1.ip.daddr = cidr_ptr.__1st_addr ∧ w1 = s.world) := by
    unfold pick_daddr
    by_cases h0 : cidr_ptr.hostid = 0
    · simp only [h0, ne_eq, not_true_eq_false, if_false]
      exact ⟨_, _, rfl, Nat.le_refl _, by simp, by intro co2; simp, fun _ => ⟨rfl, rfl⟩⟩
    · have hlt : s.world.rng s.world.rng_pos % cidr_ptr.hostid < cidr_ptr.hostid :=
        Nat.mod_lt _ (Nat.pos_of_ne_zero h0)
      have hm : (cidr_ptr.__1st_addr + s.world.rng s.world.rng_pos % cidr_ptr.hostid) %
          4294967296 = cidr_ptr.__1st_addr + s.world.rng s.world.rng_pos % cidr_ptr.hostid :=
        Nat.mod_eq_of_lt (by omega)
      simp only [h0, RANDOM, c_mod, ne_eq, not_false_eq_true, if_true, if_false]
      refine ⟨_, _, rfl, ?_, ?_, ?_, ?_⟩
      · simp only [hm]; omega
      · simp only [hm]; omega
      · intro co2; simp
      · intro h1; exact h1.elim
  obtain ⟨co1, w1, hp, h1, h2, h3, h4⟩ := hpick
  exact ⟨co1, w1, hp, h1, h2, h3, h4, fun env proto entry func he hf =>
    ⟨_, loop_body_trace env proto cidr_ptr s entry func co1 w1 hp he hf⟩⟩

/-! ## Witnesses on the concrete inputs -/

theorem table_ok_example : table_ok env_example co_ripv2 := by
  unfold table_ok
  rw [if_neg (by decide)]
  exact ⟨_, rfl, rfl⟩

theorem main_threshold_accounting_witness :
    (main env_example 4).outcome = Outcome.exited 0 ∧
    calls (main env_example 4).trace =
      (List.replicate co_ripv2.threshold.toNat [Call.builder, Call.sendPacket]).flatten ∧
    (calls (main env_example 4).trace).count Call.builder = co_ripv2.threshold.toNat ∧
    (calls (main env_example 4).trace).count Call.sendPacket = co_ripv2.threshold.toNat ∧
    (co_ripv2.threshold ≤ 0 → calls (main env_example 4).trace = []) :=
  main_threshold_accounting env_example co_ripv2 cidr_example 4 rfl rfl rfl rfl rfl rfl
    (fun _ => table_ok_example) rfl (by decide) (fun _ => rfl) (by decide)

theorem turbo_split_witness :
    turbo_section { env_example with fork := 0 } co_turbo =
      TurboResult.go 0 { co_turbo with threshold := ⌊(co_turbo.threshold : ℚ) / 2⌋ }
        [Event.fork 0, Event.setpriority] ∧
    turbo_section { env_example with fork := 1234 } co_turbo =
      TurboResult.go 1234 { co_turbo with threshold := ⌈(co_turbo.threshold : ℚ) / 2⌉ }
        [Event.fork 1234, Event.setpriority] ∧
    ⌈(co_turbo.threshold : ℚ) / 2⌉ = co_turbo.threshold - ⌊(co_turbo.threshold : ℚ) / 2⌋ ∧
    ⌊(co_turbo.threshold : ℚ) / 2⌋ + ⌈(co_turbo.threshold : ℚ) / 2⌉ = co_turbo.threshold ∧
    (⌈(co_turbo.threshold : ℚ) / 2⌉ = ⌊(co_turbo.threshold : ℚ) / 2⌋ + 1 ↔
      co_turbo.threshold % 2 = 1) :=
  turbo_split env_example co_turbo 1234 (by decide) (by decide) rfl rfl (by decide)
    (by decide) (by decide)

theorem mixed_mode_rotation_witness :
    builds (main env_mixed 4).trace =
      (List.range 4).map
        (fun i => (i % entries_example.length,
          protocol_at entries_example (i % entries_example.length))) ∧
    (∀ n j, 4 = n * entries_example.length → j < entries_example.length →
      ((builds (main env_mixed 4).trace).map Prod.fst).count j = n) :=
  mixed_mode_rotation env_mixed co_mixed co_mixed (-1) [] cidr_example entries_example
    sentinel_example 4 rfl rfl rfl rfl rfl rfl rfl rfl (by decide)
    (by intro e he
        simp only [entries_example, List.mem_cons, List.mem_singleton, List.not_mem_nil,
          or_false] at he
        rcases he with rfl | rfl <;> rfl)
    rfl (Or.inr (by decide)) (by decide) (fun _ _ => rfl)

theorem cidr_bounds_witness :
    ∃ co1 w1, pick_daddr cidr_example (loop_start env_example (-1) co_ripv2 []).co
        (loop_start env_example (-1) co_ripv2 []).world = some (co1, w1) ∧
      cidr_example.__1st_addr ≤ co1.ip.daddr ∧
      co1.ip.daddr ≤ cidr_example.__1st_addr + cidr_example.hostid ∧
      (∀ co2 : config_options,
        (pick_daddr cidr_example co2 (loop_start env_example (-1) co_ripv2 []).world).map
          (fun r => r.1.ip.daddr) = some co1.ip.daddr) ∧
      (cidr_example.hostid = 0 → co1.ip.daddr = cidr_example.__1st_addr ∧
        w1 = (loop_start env_example (-1) co_ripv2 []).world) ∧
      (∀ (env : Env) (proto : Nat) (entry : modules_table_t) (func : module_func_ptr_t),
        env.mod_table.get? (loop_start env_example (-1) co_ripv2 []).ptbl = some entry →
        entry.func = some func →
        ∃ size, (loop_body env proto cidr_example
            (loop_start env_example (-1) co_ripv2 [])).state.trace =
          (loop_start env_example (-1) co_ripv2 []).trace ++
            [Event.build (loop_start env_example (-1) co_ripv2 []).ptbl entry.protocol_id
              (env.htonl co1.ip.daddr),
             Event.send size
              (env.sendPacket (loop_start env_example (-1) co_ripv2 []).sends)]) :=
  cidr_bounds cidr_example (loop_start env_example (-1) co_ripv2 []) (by decide)

theorem send_failure_aborts_witness :
    (main env_fail 5).outcome = Outcome.exited EXIT_FAILURE ∧ EXIT_FAILURE ≠ 0 ∧
    calls (main env_fail 5).trace =
      (List.replicate (2 + 1) [Call.builder, Call.sendPacket]).flatten ∧
    (calls (main env_fail 5).trace).count Call.builder = 2 + 1 ∧
    (calls (main env_fail 5).trace).count Call.sendPacket = 2 + 1 ∧
    ∃ size, (main env_fail 5).trace.getLast? = some (Event.send size false) :=
  send_failure_aborts env_fail co_ripv2 co_ripv2 (-1) [] cidr_example 2 5 rfl rfl rfl rfl
    rfl rfl table_ok_example (Or.inr (by decide)) (by decide)
    (fun j hj => by simp [env_fail, hj]) rfl (by decide)

/-! ## Lemmas on the checksum and on the RIPv2 builder -/

theorem oc_add_norm (a b : Nat) (hb : b ≤ 65535) :
    oc_add (oc_norm a) b = oc_norm (a + b) := by
  unfold oc_add oc_norm
  split_ifs <;> omega

theorem foldl_oc_add (ws : List Nat) (hws : ∀ x ∈ ws, x ≤ 65535) (a : Nat) :
    ws.foldl oc_add (oc_norm a) = oc_norm (a + ws.sum) := by
  induction ws generalizing a with
  | nil => simp
  | cons x xs ih =>
    rw [List.foldl_cons, oc_add_norm a x (hws x (List.mem_cons_self _ _)),
      ih (fun y hy => hws y (List.mem_cons_of_mem _ hy)), List.sum_cons, Nat.add_assoc]

theorem cksum_words_le (m : Nat → Nat) (off len : Nat) :
    ∀ x ∈ cksum_words m off len, x ≤ 65535 := by
  intro x hx
  unfold cksum_words at hx
  rw [List.mem_append] at hx
  rcases hx with hx | hx
  · rw [List.mem_map] at hx
    obtain ⟨i, _, rfl⟩ := hx
    omega
  · split at hx
    · rw [List.mem_singleton] at hx
      omega
    · simp at hx

theorem cksum_eq (m : Nat → Nat) (off len : Nat) :
    cksum m off len = 65535 - oc_norm (cksum_words m off len).sum := by
  unfold cksum
  have h := foldl_oc_add (cksum_words m off len) (cksum_words_le m off len) 0
  have h0 : oc_norm 0 = 0 := rfl
  rw [h0, Nat.zero_add] at h
  rw [h]

theorem cksum_words_congr (m m' : Nat → Nat) (off len : Nat)
    (h : ∀ a, off ≤ a → a < off + len → m' a = m a) :
    cksum_words m' off len = cksum_words m off len := by
  have h1 : (List.range (len / 2)).map
        (fun i => m' (off + 2 * i) % 256 * 256 + m' (off + 2 * i + 1) % 256) =
      (List.range (len / 2)).map
        (fun i => m (off + 2 * i) % 256 * 256 + m (off + 2 * i + 1) % 256) := by
    apply List.map_congr_left
    intro i hi
    have hi' : i < len / 2 := List.mem_range.mp hi
    rw [h (off + 2 * i) (by omega) (by omega), h (off + 2 * i + 1) (by omega) (by omega)]
  have h2 : (if len % 2 = 1 then [m' (off + len - 1) % 256 * 256] else []) =
      (if len % 2 = 1 then [m (off + len - 1) % 256 * 256] else []) := by
    split
    · rw [h (off + len - 1) (by omega) (by omega)]
    · rfl
  unfold cksum_words
  rw [h1, h2]

theorem cksum_congr (m m' : Nat → Nat) (off len : Nat)
    (h : ∀ a, off ≤ a → a < off + len → m' a = m a) :
    cksum m' off len = cksum m off len := by
  unfold cksum
  rw [cksum_words_congr m m' off len h]

theorem sum_range_bump (g g' : Nat → Nat) (j c n : Nat) (hj : j < n)
    (hsame : ∀ i, i < n → i ≠ j → g' i = g i) (hbump : g' j = g j + c) :
    ((List.range n).map g').sum = ((List.range n).map g).sum + c := by
  induction n with
  | zero => omega
  | succ n ih =>
    rw [List.range_succ, List.map_append, List.map_append, List.sum_append, List.sum_append]
    simp only [List.map_cons, List.map_nil, List.sum_cons, List.sum_nil, Nat.add_zero]
    by_cases hjn : j = n
    · subst hjn
      have hpre : ((List.range j).map g') = ((List.range j).map g) := by
        apply List.map_congr_left
        intro i hi
        have := List.mem_range.mp hi
        exact hsame i (by omega) (by omega)
      rw [hpre, hbump]; omega
    · rw [ih (by omega) (fun i hi hne => hsame i (by omega) hne), hsame n (by omega) (by omega)]
      omega

/-- Writing the checksum of a span whose checksum field is zero into that field makes the
span sum to zero. -/
theorem cksum_verifies (m : Nat → Nat) (off len : Nat) (hlen : 8 ≤ len)
    (h6 : m (off + 6) % 256 = 0) (h7 : m (off + 7) % 256 = 0) (m' : Nat → Nat)
    (hm6 : m' (off + 6) = cksum m off len / 256 % 256)
    (hm7 : m' (off + 7) = cksum m off len % 256)
    (hm : ∀ a, off ≤ a → a < off + len → a ≠ off + 6 → a ≠ off + 7 → m' a = m a) :
    cksum m' off len = 0 := by
  have hc : cksum m off len ≤ 65535 := by unfold cksum; omega
  have hsum : (cksum_words m' off len).sum = (cksum_words m off len).sum + cksum m off len := by
    unfold cksum_words
    rw [List.sum_append, List.sum_append]
    rw [sum_range_bump
      (fun i => m (off + 2 * i) % 256 * 256 + m (off + 2 * i + 1) % 256)
      (fun i => m' (off + 2 * i) % 256 * 256 + m' (off + 2 * i + 1) % 256)
      3 (cksum m off len) (len / 2) (by omega)
      (by intro i hi hne
          simp only
          rw [hm _ (by omega) (by omega) (by omega) (by omega),
            hm _ (by omega) (by omega) (by omega) (by omega)])
      (by simp only
          rw [show off + 2 * 3 = off + 6 by omega, show off + 6 + 1 = off + 7 by omega,
            hm6, hm7, h6, h7]
          omega)]
    have htail : (if len % 2 = 1 then [m' (off + len - 1) % 256 * 256] else []) =
        (if len % 2 = 1 then [m (off + len - 1) % 256 * 256] else []) := by
      split
      · rw [hm _ (by omega) (by omega) (by omega) (by omega)]
      · rfl
    rw [htail]; omega
  rw [cksum_eq m' off len, hsum]
  have hcm := cksum_eq m off len
  generalize (cksum_words m off len).sum = x at *
  generalize cksum m off len = c at *
  unfold oc_norm at *
  split_ifs at * <;> omega

theorem Grows.refl (b : Builder) : Grows b b :=
  ⟨Nat.le_refl _, fun _ _ => rfl, [], by simp, by simp⟩

theorem Grows.trans {b b1 b2 : Builder} (h1 : Grows b b1) (h2 : Grows b1 b2) : Grows b b2 := by
  obtain ⟨hp1, hm1, n1, hl1, hn1⟩ := h1
  obtain ⟨hp2, hm2, n2, hl2, hn2⟩ := h2
  refine ⟨by omega, fun a ha => ?_, n1 ++ n2, by rw [hl2, hl1, List.append_assoc], ?_⟩
  · rw [hm2 a (by omega), hm1 a ha]
  · intro op hop
    rcases List.mem_append.mp hop with h | h
    · obtain ⟨off, e, h3, h4⟩ := hn1 op h
      exact ⟨off, e, h3, by omega⟩
    · obtain ⟨off, e, h3, h4⟩ := hn2 op h
      exact ⟨off, e, by omega, h4⟩

theorem put8_grows (b : Builder) (v : Nat) : Grows b (put8 b v) := by
  refine ⟨by simp [put8], fun a ha => ?_, [Op.store b.ptr], by simp [put8, store8], ?_⟩
  · simp only [put8, store8]
    rw [if_neg (by omega)]
  · intro op hop
    rw [List.mem_singleton] at hop
    exact ⟨b.ptr, hop, Nat.le_refl _, by simp [put8]⟩

theorem put16_grows (b : Builder) (v : Nat) : Grows b (put16 b v) := by
  refine ⟨by simp [put16], fun a ha => ?_, [Op.store b.ptr, Op.store (b.ptr + 1)],
    by simp [put16, store16, store8], ?_⟩
  · simp only [put16, store16, store8]
    rw [if_neg (by omega), if_neg (by omega)]
  · intro op hop
    simp only [List.mem_cons, List.mem_singleton, List.not_mem_nil, or_false] at hop
    rcases hop with h | h
    · exact ⟨_, h, Nat.le_refl _, by simp [put16]⟩
    · exact ⟨_, h, by omega, by simp [put16]⟩

theorem put32_grows (b : Builder) (v : Nat) : Grows b (put32 b v) := by
  refine ⟨by simp [put32], fun a ha => ?_,
    [Op.store b.ptr, Op.store (b.ptr + 1), Op.store (b.ptr + 2), Op.store (b.ptr + 2 + 1)],
    by simp [put32, store32, store16, store8], ?_⟩
  · simp only [put32, store32, store16, store8]
    rw [if_neg (by omega), if_neg (by omega), if_neg (by omega), if_neg (by omega)]
  · intro op hop
    simp only [List.mem_cons, List.mem_singleton, List.not_mem_nil, or_false] at hop
    rcases hop with h | h | h | h
    · exact ⟨_, h, Nat.le_refl _, by simp [put32]⟩
    · exact ⟨_, h, by omega, by simp [put32]⟩
    · exact ⟨_, h, by omega, by simp [put32]⟩
    · exact ⟨_, h, by omega, by simp [put32]⟩

theorem put8_ptr (b : Builder) (v : Nat) : (put8 b v).ptr = b.ptr + 1 := rfl
theorem put16_ptr (b : Builder) (v : Nat) : (put16 b v).ptr = b.ptr + 2 := rfl
theorem put32_ptr (b : Builder) (v : Nat) : (put32 b v).ptr = b.ptr + 4 := rfl

theorem rnd_grows (foo : Nat) (b : Builder) : Grows b (__RND foo b).2 := by
  unfold __RND
  split
  · exact ⟨Nat.le_refl _, fun _ _ => rfl, [], by simp [Builder.RANDOM], by simp⟩
  · exact Grows.refl b

theorem rnd_ptr (foo : Nat) (b : Builder) : (__RND foo b).2.ptr = b.ptr := by
  unfold __RND
  split <;> rfl

theorem random_grows (b : Builder) : Grows b b.RANDOM.2 :=
  ⟨Nat.le_refl _, fun _ _ => rfl, [], by simp [Builder.RANDOM], by simp⟩

theorem netmask_grows (cb : Collab) (v : Nat) (b : Builder) :
    Grows b (Builder.NETMASK_RND cb v b).2 :=
  ⟨Nat.le_refl _, fun _ _ => rfl, [], by simp [Builder.NETMASK_RND], by simp⟩

theorem netmask_ptr (cb : Collab) (v : Nat) (b : Builder) :
    (Builder.NETMASK_RND cb v b).2.ptr = b.ptr := rfl

theorem rip_header_grows (co : config_options) (b : Builder) :
    Grows b (rip_header co b) ∧ (rip_header co b).ptr = b.ptr + 4 := by
  unfold rip_header
  refine ⟨?_, ?_⟩
  · exact ((put8_grows _ _).trans ((put8_grows _ _).trans
      ((rnd_grows _ _).trans (put16_grows _ _))))
  · simp only [put16_ptr, rnd_ptr, put8_ptr]

theorem rip_auth_entry_grows (co : config_options) (b : Builder) :
    Grows b (rip_auth_entry co b) ∧
      (rip_auth_entry co b).ptr = b.ptr + (if co.rip.auth then 20 else 0) := by
  unfold rip_auth_entry
  cases co.rip.auth
  · exact ⟨Grows.refl b, rfl⟩
  · simp only [if_true]
    refine ⟨?_, ?_⟩
    · exact ((put16_grows _ _).trans ((put16_grows _ _).trans ((put16_grows _ _).trans
        ((put8_grows _ _).trans ((put8_grows _ _).trans ((rnd_grows _ _).trans
        ((put32_grows _ _).trans ((put32_grows _ _).trans (put32_grows _ _)))))))))
    · simp only [put32_ptr, put16_ptr, rnd_ptr, put8_ptr]

theorem rip_route_entry_grows (cb : Collab) (co : config_options) (b : Builder) :
    Grows b (rip_route_entry cb co b) ∧ (rip_route_entry cb co b).ptr = b.ptr + 20 := by
  unfold rip_route_entry
  refine ⟨?_, ?_⟩
  · exact ((rnd_grows _ _).trans ((put16_grows _ _).trans ((rnd_grows _ _).trans
      ((put16_grows _ _).trans ((rnd_grows _ _).trans ((put32_grows _ _).trans
      ((netmask_grows _ _ _).trans ((put32_grows _ _).trans ((rnd_grows _ _).trans
      ((put32_grows _ _).trans ((rnd_grows _ _).trans (put32_grows _ _))))))))))))
  · simp only [put32_ptr, put16_ptr, rnd_ptr, netmask_ptr]

theorem rip_digest_grows (n : Nat) (b : Builder) :
    Grows b (rip_digest n b) ∧ (rip_digest n b).ptr = b.ptr + n := by
  induction n generalizing b with
  | zero => exact ⟨Grows.refl b, rfl⟩
  | succ n ih =>
    unfold rip_digest
    obtain ⟨h1, h2⟩ := ih (put8 b.RANDOM.2 b.RANDOM.1)
    refine ⟨(random_grows b).trans ((put8_grows _ _).trans h1), ?_⟩
    rw [h2, put8_ptr]
    simp only [Builder.RANDOM]
    omega

theorem rip_auth_trailer_grows (co : config_options) (b : Builder) :
    Grows b (rip_auth_trailer co b) ∧
      (rip_auth_trailer co b).ptr = b.ptr + (if co.rip.auth then 20 else 0) := by
  unfold rip_auth_trailer
  cases h : co.rip.auth
  · exact ⟨Grows.refl b, rfl⟩
  · simp only [if_true]
    obtain ⟨h1, h2⟩ := rip_digest_grows (auth_hmac_md5_len true)
      (put16 (put16 b (htons 0xffff)) (htons 0x0001))
    refine ⟨(put16_grows _ _).trans ((put16_grows _ _).trans h1), ?_⟩
    rw [h2]
    simp only [put16_ptr, auth_hmac_md5_len, AUTH_TLEN_HMACMD5, if_true]

theorem rip_payload_grows (cb : Collab) (co : config_options) (b : Builder) :
    Grows b (rip_payload cb co b) ∧
      (rip_payload cb co b).ptr = b.ptr + rip_hdr_len co.rip.auth := by
  unfold rip_payload
  obtain ⟨g1, p1⟩ := rip_header_grows co b
  obtain ⟨g2, p2⟩ := rip_auth_entry_grows co (rip_header co b)
  obtain ⟨g3, p3⟩ := rip_route_entry_grows cb co (rip_auth_entry co (rip_header co b))
  obtain ⟨g4, p4⟩ := rip_auth_trailer_grows co
    (rip_route_entry cb co (rip_auth_entry co (rip_header co b)))
  refine ⟨g1.trans (g2.trans (g3.trans g4)), ?_⟩
  rw [p4, p3, p2, p1]
  simp only [rip_hdr_len, RIP_HEADER_LENGTH, RIP_MESSAGE_LENGTH, RIP_AUTH_LENGTH,
    RIP_TRAILER_LENGTH, AUTH_TLEN_HMACMD5]
  cases co.rip.auth <;> simp


theorem ripv2_start_facts (cb : Collab) (co : config_options) (w : World)
    (h : cb.conforms co) :
    (ripv2_start cb co w).ip = 0 ∧
    (ripv2_start cb co w).udp = 20 + cb.gre_opt_len co.gre.options co.encapsulated ∧
    (ripv2_start cb co w).size =
      20 + cb.gre_opt_len co.gre.options co.encapsulated + 8 + rip_hdr_len co.rip.auth + 12 ∧
    (ripv2_start cb co w).b.ptr = (ripv2_start cb co w).udp + 8 ∧
    (ripv2_start cb co w).b.log =
      [Op.alloc_packet (ripv2_start cb co w).size, Op.ip_header (ripv2_start cb co w).size,
        Op.gre_encapsulation (20 + 8 + rip_hdr_len co.rip.auth)] ++
      (List.range 8).map (fun i => Op.store ((ripv2_start cb co w).udp + i)) := by
  obtain ⟨hip, _, _⟩ := h
  have hip0 := hip (alloc_packet w (sizeof_iphdr + cb.gre_opt_len co.gre.options co.encapsulated
    + sizeof_udphdr + rip_hdr_len co.rip.auth + sizeof_psdhdr))
    (sizeof_iphdr + cb.gre_opt_len co.gre.options co.encapsulated
    + sizeof_udphdr + rip_hdr_len co.rip.auth + sizeof_psdhdr)
  have hip1 := hip0
  simp only [sizeof_iphdr, sizeof_udphdr, sizeof_psdhdr] at hip1
  refine ⟨hip0, ?_, ?_, ?_, ?_⟩
  · simp only [ripv2_start, sizeof_iphdr, sizeof_udphdr, sizeof_psdhdr, hip1]
  · simp only [ripv2_start, sizeof_iphdr, sizeof_udphdr, sizeof_psdhdr]
  · simp only [ripv2_start, sizeof_udphdr]
  · simp only [ripv2_start, store16, store8, sizeof_iphdr, sizeof_udphdr, sizeof_psdhdr]
    simp [List.range_succ, Nat.add_assoc]

theorem ripv2_start_bytes (cb : Collab) (co : config_options) (w : World) :
    load16 (ripv2_start cb co w).b.world.packet (ripv2_start cb co w).udp = 520 ∧
    load16 (ripv2_start cb co w).b.world.packet ((ripv2_start cb co w).udp + 2) = 520 ∧
    load16 (ripv2_start cb co w).b.world.packet ((ripv2_start cb co w).udp + 4) =
      (8 + rip_hdr_len co.rip.auth) % 65536 ∧
    (ripv2_start cb co w).b.world.packet ((ripv2_start cb co w).udp + 6) = 0 ∧
    (ripv2_start cb co w).b.world.packet ((ripv2_start cb co w).udp + 7) = 0 := by
  refine ⟨?_, ?_, ?_, ?_, ?_⟩ <;>
    simp [ripv2_start, store16, store8, load16, load8, htons, IPPORT_RIP, sizeof_udphdr,
      Nat.add_assoc]
  omega


theorem ripv2_some (cb : Collab) (co : config_options) (w : World) (h : cb.conforms co) :
    ∃ src, ripv2 cb co w = some (ripv2_finish cb co (ripv2_start cb co w)
      (rip_payload cb co (ripv2_start cb co w).b) src) := by
  obtain ⟨_, hgre, _⟩ := h
  unfold ripv2
  cases henc : co.encapsulated
  · exact ⟨_, rfl⟩
  · have hs := hgre henc
      (cb.ip_header (alloc_packet w (sizeof_iphdr + cb.gre_opt_len co.gre.options co.encapsulated
        + sizeof_udphdr + rip_hdr_len co.rip.auth + sizeof_psdhdr))
        (sizeof_iphdr + cb.gre_opt_len co.gre.options co.encapsulated
        + sizeof_udphdr + rip_hdr_len co.rip.auth + sizeof_psdhdr) co).1
      (sizeof_iphdr + sizeof_udphdr + rip_hdr_len co.rip.auth)
    obtain ⟨src, hsrc⟩ := Option.isSome_iff_exists.mp hs
    have hg : (ripv2_start cb co w).gre_ip = some src := by
      simp only [ripv2_start]
      exact hsrc
    refine ⟨src, ?_⟩
    simp only [if_true, hg]

theorem rip_pseudo_facts (co : config_options) (udp src : Nat) (b : Builder) :
    (rip_pseudo co udp src b).2 = b.ptr - udp ∧
    (∀ a, a < b.ptr → (rip_pseudo co udp src b).1.world.packet a = b.world.packet a) ∧
    (rip_pseudo co udp src b).1.log =
      b.log ++ (List.range 12).map (fun i => Op.store (b.ptr + i)) := by
  refine ⟨rfl, fun a ha => ?_, ?_⟩
  · simp only [rip_pseudo, store32, store16, store8]
    repeat rw [if_neg (by omega)]
  · simp only [rip_pseudo, store32, store16, store8]
    simp [List.range_succ, Nat.add_assoc]

theorem rip_check_facts (co : config_options) (udp length : Nat) (b : Builder)
    (hb : co.bogus_csum = false) :
    (∀ a, (rip_check co udp length b).world.packet a =
      if a = udp + 7 then cksum b.world.packet udp (length + 12) % 256
      else if a = udp + 6 then cksum b.world.packet udp (length + 12) / 256 % 256
      else b.world.packet a) ∧
    (rip_check co udp length b).log =
      b.log ++ [Op.cksum udp (length + 12), Op.store (udp + 6), Op.store (udp + 7)] := by
  simp [rip_check, hb, store16, store8, sizeof_psdhdr, Nat.add_assoc]

/-- C5, checksum correctness. With `bogus_csum` clear, authentication on or off, and
collaborators that conform, `ripv2` returns, the UDP header is at
`sizeof(iphdr) + greoptlen`, the pseudo-header follows the 8-byte UDP header and the
RIP payload, and the Internet checksum (`cksum`, spec 4.2) recomputed over the span
that starts at the UDP header and ends with the 12-byte pseudo-header is 0. -/
theorem ripv2_checksum_correct (cb : Collab) (co : config_options) (w : World)
    (h : cb.conforms co) (hb : co.bogus_csum = false) :
    ∃ r, ripv2 cb co w = some r ∧
      r.udp = sizeof_iphdr + cb.gre_opt_len co.gre.options co.encapsulated ∧
      r.pseudo = r.udp + sizeof_udphdr + rip_hdr_len co.rip.auth ∧
      cksum r.world.packet r.udp (r.pseudo + sizeof_psdhdr - r.udp) = 0 := by
  obtain ⟨src, hsome⟩ := ripv2_some cb co w h
  obtain ⟨hip, hudp, hsize, hptr, hlog⟩ := ripv2_start_facts cb co w h
  obtain ⟨_, _, _, h6, h7⟩ := ripv2_start_bytes cb co w
  obtain ⟨hg, hpp⟩ := rip_payload_grows cb co (ripv2_start cb co w).b
  obtain ⟨_, hframe, _⟩ := hg
  obtain ⟨hlen, hpframe, _⟩ := rip_pseudo_facts co (ripv2_start cb co w).udp src
    (rip_payload cb co (ripv2_start cb co w).b)
  obtain ⟨hchk, _⟩ := rip_check_facts co (ripv2_start cb co w).udp
    (rip_pseudo co (ripv2_start cb co w).udp src (rip_payload cb co (ripv2_start cb co w).b)).2
    (rip_pseudo co (ripv2_start cb co w).udp src (rip_payload cb co (ripv2_start cb co w).b)).1
    hb
  obtain ⟨_, _, hgc⟩ := h
  refine ⟨_, hsome, ?_, ?_, ?_⟩
  · simp only [ripv2_finish, hudp, sizeof_iphdr]
  · simp only [ripv2_finish, hpp, hptr, sizeof_udphdr]
  · simp only [ripv2_finish]
    rw [hpp, hptr, hlen, hpp, hptr] at *
    have hspan : (ripv2_start cb co w).udp + 8 + rip_hdr_len co.rip.auth + sizeof_psdhdr -
        (ripv2_start cb co w).udp =
        (ripv2_start cb co w).udp + 8 + rip_hdr_len co.rip.auth - (ripv2_start cb co w).udp + 12 := by
      simp only [sizeof_psdhdr]; omega
    rw [hspan]
    apply cksum_verifies
      (rip_pseudo co (ripv2_start cb co w).udp src
        (rip_payload cb co (ripv2_start cb co w).b)).1.world.packet
    · omega
    · rw [hpframe _ (by omega), hframe _ (by omega), h6]
    · rw [hpframe _ (by omega), hframe _ (by omega), h7]
    · rw [hgc _ _ _ (by rw [hudp]; simp only [sizeof_iphdr]; omega), hchk]
      rw [if_neg (by omega), if_pos rfl]
    · rw [hgc _ _ _ (by rw [hudp]; simp only [sizeof_iphdr]; omega), hchk]
      rw [if_pos rfl]
    · intro a ha _ ha6 ha7
      rw [hgc _ _ _ (by rw [hudp] at ha; simp only [sizeof_iphdr]; omega), hchk]
      rw [if_neg ha7, if_neg ha6]


theorem rnd_packet (foo : Nat) (b : Builder) :
    (__RND foo b).2.world.packet = b.world.packet := by
  unfold __RND
  split <;> rfl

theorem rip_header_bytes (co : config_options) (b : Builder) :
    load8 (rip_header co b).world.packet b.ptr = co.rip.command % 256 ∧
    load8 (rip_header co b).world.packet (b.ptr + 1) = 2 := by
  simp [rip_header, put16, put8, store16, store8, load8, rnd_packet, rnd_ptr, RIPVERSION,
    Nat.add_assoc]

theorem rip_auth_entry_bytes (co : config_options) (b : Builder) (ha : co.rip.auth = true) :
    load16 (rip_auth_entry co b).world.packet b.ptr = 0xffff ∧
    load16 (rip_auth_entry co b).world.packet (b.ptr + 2) = 3 ∧
    load16 (rip_auth_entry co b).world.packet (b.ptr + 4) = 44 ∧
    load8 (rip_auth_entry co b).world.packet (b.ptr + 6) = co.rip.key_id % 256 ∧
    load8 (rip_auth_entry co b).world.packet (b.ptr + 7) = 20 ∧
    load32 (rip_auth_entry co b).world.packet (b.ptr + 12) = 0 ∧
    load32 (rip_auth_entry co b).world.packet (b.ptr + 16) = 0 := by
  simp [rip_auth_entry, ha, put32, put16, put8, store32, store16, store8, load32, load16, load8,
    rnd_packet, rnd_ptr, htons, htonl, RIP_HEADER_LENGTH, RIP_AUTH_LENGTH, RIP_MESSAGE_LENGTH,
    FIELD_MUST_BE_ZERO, Nat.add_assoc]

theorem rip_auth_trailer_bytes (co : config_options) (b : Builder) (ha : co.rip.auth = true) :
    load16 (rip_auth_trailer co b).world.packet b.ptr = 0xffff ∧
    load16 (rip_auth_trailer co b).world.packet (b.ptr + 2) = 1 := by
  obtain ⟨⟨_, hf, _⟩, _⟩ := rip_digest_grows (auth_hmac_md5_len co.rip.auth)
    (put16 (put16 b (htons 0xffff)) (htons 0x0001))
  simp only [put16_ptr] at hf
  simp only [rip_auth_trailer, ha, if_true, load16, load8] at hf ⊢
  rw [hf _ (by omega), hf _ (by omega), hf _ (by omega), hf _ (by omega)]
  simp [put16, store16, store8, htons, Nat.add_assoc]


theorem load16_congr (m m' : Nat → Nat) (off : Nat) (h0 : m' off = m off)
    (h1 : m' (off + 1) = m (off + 1)) : load16 m' off = load16 m off := by
  simp only [load16, load8, h0, h1]

theorem load32_congr (m m' : Nat → Nat) (off : Nat) (h0 : m' off = m off)
    (h1 : m' (off + 1) = m (off + 1)) (h2 : m' (off + 2) = m (off + 2))
    (h3 : m' (off + 2 + 1) = m (off + 2 + 1)) : load32 m' off = load32 m off := by
  simp only [load32, load16, load8, h0, h1, h2, h3]

theorem rip_route_entry_family (cb : Collab) (co : config_options) (b : Builder)
    (hf : co.rip.family ≠ 0) :
    load16 (rip_route_entry cb co b).world.packet b.ptr = co.rip.family % 65536 := by
  have g : Grows (put16 (__RND co.rip.family b).2 (htons (__RND co.rip.family b).1))
      (rip_route_entry cb co b) := by
    unfold rip_route_entry
    exact ((rnd_grows _ _).trans
      ((put16_grows _ _).trans ((rnd_grows _ _).trans ((put32_grows _ _).trans
      ((netmask_grows _ _ _).trans ((put32_grows _ _).trans ((rnd_grows _ _).trans
      ((put32_grows _ _).trans ((rnd_grows _ _).trans (put32_grows _ _))))))))))
  obtain ⟨_, f, _⟩ := g
  have hr : __RND co.rip.family b = (co.rip.family, b) := by simp [__RND, hf]
  rw [hr] at f
  simp only [put16_ptr] at f
  simp only [load16, load8]
  rw [f _ (by omega), f _ (by omega)]
  simp [put16, store16, store8, htons]
  omega

/-- The bytes of the RIP payload, relative to the cursor at which it starts. -/
theorem rip_payload_bytes (cb : Collab) (co : config_options) (b : Builder) :
    load8 (rip_payload cb co b).world.packet b.ptr = co.rip.command % 256 ∧
    load8 (rip_payload cb co b).world.packet (b.ptr + 1) = 2 ∧
    (co.rip.auth = true →
      load16 (rip_payload cb co b).world.packet (b.ptr + 4) = 0xffff ∧
      load16 (rip_payload cb co b).world.packet (b.ptr + 6) = 3 ∧
      load16 (rip_payload cb co b).world.packet (b.ptr + 8) = 44 ∧
      load8 (rip_payload cb co b).world.packet (b.ptr + 10) = co.rip.key_id % 256 ∧
      load8 (rip_payload cb co b).world.packet (b.ptr + 11) = 20 ∧
      load32 (rip_payload cb co b).world.packet (b.ptr + 16) = 0 ∧
      load32 (rip_payload cb co b).world.packet (b.ptr + 20) = 0 ∧
      load16 (rip_payload cb co b).world.packet (b.ptr + 44) = 0xffff ∧
      load16 (rip_payload cb co b).world.packet (b.ptr + 46) = 1) ∧
    (co.rip.family ≠ 0 →
      load16 (rip_payload cb co b).world.packet (b.ptr + 4 + (if co.rip.auth then 20 else 0)) =
        co.rip.family % 65536) := by
  obtain ⟨⟨_, f1, _⟩, p1⟩ := rip_header_grows co b
  obtain ⟨⟨_, f2, _⟩, p2⟩ := rip_auth_entry_grows co (rip_header co b)
  obtain ⟨⟨_, f3, _⟩, p3⟩ := rip_route_entry_grows cb co (rip_auth_entry co (rip_header co b))
  obtain ⟨⟨_, f4, _⟩, p4⟩ := rip_auth_trailer_grows co
    (rip_route_entry cb co (rip_auth_entry co (rip_header co b)))
  obtain ⟨c0, c1⟩ := rip_header_bytes co b
  rw [p3, p2, p1] at f4
  rw [p2, p1] at f3
  rw [p1] at f2
  have hfin : ∀ a, a < b.ptr + 4 + (if co.rip.auth = true then 20 else 0) + 20 →
      (rip_payload cb co b).world.packet a =
        (rip_route_entry cb co (rip_auth_entry co (rip_header co b))).world.packet a :=
    fun a ha => f4 a ha
  have hhdr : ∀ a, a < b.ptr + 4 →
      (rip_payload cb co b).world.packet a = (rip_header co b).world.packet a := by
    intro a ha
    rw [hfin a (by omega), f3 a (by omega), f2 a ha]
  refine ⟨?_, ?_, ?_, ?_⟩
  · rw [← c0]; simp only [load8]; rw [hhdr _ (by omega)]
  · rw [← c1]; simp only [load8]; rw [hhdr _ (by omega)]
  · intro ha
    simp only [ha, if_true] at f3 hfin p2
    obtain ⟨a0, a1, a2, a3, a4, a5, a6⟩ := rip_auth_entry_bytes co (rip_header co b) ha
    rw [p1] at a0 a1 a2 a3 a4 a5 a6
    have hae : ∀ a, a < b.ptr + 4 + 20 →
        (rip_payload cb co b).world.packet a =
          (rip_auth_entry co (rip_header co b)).world.packet a := by
      intro a ha'
      rw [hfin a (by omega), f3 a ha']
    obtain ⟨t0, t1⟩ := rip_auth_trailer_bytes co
      (rip_route_entry cb co (rip_auth_entry co (rip_header co b))) ha
    rw [p3, p2, p1] at t0 t1
    refine ⟨?_, ?_, ?_, ?_, ?_, ?_, ?_, ?_, ?_⟩
    · rw [← a0]; exact load16_congr _ _ _ (hae _ (by omega)) (hae _ (by omega))
    · rw [← a1]
      exact load16_congr _ _ _ (by rw [hae _ (by omega)]) (by rw [hae _ (by omega)])
    · rw [← a2]
      exact load16_congr _ _ _ (by rw [hae _ (by omega)]) (by rw [hae _ (by omega)])
    · rw [← a3]; simp only [load8]; rw [hae _ (by omega)]
    · rw [← a4]; simp only [load8]; rw [hae _ (by omega)]
    · rw [← a5]
      exact load32_congr _ _ _ (by rw [hae _ (by omega)]) (by rw [hae _ (by omega)])
        (by rw [hae _ (by omega)]) (by rw [hae _ (by omega)])
    · rw [← a6]
      exact load32_congr _ _ _ (by rw [hae _ (by omega)]) (by rw [hae _ (by omega)])
        (by rw [hae _ (by omega)]) (by rw [hae _ (by omega)])
    · rw [← t0]; rfl
    · rw [← t1]; rfl
  · intro hf
    have hr := rip_route_entry_family cb co (rip_auth_entry co (rip_header co b)) hf
    rw [p2, p1] at hr
    rw [← hr]
    exact load16_congr _ _ _ (hfin _ (by omega)) (hfin _ (by omega))


theorem rip_check_frame (co : config_options) (udp length : Nat) (b : Builder) :
    (∀ a, a ≠ udp + 6 → a ≠ udp + 7 →
      (rip_check co udp length b).world.packet a = b.world.packet a) ∧
    ∃ pre, (rip_check co udp length b).log =
        b.log ++ pre ++ [Op.store (udp + 6), Op.store (udp + 7)] ∧
      ∀ op ∈ pre, op = Op.cksum udp (length + sizeof_psdhdr) := by
  cases hb : co.bogus_csum
  · refine ⟨fun a h6 h7 => ?_, [Op.cksum udp (length + sizeof_psdhdr)], ?_, by simp⟩
    · simp [rip_check, hb, store16, store8, h6, h7]
    · simp [rip_check, hb, store16, store8, Nat.add_assoc]
  · refine ⟨fun a h6 h7 => ?_, [], ?_, by simp⟩
    · simp [rip_check, hb, store16, store8, Builder.RANDOM, h6, h7]
    · simp [rip_check, hb, store16, store8, Builder.RANDOM, Nat.add_assoc]

/-- After `ripv2` the bytes of the RIP payload are those the payload stage wrote. -/
theorem ripv2_finish_payload (cb : Collab) (co : config_options) (s : RipStart) (b : Builder)
    (src : Nat) (h : cb.conforms co)
    (hudp : s.udp = 20 + cb.gre_opt_len co.gre.options co.encapsulated) (a : Nat)
    (h1 : s.udp + 8 ≤ a) (h2 : a < b.ptr) :
    (ripv2_finish cb co s b src).world.packet a = b.world.packet a := by
  obtain ⟨_, _, hgc⟩ := h
  obtain ⟨_, hpf, _⟩ := rip_pseudo_facts co s.udp src b
  obtain ⟨hcf, _⟩ := rip_check_frame co s.udp (rip_pseudo co s.udp src b).2
    (rip_pseudo co s.udp src b).1
  simp only [ripv2_finish]
  rw [hgc _ _ _ (by simp only [sizeof_iphdr]; omega), hcf _ (by omega) (by omega), hpf _ h2]

/-- The operations of a run of `ripv2`, in order. -/
theorem ripv2_finish_log (cb : Collab) (co : config_options) (w : World) (src : Nat)
    (h : cb.conforms co) :
    ∃ new pre,
      (ripv2_finish cb co (ripv2_start cb co w)
        (rip_payload cb co (ripv2_start cb co w).b) src).log =
      [Op.alloc_packet (ripv2_start cb co w).size, Op.ip_header (ripv2_start cb co w).size,
        Op.gre_encapsulation (20 + 8 + rip_hdr_len co.rip.auth)] ++
      (List.range 8).map (fun i => Op.store ((ripv2_start cb co w).udp + i)) ++ new ++
      (List.range 12).map (fun i =>
        Op.store ((ripv2_start cb co w).udp + 8 + rip_hdr_len co.rip.auth + i)) ++ pre ++
      [Op.store ((ripv2_start cb co w).udp + 6), Op.store ((ripv2_start cb co w).udp + 7)] ++
      [Op.gre_checksum (ripv2_start cb co w).size] ∧
      (∀ op ∈ new, ∃ off, op = Op.store off ∧ (ripv2_start cb co w).udp + 8 ≤ off ∧
        off < (ripv2_start cb co w).udp + 8 + rip_hdr_len co.rip.auth) ∧
      (∀ op ∈ pre, ∃ o l, op = Op.cksum o l) := by
  obtain ⟨_, _, _, hptr, hlog⟩ := ripv2_start_facts cb co w h
  obtain ⟨⟨_, _, new, hnew, hnewp⟩, hpp⟩ := rip_payload_grows cb co (ripv2_start cb co w).b
  obtain ⟨_, _, hpl⟩ := rip_pseudo_facts co (ripv2_start cb co w).udp src
    (rip_payload cb co (ripv2_start cb co w).b)
  obtain ⟨_, pre, hcl, hpre⟩ := rip_check_frame co (ripv2_start cb co w).udp
    (rip_pseudo co (ripv2_start cb co w).udp src (rip_payload cb co (ripv2_start cb co w).b)).2
    (rip_pseudo co (ripv2_start cb co w).udp src (rip_payload cb co (ripv2_start cb co w).b)).1
  refine ⟨new, pre, ?_, ?_, ?_⟩
  · simp only [ripv2_finish]
    rw [hcl, hpl, hnew, hlog, hpp, hptr]
  · intro op hop
    obtain ⟨off, e, h3, h4⟩ := hnewp op hop
    rw [hpp, hptr] at h4
    rw [hptr] at h3
    exact ⟨off, e, h3, h4⟩
  · intro op hop
    exact ⟨_, _, hpre op hop⟩


theorem collab_example_conforms (co : config_options) : collab_example.conforms co := by
  refine ⟨fun _ _ => rfl, fun h _ _ => ?_, fun _ _ _ _ => rfl⟩
  simp [collab_example, h]

/-- C7, size faithfulness. With `rip_hdr_len` 24 bytes without authentication and
24 + 20 + 4 + 16 with it: `ripv2` returns in `*size` the size it computed at line 49,
its first operation is `alloc_packet` with that size and it allocates only once, every
byte it stores itself is at an offset strictly below that size, and it stores the byte
at offset `size - 1`. -/
theorem ripv2_size_faithful (cb : Collab) (co : config_options) (w : World)
    (h : cb.conforms co) :
    rip_hdr_len false = 24 ∧ rip_hdr_len true = 24 + 20 + 4 + 16 ∧
    auth_hmac_md5_len true = 16 ∧
    ∃ r, ripv2 cb co w = some r ∧
      r.size = sizeof_iphdr + cb.gre_opt_len co.gre.options co.encapsulated + sizeof_udphdr +
        rip_hdr_len co.rip.auth + sizeof_psdhdr ∧
      (∃ rest, r.log = Op.alloc_packet r.size :: rest ∧
        ∀ op ∈ rest, ∀ n, op ≠ Op.alloc_packet n) ∧
      (∀ off, Op.store off ∈ r.log → off < r.size) ∧
      Op.store (r.size - 1) ∈ r.log := by
  refine ⟨rfl, rfl, rfl, ?_⟩
  obtain ⟨src, hsome⟩ := ripv2_some cb co w h
  obtain ⟨_, hudp, hsize, hptr, _⟩ := ripv2_start_facts cb co w h
  obtain ⟨new, pre, hlog, hnew, hpre⟩ := ripv2_finish_log cb co w src h
  have hsz : (ripv2_finish cb co (ripv2_start cb co w)
      (rip_payload cb co (ripv2_start cb co w).b) src).size = (ripv2_start cb co w).size := rfl
  refine ⟨_, hsome, ?_, ?_, ?_, ?_⟩
  · rw [hsz, hsize]; simp only [sizeof_iphdr, sizeof_udphdr, sizeof_psdhdr]
  · refine ⟨[Op.ip_header (ripv2_start cb co w).size,
        Op.gre_encapsulation (20 + 8 + rip_hdr_len co.rip.auth)] ++
      (List.range 8).map (fun i => Op.store ((ripv2_start cb co w).udp + i)) ++ new ++
      (List.range 12).map (fun i =>
        Op.store ((ripv2_start cb co w).udp + 8 + rip_hdr_len co.rip.auth + i)) ++ pre ++
      [Op.store ((ripv2_start cb co w).udp + 6), Op.store ((ripv2_start cb co w).udp + 7)] ++
      [Op.gre_checksum (ripv2_start cb co w).size], by rw [hlog, hsz]; rfl, ?_⟩
    intro op hop n hn
    subst hn
    simp only [List.mem_append, List.mem_cons, List.mem_map, List.mem_range,
      List.mem_singleton, List.not_mem_nil, or_false] at hop
    rcases hop with (((((h1 | ⟨i, _, h1⟩) | h1) | ⟨i, _, h1⟩) | h1) | h1 | h1) | h1
    · rcases h1 with h1 | h1 <;> cases h1
    · cases h1
    · obtain ⟨off, e, _⟩ := hnew _ h1
      cases e
    · cases h1
    · obtain ⟨o, l, e⟩ := hpre _ h1
      cases e
    · cases h1
    · cases h1
    · cases h1
  · intro off hoff
    rw [hsz, hsize]
    rw [hlog] at hoff
    simp only [List.mem_append, List.mem_cons, List.mem_map, List.mem_range,
      List.mem_singleton, List.not_mem_nil, or_false] at hoff
    rcases hoff with (((((h1 | ⟨i, hi, h1⟩) | h1) | ⟨i, hi, h1⟩) | h1) | h1 | h1) | h1
    · rcases h1 with h1 | h1 | h1 <;> cases h1
    · cases h1; omega
    · obtain ⟨off', e, _, h4⟩ := hnew _ h1
      cases e; omega
    · cases h1; omega
    · obtain ⟨o, l, e⟩ := hpre _ h1
      cases e
    · cases h1; omega
    · cases h1; omega
    · cases h1
  · rw [hlog, hsz, hsize]
    simp only [List.mem_append, List.mem_map, List.mem_range]
    exact Or.inl (Or.inl (Or.inl (Or.inr ⟨11, by omega, by rw [hudp]; congr 1⟩)))


/-- The bytes of the RIP payload in the packet that `ripv2` leaves. -/
theorem ripv2_payload_loads (cb : Collab) (co : config_options) (w : World) (src : Nat)
    (h : cb.conforms co) :
    (∀ a, (ripv2_start cb co w).udp + 8 ≤ a →
      a < (ripv2_start cb co w).udp + 8 + rip_hdr_len co.rip.auth →
      (ripv2_finish cb co (ripv2_start cb co w)
        (rip_payload cb co (ripv2_start cb co w).b) src).world.packet a =
      (rip_payload cb co (ripv2_start cb co w).b).world.packet a) ∧
    (ripv2_finish cb co (ripv2_start cb co w)
        (rip_payload cb co (ripv2_start cb co w).b) src).udp = (ripv2_start cb co w).udp ∧
    (ripv2_finish cb co (ripv2_start cb co w)
        (rip_payload cb co (ripv2_start cb co w).b) src).pseudo =
      (ripv2_start cb co w).udp + 8 + rip_hdr_len co.rip.auth ∧
    (ripv2_start cb co w).b.ptr = (ripv2_start cb co w).udp + 8 := by
  obtain ⟨_, hudp, _, hptr, _⟩ := ripv2_start_facts cb co w h
  obtain ⟨_, hpp⟩ := rip_payload_grows cb co (ripv2_start cb co w).b
  refine ⟨fun a h1 h2 => ?_, rfl, ?_, hptr⟩
  · exact ripv2_finish_payload cb co _ _ src h hudp a h1 (by rw [hpp, hptr]; exact h2)
  · simp only [ripv2_finish, hpp, hptr]

/-- C8, round trip. For a configuration whose `command` and `key_id` are in `uint8_t`
range, the RIP payload that `ripv2` leaves after the UDP header has `command` at byte
0 and version 2 at byte 1; with authentication, the first entry has address family
0xFFFF, authentication type 3 and the configured key id. -/
theorem ripv2_round_trip (cb : Collab) (co : config_options) (w : World)
    (h : cb.conforms co) (hcmd : co.rip.command < 256) (hkey : co.rip.key_id < 256) :
    ∃ r, ripv2 cb co w = some r ∧
      load8 r.world.packet (r.udp + sizeof_udphdr) = co.rip.command ∧
      load8 r.world.packet (r.udp + sizeof_udphdr + 1) = 2 ∧
      (co.rip.auth = true →
        load16 r.world.packet (r.udp + sizeof_udphdr + 4) = 0xffff ∧
        load16 r.world.packet (r.udp + sizeof_udphdr + 6) = 3 ∧
        load8 r.world.packet (r.udp + sizeof_udphdr + 10) = co.rip.key_id) := by
  obtain ⟨src, hsome⟩ := ripv2_some cb co w h
  obtain ⟨hfr, hu, _, hptr⟩ := ripv2_payload_loads cb co w src h
  obtain ⟨c0, c1, ca, _⟩ := rip_payload_bytes cb co (ripv2_start cb co w).b
  rw [hptr] at c0 c1 ca
  have hlen : 24 ≤ rip_hdr_len co.rip.auth := by
    simp only [rip_hdr_len, RIP_HEADER_LENGTH, RIP_MESSAGE_LENGTH]; omega
  refine ⟨_, hsome, ?_, ?_, ?_⟩
  · rw [hu]
    simp only [load8, sizeof_udphdr] at c0 ⊢
    rw [hfr _ (by omega) (by omega), c0, Nat.mod_eq_of_lt hcmd]
  · rw [hu]
    simp only [load8, sizeof_udphdr] at c1 ⊢
    rw [hfr _ (by omega) (by omega), c1]
  · intro ha
    obtain ⟨a0, a1, _, a3, _⟩ := ca ha
    rw [hu]
    simp only [sizeof_udphdr]
    refine ⟨?_, ?_, ?_⟩
    · rw [← a0]
      exact load16_congr _ _ _ (hfr _ (by omega) (by omega)) (hfr _ (by omega) (by omega))
    · rw [← a1]
      exact load16_congr _ _ _ (hfr _ (by omega) (by omega)) (hfr _ (by omega) (by omega))
    · simp only [load8] at a3 ⊢
      rw [hfr _ (by omega) (by omega), a3, Nat.mod_eq_of_lt hkey]

/-- C9, authentication layout. With `co->rip.auth` set the RIP payload is the 4-byte
header, the authentication entry (0xFFFF, 0x0003, its two reserved words zero) at
offset 4, the route entry at offset 24, the trailer (0xFFFF, 0x0001) at offset 44
followed by `auth_hmac_md5_len` bytes up to the pseudo-header, and the packet length
field of the authentication entry is 44, the offset of the trailer. With
`co->rip.auth` clear the payload is 24 bytes, header and route entry. The route entry is
located by its address family, when the configuration fixes it. -/
theorem ripv2_auth_layout (cb : Collab) (co : config_options) (w : World)
    (h : cb.conforms co) :
    ∃ r, ripv2 cb co w = some r ∧
      (co.rip.auth = true →
        load16 r.world.packet (r.udp + sizeof_udphdr + 4) = 0xffff ∧
        load16 r.world.packet (r.udp + sizeof_udphdr + 4 + 2) = 0x0003 ∧
        load32 r.world.packet (r.udp + sizeof_udphdr + 4 + 12) = 0 ∧
        load32 r.world.packet (r.udp + sizeof_udphdr + 4 + 16) = 0 ∧
        load16 r.world.packet (r.udp + sizeof_udphdr + 4 + 20 + 20) = 0xffff ∧
        load16 r.world.packet (r.udp + sizeof_udphdr + 4 + 20 + 20 + 2) = 0x0001 ∧
        r.pseudo = r.udp + sizeof_udphdr + 4 + 20 + 20 + 4 + auth_hmac_md5_len co.rip.auth ∧
        load16 r.world.packet (r.udp + sizeof_udphdr + 4 + 4) = 4 + 20 + 20) ∧
      (co.rip.auth = false → r.pseudo = r.udp + sizeof_udphdr + 4 + 20) ∧
      (co.rip.family ≠ 0 →
        load16 r.world.packet
          (r.udp + sizeof_udphdr + 4 + (if co.rip.auth then 20 else 0)) =
          co.rip.family % 65536) := by
  obtain ⟨src, hsome⟩ := ripv2_some cb co w h
  obtain ⟨hfr, hu, hps, hptr⟩ := ripv2_payload_loads cb co w src h
  obtain ⟨_, _, ca, cf⟩ := rip_payload_bytes cb co (ripv2_start cb co w).b
  rw [hptr] at ca cf
  refine ⟨_, hsome, ?_, ?_, ?_⟩
  · intro ha
    obtain ⟨a0, a1, a2, _, _, a5, a6, t0, t1⟩ := ca ha
    have hlen : rip_hdr_len co.rip.auth = 64 := by rw [ha]; rfl
    rw [hlen] at hfr hps
    have e0 := (load16_congr _ _ _ (hfr _ (by omega) (by omega))
      (hfr _ (by omega) (by omega))).trans a0
    have e1 := (load16_congr _ _ _ (hfr _ (by omega) (by omega))
      (hfr _ (by omega) (by omega))).trans a1
    have e2 := (load16_congr _ _ _ (hfr _ (by omega) (by omega))
      (hfr _ (by omega) (by omega))).trans a2
    have e5 := (load32_congr _ _ _ (hfr _ (by omega) (by omega)) (hfr _ (by omega) (by omega))
      (hfr _ (by omega) (by omega)) (hfr _ (by omega) (by omega))).trans a5
    have e6 := (load32_congr _ _ _ (hfr _ (by omega) (by omega)) (hfr _ (by omega) (by omega))
      (hfr _ (by omega) (by omega)) (hfr _ (by omega) (by omega))).trans a6
    have f0 := (load16_congr _ _ _ (hfr _ (by omega) (by omega))
      (hfr _ (by omega) (by omega))).trans t0
    have f1 := (load16_congr _ _ _ (hfr _ (by omega) (by omega))
      (hfr _ (by omega) (by omega))).trans t1
    rw [hu, hps]
    simp only [sizeof_udphdr, ha, auth_hmac_md5_len, AUTH_TLEN_HMACMD5, if_true,
      Nat.add_assoc, Nat.reduceAdd] at e0 e1 e2 e5 e6 f0 f1 ⊢
    exact ⟨e0, e1, e5, e6, f0, f1, trivial, e2⟩
  · intro ha
    have hlen : rip_hdr_len co.rip.auth = 24 := by rw [ha]; rfl
    rw [hu, hps, hlen]
    simp only [sizeof_udphdr]
  · intro hf
    have hc := cf hf
    rw [hu]
    simp only [sizeof_udphdr]
    rw [← hc]
    have hlen : 24 ≤ rip_hdr_len co.rip.auth ∧ (co.rip.auth = true → 64 ≤ rip_hdr_len co.rip.auth) := by
      simp only [rip_hdr_len, RIP_HEADER_LENGTH, RIP_MESSAGE_LENGTH, RIP_AUTH_LENGTH,
        RIP_TRAILER_LENGTH, AUTH_TLEN_HMACMD5]
      constructor
      · omega
      · intro ha; simp [ha]
    cases ha : co.rip.auth
    · simp only [Bool.false_eq_true, if_false, Nat.add_zero]
      exact load16_congr _ _ _ (hfr _ (by omega) (by omega)) (hfr _ (by omega) (by omega))
    · have := hlen.2 ha
      simp only [if_true]
      exact load16_congr _ _ _ (hfr _ (by omega) (by omega)) (hfr _ (by omega) (by omega))

theorem ripv2_checksum_correct_witness :
    ∃ r, ripv2 collab_example co_ripv2 world_example = some r ∧
      r.udp = sizeof_iphdr +
        collab_example.gre_opt_len co_ripv2.gre.options co_ripv2.encapsulated ∧
      r.pseudo = r.udp + sizeof_udphdr + rip_hdr_len co_ripv2.rip.auth ∧
      cksum r.world.packet r.udp (r.pseudo + sizeof_psdhdr - r.udp) = 0 :=
  ripv2_checksum_correct collab_example co_ripv2 world_example
    (collab_example_conforms co_ripv2) rfl

theorem ripv2_size_faithful_witness :
    rip_hdr_len false = 24 ∧ rip_hdr_len true = 24 + 20 + 4 + 16 ∧
    auth_hmac_md5_len true = 16 ∧
    ∃ r, ripv2 collab_example co_ripv2 world_example = some r ∧
      r.size = sizeof_iphdr +
        collab_example.gre_opt_len co_ripv2.gre.options co_ripv2.encapsulated +
        sizeof_udphdr + rip_hdr_len co_ripv2.rip.auth + sizeof_psdhdr ∧
      (∃ rest, r.log = Op.alloc_packet r.size :: rest ∧
        ∀ op ∈ rest, ∀ n, op ≠ Op.alloc_packet n) ∧
      (∀ off, Op.store off ∈ r.log → off < r.size) ∧
      Op.store (r.size - 1) ∈ r.log :=
  ripv2_size_faithful collab_example co_ripv2 world_example (collab_example_conforms co_ripv2)

theorem ripv2_round_trip_witness :
    ∃ r, ripv2 collab_example co_ripv2 world_example = some r ∧
      load8 r.world.packet (r.udp + sizeof_udphdr) = co_ripv2.rip.command ∧
      load8 r.world.packet (r.udp + sizeof_udphdr + 1) = 2 ∧
      (co_ripv2.rip.auth = true →
        load16 r.world.packet (r.udp + sizeof_udphdr + 4) = 0xffff ∧
        load16 r.world.packet (r.udp + sizeof_udphdr + 6) = 3 ∧
        load8 r.world.packet (r.udp + sizeof_udphdr + 10) = co_ripv2.rip.key_id) :=
  ripv2_round_trip collab_example co_ripv2 world_example (collab_example_conforms co_ripv2)
    (by decide) (by decide)

theorem ripv2_auth_layout_witness :
    ∃ r, ripv2 collab_example co_ripv2 world_example = some r ∧
      (co_ripv2.rip.auth = true →
        load16 r.world.packet (r.udp + sizeof_udphdr + 4) = 0xffff ∧
        load16 r.world.packet (r.udp + sizeof_udphdr + 4 + 2) = 0x0003 ∧
        load32 r.world.packet (r.udp + sizeof_udphdr + 4 + 12) = 0 ∧
        load32 r.world.packet (r.udp + sizeof_udphdr + 4 + 16) = 0 ∧
        load16 r.world.packet (r.udp + sizeof_udphdr + 4 + 20 + 20) = 0xffff ∧
        load16 r.world.packet (r.udp + sizeof_udphdr + 4 + 20 + 20 + 2) = 0x0001 ∧
        r.pseudo =
          r.udp + sizeof_udphdr + 4 + 20 + 20 + 4 + auth_hmac_md5_len co_ripv2.rip.auth ∧
        load16 r.world.packet (r.udp + sizeof_udphdr + 4 + 4) = 4 + 20 + 20) ∧
      (co_ripv2.rip.auth = false → r.pseudo = r.udp + sizeof_udphdr + 4 + 20) ∧
      (co_ripv2.rip.family ≠ 0 →
        load16 r.world.packet
          (r.udp + sizeof_udphdr + 4 + (if co_ripv2.rip.auth then 20 else 0)) =
          co_ripv2.rip.family % 65536) :=
  ripv2_auth_layout collab_example co_ripv2 world_example (collab_example_conforms co_ripv2)

/-! ## The turbo section, the loop modes, signals and privileges -/

theorem turbo_section_cases (env : Env) (co : config_options) :
    ((env.have_turbo = true ∧ co.turbo = true ∧ turbo_eligible env co = true) ∧
      Event.fork env.fork ∈ (turbo_section env co).trace) ∨
    (¬ (env.have_turbo = true ∧ co.turbo = true ∧ turbo_eligible env co = true) ∧
      turbo_section env co = TurboResult.go (-1) co []) := by
  unfold turbo_section
  by_cases h1 : (env.have_turbo && co.turbo) = true
  · rw [if_pos h1]
    have h1' := h1
    simp only [Bool.and_eq_true] at h1'
    by_cases h2 : turbo_eligible env co = true
    · rw [if_pos h2]
      left
      refine ⟨⟨h1'.1, h1'.2, h2⟩, ?_⟩
      by_cases h3 : env.fork = -1
      · simp [h3, TurboResult.trace]
      · by_cases h4 : env.setpriority = -1
        · simp [h3, h4, TurboResult.trace]
        · simp [h3, h4, TurboResult.trace]
    · rw [if_neg h2]
      right
      exact ⟨fun h => h2 h.2.2, rfl⟩
  · rw [if_neg h1]
    right
    refine ⟨fun h => h1 ?_, rfl⟩
    simp [h.1, h.2.1]

/-- The run of `main` cut after `k` turns of the loop that all send. -/
theorem main_first_turns (env : Env) (co0 co : config_options) (pid : Int)
    (tr : List Event) (cidr_ptr : cidr) (k : Nat)
    (hcfg : env.getConfigOptions = some co0) (hroot : env.getuid = 0)
    (hchk : env.checkConfigOptions co0 = true) (hsock : env.createSocket = true)
    (hturbo : turbo_section env co0 = TurboResult.go pid co tr)
    (hcidr : env.config_cidr co.bits co.ip.daddr = some cidr_ptr)
    (htab : 0 < k → table_ok env co)
    (hgo : 0 < k → co.flood = true ∨ (k : Int) ≤ co.threshold)
    (hr : co.threshold < 2147483648)
    (hsend : ∀ j < k, env.sendPacket j = true) :
    ∃ sk : LoopState,
      main env k = { trace := sk.trace, outcome := Outcome.running, co := some sk.co } ∧
      sk.co.threshold = (if co.flood = true then co.threshold else co.threshold - k) ∧
      builds sk.trace = (List.range k).map
        (fun j => (cursor_at env co j, protocol_at env.mod_table (cursor_at env co j))) := by
  obtain ⟨_, hb, _⟩ := turbo_section_quiet env co0 co pid tr hturbo
  obtain ⟨sk, h1, _, _, _, h5, _, h7⟩ := main_inject_loop env pid co (Event.createSocket :: tr)
    k htab hgo hr hsend cidr_ptr
  have hloop := h1 0
  refine ⟨sk, ?_, h5, ?_⟩
  · rw [main_started env co0 co pid tr k hcfg hroot hchk hsock hturbo]
    simp only [main_inject, hcidr]
    rw [show k = k + 0 by rfl, hloop]
    simp [main_loop, main_return]
  · rw [h7]
    have : builds (Event.createSocket :: tr) = [] := by
      have := builds_append [Event.createSocket] tr
      simp only [List.singleton_append] at this
      rw [this, hb]; simp [builds]
    rw [this, List.nil_append]

/-- C12, single-protocol mode. When the initial `co.ip.protocol` is not `IPPROTO_T50`
(and is in the range of its 8-bit field), and the modules-table entry at index
`co.ip.protoname` has a builder, then in a run in which `k` iterations of the loop take
place and send, every one of the `k` builder calls is made at the table cursor
`co.ip.protoname`, with `co.ip.protocol` equal to the `protocol_id` of that entry: the
cursor never moves. -/
theorem single_protocol_mode (env : Env) (co0 co : config_options) (pid : Int)
    (tr : List Event) (cidr_ptr : cidr) (k : Nat)
    (hcfg : env.getConfigOptions = some co0) (hroot : env.getuid = 0)
    (hchk : env.checkConfigOptions co0 = true) (hsock : env.createSocket = true)
    (hturbo : turbo_section env co0 = TurboResult.go pid co tr)
    (hcidr : env.config_cidr co.bits co.ip.daddr = some cidr_ptr)
    (hsingle : co0.ip.protocol ≠ IPPROTO_T50) (hrange : co0.ip.protocol < 256)
    (htbl : ∃ e, env.mod_table.get? co.ip.protoname = some e ∧ e.func.isSome = true)
    (hgo : co.flood = true ∨ (k : Int) ≤ co.threshold) (hr : co.threshold < 2147483648)
    (hsend : ∀ j < k, env.sendPacket j = true) :
    builds (main env k).trace =
      List.replicate k (co.ip.protoname, protocol_at env.mod_table co.ip.protoname) ∧
    (∀ c ∈ (builds (main env k).trace).map Prod.fst, c = co.ip.protoname) ∧
    (builds (main env k).trace).length = k := by
  obtain ⟨_, _, hproto⟩ := turbo_section_quiet env co0 co pid tr hturbo
  have hne : ¬ co.ip.protocol % 256 = IPPROTO_T50 := by
    rw [hproto, Nat.mod_eq_of_lt hrange]; exact hsingle
  have htab : table_ok env co := by
    unfold table_ok
    rw [if_neg hne]
    exact htbl
  obtain ⟨sk, hmain, _, hb⟩ := main_first_turns env co0 co pid tr cidr_ptr k hcfg hroot hchk
    hsock hturbo hcidr (fun _ => htab) (fun _ => hgo) hr hsend
  have hbuilds : builds (main env k).trace =
      List.replicate k (co.ip.protoname, protocol_at env.mod_table co.ip.protoname) := by
    rw [hmain]
    simp only [hb, cursor_at, if_neg hne]
    rw [List.eq_replicate_iff]
    refine ⟨by simp, ?_⟩
    intro b hb'
    simp only [List.mem_map, List.mem_range] at hb'
    obtain ⟨_, _, rfl⟩ := hb'
    rfl
  refine ⟨hbuilds, ?_, ?_⟩
  · intro c hc
    rw [hbuilds] at hc
    simp only [List.map_replicate] at hc
    exact List.eq_of_mem_replicate hc
  · rw [hbuilds, List.length_replicate]

/-- C13, threshold decrement, as amended. In a run in which `k` iterations of the loop
take place and send (`k` at most the threshold, or any `k` in flood mode), there are `k`
builder calls; when `flood` is clear the threshold after them is its value at the start of
the loop minus `k`, one decrement per iteration; when `flood` is set the loop condition
`co->flood || (co->threshold-- > 0)` does not evaluate the decrement and the threshold
keeps its value. -/
theorem threshold_after_turns (env : Env) (co0 co : config_options) (pid : Int)
    (tr : List Event) (cidr_ptr : cidr) (k : Nat)
    (hcfg : env.getConfigOptions = some co0) (hroot : env.getuid = 0)
    (hchk : env.checkConfigOptions co0 = true) (hsock : env.createSocket = true)
    (hturbo : turbo_section env co0 = TurboResult.go pid co tr)
    (hcidr : env.config_cidr co.bits co.ip.daddr = some cidr_ptr)
    (htab : table_ok env co)
    (hgo : co.flood = true ∨ (k : Int) ≤ co.threshold) (hr : co.threshold < 2147483648)
    (hsend : ∀ j < k, env.sendPacket j = true) :
    (builds (main env k).trace).length = k ∧
    (co.flood = false →
      (main env k).co.map (fun c => c.threshold) = some (co.threshold - k)) ∧
    (co.flood = true → (main env k).co.map (fun c => c.threshold) = some co.threshold) := by
  obtain ⟨sk, hmain, ht, hb⟩ := main_first_turns env co0 co pid tr cidr_ptr k hcfg hroot hchk
    hsock hturbo hcidr (fun _ => htab) (fun _ => hgo) hr hsend
  rw [hmain]
  refine ⟨by simp [hb], fun hf => ?_, fun hf => ?_⟩
  · simp [ht, hf]
  · simp [ht, hf]

/-- C13 fails as stated: in flood mode with threshold 3, after
two iterations of the loop the threshold is still 3, not 3 - 2. -/
theorem flood_threshold_counterexample :
    co_flood.flood = true ∧ co_flood.threshold = 3 ∧
    (builds (main env_flood 2).trace).length = 2 ∧
    (main env_flood 2).co.map (fun c => c.threshold) = some 3 ∧
    (main env_flood 2).co.map (fun c => c.threshold) ≠ some (3 - 2) :=
  ⟨rfl, rfl, by decide, by decide, by decide⟩

theorem turbo_section_forked (env : Env) (co co1 : config_options) (pid : Int)
    (tr : List Event) (hturbo : turbo_section env co = TurboResult.go pid co1 tr)
    (hfork : Event.fork pid ∈ tr) : env.have_turbo = true ∧ pid = env.fork := by
  rcases turbo_section_cases env co with ⟨⟨h1, h2, h3⟩, _⟩ | ⟨_, hgo⟩
  · refine ⟨h1, ?_⟩
    by_cases h4 : env.fork = -1
    · have h := hturbo
      unfold turbo_section at h
      rw [if_pos (by simp [h1, h2]), if_pos h3] at h
      simp [h4] at h
    · by_cases h5 : env.setpriority = -1
      · have h := hturbo
        unfold turbo_section at h
        rw [if_pos (by simp [h1, h2]), if_pos h3] at h
        simp [h4, h5] at h
      · rw [turbo_section_fork env co h1 h2 h3 h4 h5] at hturbo
        cases hturbo
        rfl
  · rw [hgo] at hturbo
    cases hturbo
    simp at hfork

/-- C14, signal handler. In a worker that forked in the turbo section, for every signal
number `signo`: if the static `pid` is positive (the parent, holding the pid of the child)
`signal_handler` sends `SIGKILL` to that pid, closes the socket once and exits with status
`128 + signo`; if `pid` is 0 (the child) it makes no call, neither `kill` nor
`closeSocket`, and exits with status `128 + signo`. -/
theorem signal_handler_parent_child (env : Env) (co co1 : config_options) (pid : Int)
    (tr : List Event) (signo : Int)
    (hturbo : turbo_section env co = TurboResult.go pid co1 tr)
    (hfork : Event.fork pid ∈ tr) :
    (0 < pid → signal_handler env.have_turbo pid signo =
      ([Event.kill pid 9, Event.closeSocket], Outcome.exited (128 + signo))) ∧
    (pid = 0 → signal_handler env.have_turbo pid signo = ([], Outcome.exited (128 + signo))) := by
  obtain ⟨ht, _⟩ := turbo_section_forked env co co1 pid tr hturbo hfork
  rw [ht]
  refine ⟨fun hp => ?_, fun hp => ?_⟩
  · have : IS_CHILD_PID pid = false := by simp [IS_CHILD_PID]; omega
    simp [signal_handler, this]
  · subst hp
    simp [signal_handler, IS_CHILD_PID]


theorem loop_body_appends (env : Env) (proto : Nat) (c : cidr) (s : LoopState) :
    ∃ evs, (loop_body env proto c s).state.trace = s.trace ++ evs ∧
      ∀ e ∈ evs, e.call.isSome = true := by
  obtain ⟨co1, w1, hp, _, _⟩ := pick_daddr_isSome c s.co s.world
  cases he : env.mod_table.get? s.ptbl with
  | none =>
    refine ⟨[], ?_, by simp⟩
    simp only [loop_body, hp, he, BodyResult.state, List.append_nil]
  | some e =>
    cases hf : e.func with
    | none =>
      refine ⟨[], ?_, by simp⟩
      simp only [loop_body, hp, he, hf, BodyResult.state, List.append_nil]
    | some f =>
      refine ⟨_, loop_body_trace env proto c s e f co1 w1 hp he hf, ?_⟩
      intro e' he'
      simp only [List.mem_cons, List.mem_singleton, List.not_mem_nil, or_false] at he'
      rcases he' with rfl | rfl <;> rfl

theorem main_loop_appends (env : Env) (proto : Nat) (c : cidr) (fuel : Nat) :
    ∀ s : LoopState, ∃ evs, (main_loop env proto c fuel s).1.trace = s.trace ++ evs ∧
      ∀ e ∈ evs, e.call.isSome = true := by
  induction fuel with
  | zero => intro s; exact ⟨[], by simp [main_loop], by simp⟩
  | succ fuel ih =>
    intro s
    rcases hlt : loop_test s.co with ⟨go, co1⟩
    cases go
    · exact ⟨[], by simp only [main_loop, hlt, List.append_nil], by simp⟩
    · obtain ⟨evs, h1, h2⟩ := loop_body_appends env proto c { s with co := co1 }
      cases hb : loop_body env proto c { s with co := co1 } with
      | next s1 =>
        rw [hb] at h1
        simp only [BodyResult.state] at h1
        obtain ⟨evs2, h3, h4⟩ := ih s1
        refine ⟨evs ++ evs2, ?_, ?_⟩
        · simp only [main_loop, hlt, hb, h3, h1, List.append_assoc]
        · intro e he
          rcases List.mem_append.mp he with h | h
          · exact h2 e h
          · exact h4 e h
      | ret status s1 =>
        rw [hb] at h1
        exact ⟨evs, by simp only [main_loop, hlt, hb]; exact h1, h2⟩
      | fault s1 =>
        rw [hb] at h1
        exact ⟨evs, by simp only [main_loop, hlt, hb]; exact h1, h2⟩

theorem loop_body_ret_status (env : Env) (proto : Nat) (c : cidr) (s s1 : LoopState)
    (status : Int) (hb : loop_body env proto c s = BodyResult.ret status s1) :
    status = EXIT_FAILURE := by
  obtain ⟨co2, w1, hp, _, _⟩ := pick_daddr_isSome c s.co s.world
  simp only [loop_body, hp] at hb
  cases he : env.mod_table.get? s.ptbl with
  | none => rw [he] at hb; cases hb
  | some e =>
    rw [he] at hb
    cases hf : e.func with
    | none => simp only [hf] at hb; cases hb
    | some f =>
      simp only [hf] at hb
      cases hs : env.sendPacket s.sends
      · simp only [hs, if_true] at hb
        cases hb
        rfl
      · simp only [hs, Bool.true_eq_false, if_false] at hb
        cases ha : advance_ptbl env proto s.ptbl <;> rw [ha] at hb <;> cases hb

theorem main_loop_returned (env : Env) (proto : Nat) (c : cidr) (fuel : Nat) :
    ∀ (s : LoopState) (status : Int),
      (main_loop env proto c fuel s).2 = LoopExit.returned status → status = EXIT_FAILURE := by
  induction fuel with
  | zero => intro s status h; simp [main_loop] at h
  | succ fuel ih =>
    intro s status h
    rcases hlt : loop_test s.co with ⟨go, co1⟩
    cases go
    · simp [main_loop, hlt] at h
    · cases hb : loop_body env proto c { s with co := co1 } with
      | next s1 =>
        simp only [main_loop, hlt, hb] at h
        exact ih s1 status h
      | ret st s1 =>
        simp only [main_loop, hlt, hb, LoopExit.returned.injEq] at h
        subst h
        exact loop_body_ret_status env proto c _ s1 st hb
      | fault s1 => simp [main_loop, hlt, hb] at h


theorem closes_append (a b : List Event) : closes (a ++ b) = closes a + closes b := by
  simp [closes, List.countP_append]

theorem quiet_of_calls (evs : List Event) (h : ∀ e ∈ evs, e.call.isSome = true) :
    closes evs = 0 ∧ ∀ p, Event.fork p ∉ evs := by
  refine ⟨?_, fun p hp => ?_⟩
  · unfold closes
    rw [List.countP_eq_zero]
    intro e he
    have := h e he
    cases e <;> simp [Event.call, Event.is_closeSocket] at this ⊢
  · have := h _ hp
    simp [Event.call] at this

theorem pid_after_append (a b : List Event) (h : ∀ p, Event.fork p ∉ b) :
    pid_after (a ++ b) = pid_after a := by
  unfold pid_after
  rw [List.foldl_append]
  generalize List.foldl _ (-1) a = x
  induction b with
  | nil => rfl
  | cons e t ih =>
    have ht : ∀ p, Event.fork p ∉ t := fun p hp => h p (List.mem_cons_of_mem _ hp)
    cases e with
    | fork p => exact (h p (List.mem_cons_self _ _)).elim
    | _ => simpa using ih ht

theorem pid_after_no_fork (t : List Event) (h : ∀ p, Event.fork p ∉ t) : pid_after t = -1 := by
  have := pid_after_append [] t h
  simpa [pid_after] using this

theorem turbo_section_go_shape (env : Env) (co0 co : config_options) (pid : Int)
    (tr : List Event) (hturbo : turbo_section env co0 = TurboResult.go pid co tr) :
    (pid = -1 ∧ tr = []) ∨
    (env.have_turbo = true ∧ pid = env.fork ∧ tr = [Event.fork pid, Event.setpriority]) := by
  rcases turbo_section_cases env co0 with ⟨⟨h1, h2, h3⟩, _⟩ | ⟨_, hgo⟩
  · right
    by_cases h4 : env.fork = -1
    · have h := hturbo
      unfold turbo_section at h
      rw [if_pos (by simp [h1, h2]), if_pos h3] at h
      simp [h4] at h
    · by_cases h5 : env.setpriority = -1
      · have h := hturbo
        unfold turbo_section at h
        rw [if_pos (by simp [h1, h2]), if_pos h3] at h
        simp [h4, h5] at h
      · rw [turbo_section_fork env co0 h1 h2 h3 h4 h5] at hturbo
        cases hturbo
        exact ⟨h1, rfl, rfl⟩
  · rw [hgo] at hturbo
    cases hturbo
    exact Or.inl ⟨rfl, rfl⟩

theorem turbo_section_ret_shape (env : Env) (co0 : config_options) (status : Int)
    (tr : List Event) (hturbo : turbo_section env co0 = TurboResult.ret status tr) :
    env.have_turbo = true ∧ status = EXIT_FAILURE ∧ closes tr = 0 ∧ calls tr = [] := by
  rcases turbo_section_cases env co0 with ⟨⟨h1, h2, h3⟩, _⟩ | ⟨_, hgo⟩
  · refine ⟨h1, ?_⟩
    by_cases h4 : env.fork = -1
    · have h := hturbo
      unfold turbo_section at h
      rw [if_pos (by simp [h1, h2]), if_pos h3] at h
      simp only [h4, if_true, TurboResult.ret.injEq] at h
      obtain ⟨rfl, rfl⟩ := h
      exact ⟨rfl, rfl, rfl⟩
    · by_cases h5 : env.setpriority = -1
      · have h := hturbo
        unfold turbo_section at h
        rw [if_pos (by simp [h1, h2]), if_pos h3] at h
        simp only [h4, h5, if_true, if_false, TurboResult.ret.injEq] at h
        obtain ⟨rfl, rfl⟩ := h
        exact ⟨rfl, rfl, rfl⟩
      · rw [turbo_section_fork env co0 h1 h2 h3 h4 h5] at hturbo
        cases hturbo
  · rw [hgo] at hturbo
    cases hturbo

/-- What the part of `main` after the turbo section adds to the trace. -/
theorem main_inject_shape (env : Env) (fuel : Nat) (pid : Int) (co : config_options)
    (tr : List Event) :
    ∃ evs, (main_inject env fuel pid co tr).trace = tr ++ evs ∧
      (∀ p, Event.fork p ∉ evs) ∧
      ((main_inject env fuel pid co tr).outcome = Outcome.exited 0 →
        closes evs = if IS_CHILD_PID pid = true then 0 else 1) ∧
      ((main_inject env fuel pid co tr).outcome = Outcome.exited EXIT_FAILURE →
        closes evs = 0) := by
  unfold main_inject
  cases hc : env.config_cidr co.bits co.ip.daddr with
  | none =>
    refine ⟨[], by simp, by simp, fun h => ?_, fun _ => rfl⟩
    simp [EXIT_FAILURE] at h
  | some c =>
    simp only
    obtain ⟨evs, h1, h2⟩ := main_loop_appends env (co.ip.protocol % 256) c fuel
      (loop_start env pid co tr)
    obtain ⟨hq1, hq2⟩ := quiet_of_calls evs h2
    have hret := main_loop_returned env (co.ip.protocol % 256) c fuel (loop_start env pid co tr)
    rcases hm : main_loop env (co.ip.protocol % 256) c fuel (loop_start env pid co tr)
      with ⟨s, x⟩
    rw [hm] at h1 hret
    simp only at h1 hret
    have hstart : (loop_start env pid co tr).trace = tr ++
        ((if IS_CHILD_PID pid = false then [Event.launch_banner] else []) ++
          [Event.alloc_packet env.INITIAL_PACKET_SIZE]) := by
      simp [loop_start]
    have hpre : closes ((if IS_CHILD_PID pid = false then [Event.launch_banner] else []) ++
          [Event.alloc_packet env.INITIAL_PACKET_SIZE]) = 0 ∧
        ∀ p, Event.fork p ∉ ((if IS_CHILD_PID pid = false then [Event.launch_banner] else []) ++
          [Event.alloc_packet env.INITIAL_PACKET_SIZE]) := by
      cases IS_CHILD_PID pid <;> simp [closes, Event.is_closeSocket]
    rw [hstart] at h1
    cases x with
    | condition_false =>
      refine ⟨((if IS_CHILD_PID pid = false then [Event.launch_banner] else []) ++
          [Event.alloc_packet env.INITIAL_PACKET_SIZE]) ++ evs ++ epilogue env pid, ?_, ?_, ?_, ?_⟩
      · simp only [main_return, h1, List.append_assoc]
      · intro p hp
        rcases List.mem_append.mp hp with h | h
        · rcases List.mem_append.mp h with h | h
          · exact hpre.2 p h
          · exact hq2 p h
        · unfold epilogue at h
          cases env.have_turbo <;> cases IS_CHILD_PID pid <;> simp at h
      · intro _
        rw [closes_append, closes_append, hpre.1, hq1]
        unfold epilogue
        cases env.have_turbo <;> cases IS_CHILD_PID pid <;>
          simp [closes, Event.is_closeSocket]
      · intro h
        simp [main_return, EXIT_FAILURE] at h
    | returned status =>
      refine ⟨((if IS_CHILD_PID pid = false then [Event.launch_banner] else []) ++
          [Event.alloc_packet env.INITIAL_PACKET_SIZE]) ++ evs, ?_, ?_, ?_, ?_⟩
      · simp only [main_return, h1, List.append_assoc]
      · intro p hp
        rcases List.mem_append.mp hp with h | h
        · exact hpre.2 p h
        · exact hq2 p h
      · intro h
        have := hret status rfl
        simp [main_return, this, EXIT_FAILURE] at h
      · intro _
        rw [closes_append, hpre.1, hq1]
    | out_of_fuel =>
      refine ⟨((if IS_CHILD_PID pid = false then [Event.launch_banner] else []) ++
          [Event.alloc_packet env.INITIAL_PACKET_SIZE]) ++ evs, ?_, ?_, ?_, ?_⟩
      · simp only [main_return, h1, List.append_assoc]
      · intro p hp
        rcases List.mem_append.mp hp with h | h
        · exact hpre.2 p h
        · exact hq2 p h
      · intro h; simp [main_return] at h
      · intro h; simp [main_return] at h
    | fault =>
      refine ⟨((if IS_CHILD_PID pid = false then [Event.launch_banner] else []) ++
          [Event.alloc_packet env.INITIAL_PACKET_SIZE]) ++ evs, ?_, ?_, ?_, ?_⟩
      · simp only [main_return, h1, List.append_assoc]
      · intro p hp
        rcases List.mem_append.mp hp with h | h
        · exact hpre.2 p h
        · exact hq2 p h
      · intro h; simp [main_return] at h
      · intro h; simp [main_return] at h


theorem main_unprivileged (env : Env) (co : config_options) (fuel : Nat)
    (hcfg : env.getConfigOptions = some co) (huid : env.getuid ≠ 0) :
    main env fuel = { trace := [], outcome := Outcome.exited EXIT_FAILURE, co := some co } := by
  simp only [main, hcfg]
  rw [if_pos huid]

theorem main_privileged (env : Env) (co : config_options) (fuel : Nat)
    (hcfg : env.getConfigOptions = some co) (huid : env.getuid = 0)
    (hchk : env.checkConfigOptions co = true) :
    ∃ t, (main env fuel).trace = Event.createSocket :: t := by
  simp only [main, hcfg, huid, hchk]
  cases hs : env.createSocket
  · exact ⟨[], by simp⟩
  · cases ht : turbo_section env co with
    | ret status tr => exact ⟨tr, by simp⟩
    | go pid co1 tr =>
      obtain ⟨evs, h, _⟩ := main_inject_shape env fuel pid co1 (Event.createSocket :: tr)
      exact ⟨tr ++ evs, by simpa using h⟩

/-- C17, privilege check, as amended. For an otherwise valid configuration and every
combination of real and effective user id, `main` refuses to start (returns a non-zero
status without having called `createSocket`, a builder or `sendPacket`) if and only if the
real user id, the one `getuid()` returns, is not 0. The effective user id plays no part. -/
theorem privilege_check (env : Env) (co : config_options) (c : Credentials) (fuel : Nat)
    (hcfg : env.getConfigOptions = some co) (hchk : env.checkConfigOptions co = true) :
    refuses (main (env.run_as c) fuel) ↔ c.uid ≠ 0 := by
  constructor
  · intro ⟨_, hno, _⟩ h0
    obtain ⟨t, ht⟩ := main_privileged (env.run_as c) co fuel hcfg h0 hchk
    rw [ht] at hno
    exact hno (List.mem_cons_self _ _)
  · intro h
    rw [main_unprivileged (env.run_as c) co fuel hcfg h]
    exact ⟨⟨EXIT_FAILURE, rfl, by decide⟩, by simp, rfl⟩

/-- C17 fails as stated: a process with real user id 0 and
effective user id 1000 is not refused; a process with real user id 1000 and effective
user id 0 is refused. -/
theorem real_uid_counterexample :
    ((⟨0, 1000⟩ : Credentials).euid ≠ 0 ∧
      ¬ refuses (main (env_example.run_as ⟨0, 1000⟩) 4)) ∧
    ((⟨1000, 0⟩ : Credentials).euid = 0 ∧
      refuses (main (env_example.run_as ⟨1000, 0⟩) 4)) := by
  refine ⟨⟨by decide, ?_⟩, rfl, ?_⟩
  · intro ⟨_, hno, _⟩
    obtain ⟨t, ht⟩ := main_privileged (env_example.run_as ⟨0, 1000⟩) co_ripv2 4 rfl rfl rfl
    rw [ht] at hno
    exact hno (List.mem_cons_self _ _)
  · rw [main_unprivileged (env_example.run_as ⟨1000, 0⟩) co_ripv2 4 rfl (by decide)]
    exact ⟨⟨EXIT_FAILURE, rfl, by decide⟩, by simp, rfl⟩

theorem privilege_check_witness :
    refuses (main (env_example.run_as ⟨1000, 1000⟩) 4) ↔
      (⟨1000, 1000⟩ : Credentials).uid ≠ 0 :=
  privilege_check env_example co_ripv2 ⟨1000, 1000⟩ 4 rfl rfl

/-- The four ways in which a run of `main` goes up to the turbo section. -/
theorem main_shape (env : Env) (fuel : Nat) :
    (∃ co1, main env fuel =
      { trace := [], outcome := Outcome.exited EXIT_FAILURE, co := co1 }) ∨
    (∃ co1, main env fuel =
      { trace := [Event.createSocket], outcome := Outcome.exited EXIT_FAILURE, co := co1 }) ∨
    (∃ co0 status tr, turbo_section env co0 = TurboResult.ret status tr ∧
      main env fuel =
        { trace := Event.createSocket :: tr, outcome := Outcome.exited status,
          co := some co0 }) ∨
    (∃ co0 pid co tr, turbo_section env co0 = TurboResult.go pid co tr ∧
      main env fuel = main_inject env fuel pid co (Event.createSocket :: tr)) := by
  cases hcfg : env.getConfigOptions with
  | none => exact Or.inl ⟨none, by simp only [main, hcfg]⟩
  | some co0 =>
    by_cases hu : env.getuid = 0
    · cases hc : env.checkConfigOptions co0
      · exact Or.inl ⟨some co0, by simp [main, hcfg, hu, hc]⟩
      · cases hs : env.createSocket
        · exact Or.inr (Or.inl ⟨some co0, by simp [main, hcfg, hu, hc, hs]⟩)
        · cases ht : turbo_section env co0 with
          | ret status tr =>
            exact Or.inr (Or.inr (Or.inl ⟨co0, status, tr, ht, by
              simp [main, hcfg, hu, hc, hs, ht]⟩))
          | go pid co tr =>
            exact Or.inr (Or.inr (Or.inr ⟨co0, pid, co, tr, ht,
              main_started env co0 co pid tr fuel hcfg hu hc hs ht⟩))
    · exact Or.inl ⟨some co0, main_unprivileged env co0 fuel hcfg hu⟩

theorem turbo_go_quiet (env : Env) (co0 co : config_options) (pid : Int) (tr : List Event)
    (ht : turbo_section env co0 = TurboResult.go pid co tr) :
    pid_after (Event.createSocket :: tr) = pid ∧ closes (Event.createSocket :: tr) = 0 := by
  rcases turbo_section_go_shape env co0 co pid tr ht with ⟨h1, h2⟩ | ⟨_, _, h2⟩
  · subst h1 h2; exact ⟨rfl, rfl⟩
  · rw [h2]; exact ⟨rfl, rfl⟩

theorem main_forks (env : Env) (fuel : Nat) (p : Int)
    (h : Event.fork p ∈ (main env fuel).trace) : env.have_turbo = true := by
  rcases main_shape env fuel with ⟨_, hm⟩ | ⟨_, hm⟩ | ⟨co0, status, tr, ht, hm⟩ |
    ⟨co0, pid, co, tr, ht, hm⟩
  · rw [hm] at h; simp at h
  · rw [hm] at h; simp at h
  · exact (turbo_section_ret_shape env co0 status tr ht).1
  · rw [hm] at h
    obtain ⟨evs, he, hnf, _⟩ := main_inject_shape env fuel pid co (Event.createSocket :: tr)
    rw [he] at h
    rcases turbo_section_go_shape env co0 co pid tr ht with ⟨_, htr⟩ | ⟨h1, _, _⟩
    · subst htr
      simp only [List.mem_append, List.mem_cons, List.not_mem_nil, or_false] at h
      rcases h with h | h
      · cases h
      · exact (hnf p h).elim
    · exact h1

/-- C15, socket closure, as amended. On a run of `main` that returns 0 (normal completion
of the loop) `closeSocket` is called exactly once if the worker is the parent (static
`pid` not 0) and never if it is the child; on a run that returns `EXIT_FAILURE`, the abort
on a send failure included, `closeSocket` is never called, by parent or child; on a run
ended by a trapped signal delivered before any call of `closeSocket`, the handler exits
with status `128 + signo` and `closeSocket` is called exactly once if the worker is the
parent and never if it is the child. -/
theorem socket_closure (env : Env) (fuel : Nat) :
    ((main env fuel).outcome = Outcome.exited 0 →
      closes (main env fuel).trace =
        if IS_CHILD_PID (pid_after (main env fuel).trace) = true then 0 else 1) ∧
    ((main env fuel).outcome = Outcome.exited EXIT_FAILURE →
      closes (main env fuel).trace = 0) ∧
    (∀ (n : Nat) (signo : Int), closes ((main env fuel).trace.take n) = 0 →
      (interrupted env fuel n signo).outcome = Outcome.exited (128 + signo) ∧
      closes (interrupted env fuel n signo).trace =
        if IS_CHILD_PID (pid_after ((main env fuel).trace.take n)) = true then 0 else 1) := by
  refine ⟨?_, ?_, ?_⟩
  · intro h
    rcases main_shape env fuel with ⟨_, hm⟩ | ⟨_, hm⟩ | ⟨co0, status, tr, ht, hm⟩ |
      ⟨co0, pid, co, tr, ht, hm⟩
    · rw [hm] at h; simp [EXIT_FAILURE] at h
    · rw [hm] at h; simp [EXIT_FAILURE] at h
    · rw [hm] at h
      have := (turbo_section_ret_shape env co0 status tr ht).2.1
      simp [this, EXIT_FAILURE] at h
    · rw [hm] at h ⊢
      obtain ⟨evs, he, hnf, h0, _⟩ :=
        main_inject_shape env fuel pid co (Event.createSocket :: tr)
      obtain ⟨hpid, hcl⟩ := turbo_go_quiet env co0 co pid tr ht
      rw [he, closes_append, hcl, pid_after_append _ _ hnf, hpid, h0 h, Nat.zero_add]
  · intro h
    rcases main_shape env fuel with ⟨_, hm⟩ | ⟨_, hm⟩ | ⟨co0, status, tr, ht, hm⟩ |
      ⟨co0, pid, co, tr, ht, hm⟩
    · rw [hm]; rfl
    · rw [hm]; rfl
    · rw [hm]
      have := (turbo_section_ret_shape env co0 status tr ht).2.2.1
      have hc := closes_append [Event.createSocket] tr
      simp only [List.singleton_append] at hc
      simp only
      rw [hc, this]; rfl
    · rw [hm] at h ⊢
      obtain ⟨evs, he, _, _, h1⟩ :=
        main_inject_shape env fuel pid co (Event.createSocket :: tr)
      obtain ⟨_, hcl⟩ := turbo_go_quiet env co0 co pid tr ht
      rw [he, closes_append, hcl, h1 h]
  · intro n signo hpre
    refine ⟨rfl, ?_⟩
    simp only [interrupted, closes_append, hpre, Nat.zero_add]
    cases hturbo : env.have_turbo
    · have hnf : ∀ p, Event.fork p ∉ (main env fuel).trace.take n := by
        intro p hp
        have := main_forks env fuel p (List.mem_of_mem_take hp)
        rw [hturbo] at this
        cases this
      rw [pid_after_no_fork _ hnf]
      simp [signal_handler, closes, Event.is_closeSocket, IS_CHILD_PID]
    · cases hch : IS_CHILD_PID (pid_after ((main env fuel).trace.take n)) <;>
        simp [signal_handler, hch, closes, Event.is_closeSocket]

/-- C15 fails as stated: in the run `env_fail` the worker is the
parent, it has created the socket, its third send fails and `main` returns `EXIT_FAILURE`:
`closeSocket` is never called. -/
theorem send_failure_socket_counterexample :
    (main env_fail 5).trace.head? = some Event.createSocket ∧
    (main env_fail 5).outcome = Outcome.exited EXIT_FAILURE ∧
    (∃ size, (main env_fail 5).trace.getLast? = some (Event.send size false)) ∧
    IS_CHILD_PID (pid_after (main env_fail 5).trace) = false ∧
    closes (main env_fail 5).trace = 0 := by
  refine ⟨rfl, by decide, ⟨28, by rfl⟩, by decide, by decide⟩

theorem single_protocol_mode_witness :
    builds (main env_example 3).trace =
      List.replicate 3 (co_ripv2.ip.protoname,
        protocol_at env_example.mod_table co_ripv2.ip.protoname) ∧
    (∀ c ∈ (builds (main env_example 3).trace).map Prod.fst, c = co_ripv2.ip.protoname) ∧
    (builds (main env_example 3).trace).length = 3 :=
  single_protocol_mode env_example co_ripv2 co_ripv2 (-1) [] cidr_example 3 rfl rfl rfl rfl
    rfl rfl (by decide) (by decide) ⟨_, rfl, rfl⟩ (Or.inr (by decide)) (by decide)
    (fun _ _ => rfl)

theorem threshold_after_turns_witness :
    (builds (main env_example 2).trace).length = 2 ∧
    (co_ripv2.flood = false →
      (main env_example 2).co.map (fun c => c.threshold) = some (co_ripv2.threshold - 2)) ∧
    (co_ripv2.flood = true →
      (main env_example 2).co.map (fun c => c.threshold) = some co_ripv2.threshold) :=
  threshold_after_turns env_example co_ripv2 co_ripv2 (-1) [] cidr_example 2 rfl rfl rfl rfl
    rfl rfl table_ok_example (Or.inr (by decide)) (by decide) (fun _ _ => rfl)

theorem signal_handler_parent_child_witness :
    (0 < (1234 : Int) → signal_handler env_turbo.have_turbo 1234 15 =
      ([Event.kill 1234 9, Event.closeSocket], Outcome.exited (128 + 15))) ∧
    ((1234 : Int) = 0 →
      signal_handler env_turbo.have_turbo 1234 15 = ([], Outcome.exited (128 + 15))) :=
  signal_handler_parent_child env_turbo co_turbo
    { co_turbo with threshold := split_threshold co_turbo.threshold env_turbo.fork } 1234
    [Event.fork 1234, Event.setpriority] 15
    (turbo_section_fork env_turbo co_turbo rfl rfl (by decide) (by decide) (by decide))
    (by simp)

/-! ## The checksum field, the pseudo-header and the GRE layout -/

theorem load16_lt (m : Nat → Nat) (off : Nat) : load16 m off < 65536 := by
  unfold load16 load8
  omega

theorem load32_lt (m : Nat → Nat) (off : Nat) : load32 m off < 4294967296 := by
  have h1 := load16_lt m off
  have h2 := load16_lt m (off + 2)
  unfold load32
  omega

theorem cksum_lt (m : Nat → Nat) (off len : Nat) : cksum m off len < 65536 := by
  unfold cksum
  omega

theorem store8_frame (b : Builder) (off v a : Nat) (h : a ≠ off) :
    (store8 b off v).world.packet a = b.world.packet a := by
  simp only [store8, if_neg h]

theorem store16_frame (b : Builder) (off v a : Nat) (h : a < off ∨ off + 2 ≤ a) :
    (store16 b off v).world.packet a = b.world.packet a := by
  unfold store16
  rw [store8_frame _ _ _ _ (by omega), store8_frame _ _ _ _ (by omega)]

theorem store32_frame (b : Builder) (off v a : Nat) (h : a < off ∨ off + 4 ≤ a) :
    (store32 b off v).world.packet a = b.world.packet a := by
  unfold store32
  rw [store16_frame _ _ _ _ (by omega), store16_frame _ _ _ _ (by omega)]

theorem load8_store8 (b : Builder) (off v : Nat) :
    load8 (store8 b off v).world.packet off = v % 256 := by
  simp [load8, store8]

theorem load16_store16 (b : Builder) (off v : Nat) :
    load16 (store16 b off v).world.packet off = v % 65536 := by
  have h : ¬ (off = off + 1) := by omega
  simp only [load16, load8, store16, store8, h, if_false, if_true]
  omega

theorem load32_store32 (b : Builder) (off v : Nat) :
    load32 (store32 b off v).world.packet off = v % 4294967296 := by
  unfold load32 store32
  rw [load16_store16,
    load16_congr (store16 b off (v / 65536)).world.packet
      (store16 (store16 b off (v / 65536)) (off + 2) v).world.packet off
      (store16_frame _ _ _ _ (by omega)) (store16_frame _ _ _ _ (by omega)), load16_store16]
  omega

theorem ripv2_src (cb : Collab) (co : config_options) (w : World) (h : cb.conforms co) :
    ∃ src, (if co.encapsulated then (ripv2_start cb co w).gre_ip
      else some (ripv2_start cb co w).ip) = some src := by
  obtain ⟨_, hgre, _⟩ := h
  cases henc : co.encapsulated
  · exact ⟨_, rfl⟩
  · have hs := hgre henc
      (cb.ip_header (alloc_packet w (sizeof_iphdr + cb.gre_opt_len co.gre.options co.encapsulated
        + sizeof_udphdr + rip_hdr_len co.rip.auth + sizeof_psdhdr))
        (sizeof_iphdr + cb.gre_opt_len co.gre.options co.encapsulated
        + sizeof_udphdr + rip_hdr_len co.rip.auth + sizeof_psdhdr) co).1
      (sizeof_iphdr + sizeof_udphdr + rip_hdr_len co.rip.auth)
    obtain ⟨src, hsrc⟩ := Option.isSome_iff_exists.mp hs
    have hg : (ripv2_start cb co w).gre_ip = some src := by
      simp only [ripv2_start]
      exact hsrc
    exact ⟨src, by simp only [if_true, hg]⟩

theorem ripv2_of_src (cb : Collab) (co : config_options) (w : World) (src : Nat)
    (hsrc : (if co.encapsulated then (ripv2_start cb co w).gre_ip
      else some (ripv2_start cb co w).ip) = some src) :
    ripv2 cb co w = some (ripv2_finish cb co (ripv2_start cb co w)
      (rip_payload cb co (ripv2_start cb co w).b) src) ∧
    ripv2_before_check cb co w = some (rip_pseudo co (ripv2_start cb co w).udp src
      (rip_payload cb co (ripv2_start cb co w).b)) := by
  constructor
  · unfold ripv2
    simp only [hsrc]
  · unfold ripv2_before_check
    simp only [hsrc]

theorem rip_check_log (co : config_options) (udp length : Nat) (b : Builder) :
    (rip_check co udp length b).log =
      b.log ++ (if co.bogus_csum then [] else [Op.cksum udp (length + sizeof_psdhdr)]) ++
        [Op.store (udp + 6), Op.store (udp + 7)] := by
  cases hb : co.bogus_csum
  · simp [rip_check, hb, store16, store8, Nat.add_assoc]
  · simp [rip_check, hb, store16, store8, Builder.RANDOM, Nat.add_assoc]

theorem rip_check_field (co : config_options) (udp length : Nat) (b : Builder) :
    load16 (rip_check co udp length b).world.packet (udp + 6) =
      if co.bogus_csum then b.world.rng b.world.rng_pos % 65536
      else cksum b.world.packet udp (length + sizeof_psdhdr) := by
  cases hb : co.bogus_csum
  · simp only [rip_check, hb, Bool.false_eq_true, if_false]
    rw [load16_store16]
    exact Nat.mod_eq_of_lt (cksum_lt _ _ _)
  · simp only [rip_check, hb, if_true]
    rw [load16_store16]
    rfl

theorem rip_check_rng_pos (co : config_options) (udp length : Nat) (b : Builder) :
    (rip_check co udp length b).world.rng_pos =
      if co.bogus_csum then b.world.rng_pos + 1 else b.world.rng_pos := by
  cases hb : co.bogus_csum
  · simp [rip_check, hb, store16, store8]
  · simp [rip_check, hb, store16, store8, Builder.RANDOM]

theorem ripv2_finish_frame (cb : Collab) (co : config_options) (s : RipStart) (b : Builder)
    (src : Nat) (h : cb.conforms co)
    (hudp : s.udp = 20 + cb.gre_opt_len co.gre.options co.encapsulated) (a : Nat)
    (ha : s.udp ≤ a) :
    (ripv2_finish cb co s b src).world.packet a =
      (rip_check co s.udp (rip_pseudo co s.udp src b).2
        (rip_pseudo co s.udp src b).1).world.packet a := by
  obtain ⟨_, _, hgc⟩ := h
  simp only [ripv2_finish]
  rw [hgc _ _ _ (by simp only [sizeof_iphdr]; omega)]

theorem ripv2_finish_field (cb : Collab) (co : config_options) (s : RipStart) (b : Builder)
    (src : Nat) (h : cb.conforms co)
    (hudp : s.udp = 20 + cb.gre_opt_len co.gre.options co.encapsulated) :
    load16 (ripv2_finish cb co s b src).world.packet (s.udp + 6) =
      if co.bogus_csum then
        (rip_pseudo co s.udp src b).1.world.rng (rip_pseudo co s.udp src b).1.world.rng_pos
          % 65536
      else cksum (rip_pseudo co s.udp src b).1.world.packet s.udp
        ((rip_pseudo co s.udp src b).2 + sizeof_psdhdr) := by
  rw [← rip_check_field]
  exact load16_congr _ _ _ (ripv2_finish_frame cb co s b src h hudp _ (by omega))
    (ripv2_finish_frame cb co s b src h hudp _ (by omega))

/-- The operations of `ripv2` up to the checksum statement: none is a call of `cksum`. -/
theorem ripv2_log_before_check (cb : Collab) (co : config_options) (w : World) (src : Nat)
    (h : cb.conforms co) :
    ∀ op ∈ (rip_pseudo co (ripv2_start cb co w).udp src
        (rip_payload cb co (ripv2_start cb co w).b)).1.log,
      op = Op.alloc_packet (ripv2_start cb co w).size ∨
      op = Op.ip_header (ripv2_start cb co w).size ∨
      op = Op.gre_encapsulation (20 + 8 + rip_hdr_len co.rip.auth) ∨
      ∃ off, op = Op.store off ∧ (ripv2_start cb co w).udp ≤ off ∧
        off < (ripv2_start cb co w).size := by
  obtain ⟨_, hudp, hsize, hptr, hlog⟩ := ripv2_start_facts cb co w h
  obtain ⟨⟨_, _, new, hnew, hall⟩, hpp⟩ := rip_payload_grows cb co (ripv2_start cb co w).b
  obtain ⟨_, _, hplog⟩ := rip_pseudo_facts co (ripv2_start cb co w).udp src
    (rip_payload cb co (ripv2_start cb co w).b)
  intro op hop
  rw [hplog, hnew, hlog, hpp, hptr] at hop
  rcases List.mem_append.mp hop with hop | hop
  · rcases List.mem_append.mp hop with hop | hop
    · rcases List.mem_append.mp hop with hop | hop
      · simp only [List.mem_cons, List.not_mem_nil, or_false] at hop
        rcases hop with h1 | h1 | h1
        · exact Or.inl h1
        · exact Or.inr (Or.inl h1)
        · exact Or.inr (Or.inr (Or.inl h1))
      · obtain ⟨i, hi, rfl⟩ := List.mem_map.mp hop
        have hi := List.mem_range.mp hi
        exact Or.inr (Or.inr (Or.inr ⟨_, rfl, by omega, by rw [hsize, hudp]; omega⟩))
    · obtain ⟨off, rfl, h1, h2⟩ := hall op hop
      rw [hpp, hptr] at h2
      exact Or.inr (Or.inr (Or.inr ⟨off, rfl, by omega, by rw [hsize]; rw [hudp] at h2; omega⟩))
  · obtain ⟨i, hi, rfl⟩ := List.mem_map.mp hop
    have hi := List.mem_range.mp hi
    exact Or.inr (Or.inr (Or.inr ⟨_, rfl, by omega, by rw [hsize, hudp]; omega⟩))

/-- C16, zero UDP checksum. With `bogus_csum` clear and collaborators that conform: when
the checksum that `cksum` returns at line 260, over the UDP header, the RIP payload and
the pseudo-header as they stand right before the checksum statement, is zero, `ripv2`
calls `cksum` and stores that zero in the UDP checksum field, so the field left in the
packet is 0 and not 0xFFFF. Lines 259-260 make no substitution of all ones for a zero
checksum, the rule that the comment of typedefs.h quotes. -/
theorem ripv2_zero_checksum_emitted (cb : Collab) (co : config_options) (w : World)
    (h : cb.conforms co) (hb : co.bogus_csum = false) (p : Builder × Nat)
    (hp : ripv2_before_check cb co w = some p)
    (hz : cksum p.1.world.packet (ripv2_start cb co w).udp (p.2 + sizeof_psdhdr) = 0) :
    ∃ r, ripv2 cb co w = some r ∧ r.udp = (ripv2_start cb co w).udp ∧ r.length = p.2 ∧
      Op.cksum r.udp (r.length + sizeof_psdhdr) ∈ r.log ∧
      load16 r.world.packet (r.udp + 6) = 0 ∧ load16 r.world.packet (r.udp + 6) ≠ 0xffff := by
  obtain ⟨src, hsrc⟩ := ripv2_src cb co w h
  obtain ⟨hr, hbc⟩ := ripv2_of_src cb co w src hsrc
  obtain ⟨_, hudp, _⟩ := ripv2_start_facts cb co w h
  rw [hbc] at hp
  cases hp
  have hf := ripv2_finish_field cb co (ripv2_start cb co w)
    (rip_payload cb co (ripv2_start cb co w).b) src h hudp
  rw [hb, if_neg (by decide), hz] at hf
  refine ⟨_, hr, rfl, rfl, ?_, hf, ?_⟩
  · simp only [ripv2_finish, rip_check_log, hb]
    simp
  · show load16 _ ((ripv2_start cb co w).udp + 6) ≠ 65535
    rw [hf]
    decide


theorem ripv2_zero_checksum_emitted_witness :
    ∃ r, ripv2 collab_example co_zero_csum world_example = some r ∧
      r.udp = (ripv2_start collab_example co_zero_csum world_example).udp ∧
      r.length = 32 ∧
      Op.cksum r.udp (r.length + sizeof_psdhdr) ∈ r.log ∧
      load16 r.world.packet (r.udp + 6) = 0 ∧ load16 r.world.packet (r.udp + 6) ≠ 0xffff :=
  ripv2_zero_checksum_emitted collab_example co_zero_csum world_example
    (collab_example_conforms co_zero_csum) rfl
    (rip_pseudo co_zero_csum 20 0
      (rip_payload collab_example co_zero_csum
        (ripv2_start collab_example co_zero_csum world_example).b))
    rfl (by decide)

/-- C18, bogus checksum. With `bogus_csum` set and collaborators that conform, `ripv2`
returns, the UDP checksum field it leaves is the low 16 bits of the PRNG sample at the
PRNG cursor right before the checksum statement, that statement advances the cursor by
one, and the log of the run holds no call of `cksum`. Hence two runs, with any
collaborators, configurations and buffers, that draw the same sample at that point leave
the same checksum field. -/
theorem ripv2_bogus_checksum (cb cb2 : Collab) (co co2 : config_options) (w w2 : World)
    (h : cb.conforms co) (h2 : cb2.conforms co2)
    (hb : co.bogus_csum = true) (hb2 : co2.bogus_csum = true) :
    ∃ r p r2 p2, ripv2 cb co w = some r ∧ ripv2_before_check cb co w = some p ∧
      ripv2 cb2 co2 w2 = some r2 ∧ ripv2_before_check cb2 co2 w2 = some p2 ∧
      load16 r.world.packet (r.udp + 6) = p.1.world.rng p.1.world.rng_pos % 65536 ∧
      (rip_check co r.udp p.2 p.1).world.rng_pos = p.1.world.rng_pos + 1 ∧
      (∀ o l, Op.cksum o l ∉ r.log) ∧
      (p.1.world.rng p.1.world.rng_pos = p2.1.world.rng p2.1.world.rng_pos →
        load16 r.world.packet (r.udp + 6) = load16 r2.world.packet (r2.udp + 6)) := by
  obtain ⟨src, hsrc⟩ := ripv2_src cb co w h
  obtain ⟨hr, hbc⟩ := ripv2_of_src cb co w src hsrc
  obtain ⟨_, hudp, _⟩ := ripv2_start_facts cb co w h
  obtain ⟨src2, hsrc2⟩ := ripv2_src cb2 co2 w2 h2
  obtain ⟨hr2, hbc2⟩ := ripv2_of_src cb2 co2 w2 src2 hsrc2
  obtain ⟨_, hudp2, _⟩ := ripv2_start_facts cb2 co2 w2 h2
  have hf := ripv2_finish_field cb co (ripv2_start cb co w)
    (rip_payload cb co (ripv2_start cb co w).b) src h hudp
  have hf2 := ripv2_finish_field cb2 co2 (ripv2_start cb2 co2 w2)
    (rip_payload cb2 co2 (ripv2_start cb2 co2 w2).b) src2 h2 hudp2
  rw [hb, if_pos rfl] at hf
  rw [hb2, if_pos rfl] at hf2
  refine ⟨_, _, _, _, hr, hbc, hr2, hbc2, hf, ?_, ?_, ?_⟩
  · rw [rip_check_rng_pos, hb, if_pos rfl]
  · intro o l hmem
    simp only [ripv2_finish, rip_check_log, hb, if_true, List.append_nil, List.mem_append,
      List.mem_cons, List.not_mem_nil, or_false] at hmem
    rcases hmem with (hmem | hmem | hmem) | hmem
    · rcases ripv2_log_before_check cb co w src h _ hmem with h1 | h1 | h1 | ⟨_, h1, _⟩ <;>
        cases h1
    · cases hmem
    · cases hmem
    · cases hmem
  · intro heq
    show load16 _ ((ripv2_start cb co w).udp + 6) = load16 _ ((ripv2_start cb2 co2 w2).udp + 6)
    rw [hf, hf2, heq]

theorem ripv2_bogus_checksum_witness :
    ∃ r p r2 p2, ripv2 collab_example co_bogus world_example = some r ∧
      ripv2_before_check collab_example co_bogus world_example = some p ∧
      ripv2 collab_example co_bogus_other world_example = some r2 ∧
      ripv2_before_check collab_example co_bogus_other world_example = some p2 ∧
      load16 r.world.packet (r.udp + 6) = p.1.world.rng p.1.world.rng_pos % 65536 ∧
      (rip_check co_bogus r.udp p.2 p.1).world.rng_pos = p.1.world.rng_pos + 1 ∧
      (∀ o l, Op.cksum o l ∉ r.log) ∧
      (p.1.world.rng p.1.world.rng_pos = p2.1.world.rng p2.1.world.rng_pos →
        load16 r.world.packet (r.udp + 6) = load16 r2.world.packet (r2.udp + 6)) :=
  ripv2_bogus_checksum collab_example collab_example co_bogus co_bogus_other world_example
    world_example (collab_example_conforms co_bogus) (collab_example_conforms co_bogus_other)
    rfl rfl

theorem load8_congr (m m' : Nat → Nat) (off : Nat) (h0 : m' off = m off) :
    load8 m' off = load8 m off := by
  unfold load8
  rw [h0]

/-- The pseudo-header as lines 245-250 leave it. -/
theorem rip_pseudo_loads (co : config_options) (udp src : Nat) (b : Builder) :
    load32 (rip_pseudo co udp src b).1.world.packet b.ptr =
      load32 b.world.packet (src + 12) ∧
    (src + 20 ≤ b.ptr →
      load32 (rip_pseudo co udp src b).1.world.packet (b.ptr + 4) =
        load32 b.world.packet (src + 16)) ∧
    load8 (rip_pseudo co udp src b).1.world.packet (b.ptr + 8) = 0 ∧
    load8 (rip_pseudo co udp src b).1.world.packet (b.ptr + 9) = co.ip.protocol % 256 ∧
    load16 (rip_pseudo co udp src b).1.world.packet (b.ptr + 10) = (b.ptr - udp) % 65536 := by
  refine ⟨?_, fun hsrc => ?_, ?_, ?_, ?_⟩
  · simp only [rip_pseudo]
    rw [load32_congr (store32 b b.ptr (load32 b.world.packet (src + 12))).world.packet _ b.ptr
      (by rw [store16_frame _ _ _ _ (by omega), store8_frame _ _ _ _ (by omega),
            store8_frame _ _ _ _ (by omega), store32_frame _ _ _ _ (by omega)])
      (by rw [store16_frame _ _ _ _ (by omega), store8_frame _ _ _ _ (by omega),
            store8_frame _ _ _ _ (by omega), store32_frame _ _ _ _ (by omega)])
      (by rw [store16_frame _ _ _ _ (by omega), store8_frame _ _ _ _ (by omega),
            store8_frame _ _ _ _ (by omega), store32_frame _ _ _ _ (by omega)])
      (by rw [store16_frame _ _ _ _ (by omega), store8_frame _ _ _ _ (by omega),
            store8_frame _ _ _ _ (by omega), store32_frame _ _ _ _ (by omega)]),
      load32_store32]
    exact Nat.mod_eq_of_lt (load32_lt _ _)
  · simp only [rip_pseudo]
    rw [load32_congr (store32 (store32 b b.ptr (load32 b.world.packet (src + 12))) (b.ptr + 4)
        (load32 (store32 b b.ptr (load32 b.world.packet (src + 12))).world.packet
          (src + 16))).world.packet _ (b.ptr + 4)
      (by rw [store16_frame _ _ _ _ (by omega), store8_frame _ _ _ _ (by omega),
            store8_frame _ _ _ _ (by omega)])
      (by rw [store16_frame _ _ _ _ (by omega), store8_frame _ _ _ _ (by omega),
            store8_frame _ _ _ _ (by omega)])
      (by rw [store16_frame _ _ _ _ (by omega), store8_frame _ _ _ _ (by omega),
            store8_frame _ _ _ _ (by omega)])
      (by rw [store16_frame _ _ _ _ (by omega), store8_frame _ _ _ _ (by omega),
            store8_frame _ _ _ _ (by omega)]),
      load32_store32, Nat.mod_eq_of_lt (load32_lt _ _)]
    exact load32_congr _ _ _ (store32_frame _ _ _ _ (by omega))
      (store32_frame _ _ _ _ (by omega)) (store32_frame _ _ _ _ (by omega))
      (store32_frame _ _ _ _ (by omega))
  · simp only [rip_pseudo]
    rw [load8_congr _ _ _ (by rw [store16_frame _ _ _ _ (by omega),
      store8_frame _ _ _ _ (by omega)] : _ = (store8 _ (b.ptr + 8) 0).world.packet (b.ptr + 8)),
      load8_store8]
  · simp only [rip_pseudo]
    rw [load8_congr _ _ _ (by rw [store16_frame _ _ _ _ (by omega)] :
      _ = (store8 _ (b.ptr + 9) co.ip.protocol).world.packet (b.ptr + 9)), load8_store8]
  · simp only [rip_pseudo]
    rw [load16_store16]
    simp only [htons, Nat.mod_mod]
    rfl

theorem ripv2_start_frame (cb : Collab) (co : config_options) (w : World) (a : Nat)
    (ha : a < (ripv2_start cb co w).udp) :
    (ripv2_start cb co w).b.world.packet a = (ripv2_headers cb co w).packet a := by
  simp only [ripv2_start, ripv2_headers] at ha ⊢
  rw [store16_frame _ _ _ _ (by omega), store16_frame _ _ _ _ (by omega),
    store16_frame _ _ _ _ (by omega), store16_frame _ _ _ _ (by omega)]

/-- The pseudo-header in the packet that `ripv2` leaves. -/
theorem ripv2_finish_pseudo (cb : Collab) (co : config_options) (w : World) (src : Nat)
    (h : cb.conforms co) :
    (ripv2_finish cb co (ripv2_start cb co w)
      (rip_payload cb co (ripv2_start cb co w).b) src).pseudo =
        (ripv2_start cb co w).udp + 8 + rip_hdr_len co.rip.auth ∧
    (ripv2_finish cb co (ripv2_start cb co w)
      (rip_payload cb co (ripv2_start cb co w).b) src).length = 8 + rip_hdr_len co.rip.auth ∧
    (src + 20 ≤ (ripv2_start cb co w).udp →
      load32 (ripv2_finish cb co (ripv2_start cb co w)
        (rip_payload cb co (ripv2_start cb co w).b) src).world.packet
          ((ripv2_start cb co w).udp + 8 + rip_hdr_len co.rip.auth) =
        load32 (ripv2_headers cb co w).packet (src + 12) ∧
      load32 (ripv2_finish cb co (ripv2_start cb co w)
        (rip_payload cb co (ripv2_start cb co w).b) src).world.packet
          ((ripv2_start cb co w).udp + 8 + rip_hdr_len co.rip.auth + 4) =
        load32 (ripv2_headers cb co w).packet (src + 16)) ∧
    load8 (ripv2_finish cb co (ripv2_start cb co w)
        (rip_payload cb co (ripv2_start cb co w).b) src).world.packet
          ((ripv2_start cb co w).udp + 8 + rip_hdr_len co.rip.auth + 8) = 0 ∧
    load8 (ripv2_finish cb co (ripv2_start cb co w)
        (rip_payload cb co (ripv2_start cb co w).b) src).world.packet
          ((ripv2_start cb co w).udp + 8 + rip_hdr_len co.rip.auth + 9) =
        co.ip.protocol % 256 ∧
    load16 (ripv2_finish cb co (ripv2_start cb co w)
        (rip_payload cb co (ripv2_start cb co w).b) src).world.packet
          ((ripv2_start cb co w).udp + 8 + rip_hdr_len co.rip.auth + 10) =
        (8 + rip_hdr_len co.rip.auth) % 65536 := by
  obtain ⟨_, hudp, _, hptr, _⟩ := ripv2_start_facts cb co w h
  obtain ⟨⟨_, hframe, _⟩, hpp⟩ := rip_payload_grows cb co (ripv2_start cb co w).b
  obtain ⟨hs, hd, hz, hpr, hl⟩ := rip_pseudo_loads co (ripv2_start cb co w).udp src
    (rip_payload cb co (ripv2_start cb co w).b)
  rw [hpp, hptr] at hs hd hz hpr hl
  have hfin : ∀ a, (ripv2_start cb co w).udp + 8 ≤ a →
      (ripv2_finish cb co (ripv2_start cb co w)
        (rip_payload cb co (ripv2_start cb co w).b) src).world.packet a =
      (rip_pseudo co (ripv2_start cb co w).udp src
        (rip_payload cb co (ripv2_start cb co w).b)).1.world.packet a := by
    intro a ha
    rw [ripv2_finish_frame cb co _ _ src h hudp a (by omega),
      (rip_check_frame co _ _ _).1 a (by omega) (by omega)]
  have hhead : ∀ a, a < (ripv2_start cb co w).udp →
      (rip_payload cb co (ripv2_start cb co w).b).world.packet a =
        (ripv2_headers cb co w).packet a := by
    intro a ha
    rw [hframe a (by omega), ripv2_start_frame cb co w a ha]
  refine ⟨?_, ?_, fun hsrc => ⟨?_, ?_⟩, ?_, ?_, ?_⟩
  · simp only [ripv2_finish, hpp, hptr]
  · simp only [ripv2_finish, (rip_pseudo_facts _ _ _ _).1, hpp, hptr]
    omega
  · rw [load32_congr _ _ _ (hfin _ (by omega)) (hfin _ (by omega)) (hfin _ (by omega))
      (hfin _ (by omega)), hs]
    exact load32_congr _ _ _ (hhead _ (by omega)) (hhead _ (by omega)) (hhead _ (by omega))
      (hhead _ (by omega))
  · rw [load32_congr _ _ _ (hfin _ (by omega)) (hfin _ (by omega)) (hfin _ (by omega))
      (hfin _ (by omega)), hd (by omega)]
    exact load32_congr _ _ _ (hhead _ (by omega)) (hhead _ (by omega)) (hhead _ (by omega))
      (hhead _ (by omega))
  · rw [load8_congr _ _ _ (hfin _ (by omega)), hz]
  · rw [load8_congr _ _ _ (hfin _ (by omega)), hpr]
  · rw [load16_congr _ _ _ (hfin _ (by omega)) (hfin _ (by omega)), hl]
    congr 1
    omega

theorem collab_spec_conforms (co : config_options) : collab_spec.conforms co := by
  refine ⟨fun _ _ => rfl, fun henc w n => ?_, fun _ _ _ _ => rfl⟩
  simp [collab_spec, henc]

theorem Fills.same (b : Builder) : Fills b b :=
  ⟨Nat.le_refl _, by simp⟩

theorem Fills.chain {b b1 b2 : Builder} (h1 : Fills b b1) (h2 : Fills b1 b2) : Fills b b2 := by
  obtain ⟨p1, l1⟩ := h1
  obtain ⟨p2, l2⟩ := h2
  refine ⟨Nat.le_trans p1 p2, ?_⟩
  have hsplit : b2.ptr - b.ptr = (b1.ptr - b.ptr) + (b2.ptr - b1.ptr) := by omega
  rw [l2, l1, hsplit, List.range_add, List.map_append, List.map_map, List.append_assoc]
  congr 2
  apply List.map_congr_left
  intro i _
  simp only [Function.comp]
  congr 1
  omega

theorem fills_of_eq (b b1 : Builder) (hptr : b1.ptr = b.ptr) (hlog : b1.log = b.log) :
    Fills b b1 := by
  refine ⟨by omega, ?_⟩
  rw [hptr, hlog]
  simp

theorem put8_fills (b : Builder) (v : Nat) : Fills b (put8 b v) := by
  refine ⟨by simp only [put8]; omega, ?_⟩
  simp [put8, store8, List.range_succ]

theorem put16_fills (b : Builder) (v : Nat) : Fills b (put16 b v) := by
  refine ⟨by simp only [put16]; omega, ?_⟩
  simp [put16, store16, store8, List.range_succ]

theorem put32_fills (b : Builder) (v : Nat) : Fills b (put32 b v) := by
  refine ⟨by simp only [put32]; omega, ?_⟩
  simp [put32, store32, store16, store8, List.range_succ, Nat.add_assoc]

theorem rnd_fills (foo : Nat) (b : Builder) : Fills b (__RND foo b).2 := by
  apply fills_of_eq
  · exact rnd_ptr foo b
  · unfold __RND
    split <;> rfl

theorem random_fills (b : Builder) : Fills b b.RANDOM.2 :=
  fills_of_eq _ _ rfl rfl

theorem netmask_fills (cb : Collab) (v : Nat) (b : Builder) :
    Fills b (Builder.NETMASK_RND cb v b).2 :=
  fills_of_eq _ _ rfl rfl

theorem rip_header_fills (co : config_options) (b : Builder) : Fills b (rip_header co b) := by
  unfold rip_header
  exact (put8_fills _ _).chain ((put8_fills _ _).chain ((rnd_fills _ _).chain
    (put16_fills _ _)))

theorem rip_auth_entry_fills (co : config_options) (b : Builder) :
    Fills b (rip_auth_entry co b) := by
  unfold rip_auth_entry
  split
  · exact (put16_fills _ _).chain ((put16_fills _ _).chain ((put16_fills _ _).chain
      ((put8_fills _ _).chain ((put8_fills _ _).chain ((rnd_fills _ _).chain
      ((put32_fills _ _).chain ((put32_fills _ _).chain (put32_fills _ _))))))))
  · exact Fills.same b

theorem rip_route_entry_fills (cb : Collab) (co : config_options) (b : Builder) :
    Fills b (rip_route_entry cb co b) := by
  unfold rip_route_entry
  exact ((rnd_fills _ _).chain ((put16_fills _ _).chain ((rnd_fills _ _).chain
    ((put16_fills _ _).chain ((rnd_fills _ _).chain ((put32_fills _ _).chain
    ((netmask_fills _ _ _).chain ((put32_fills _ _).chain ((rnd_fills _ _).chain
    ((put32_fills _ _).chain ((rnd_fills _ _).chain (put32_fills _ _))))))))))))

theorem rip_digest_fills (n : Nat) (b : Builder) : Fills b (rip_digest n b) := by
  induction n generalizing b with
  | zero => exact Fills.same b
  | succ n ih =>
    unfold rip_digest
    exact (random_fills b).chain ((put8_fills _ _).chain (ih _))

theorem rip_auth_trailer_fills (co : config_options) (b : Builder) :
    Fills b (rip_auth_trailer co b) := by
  unfold rip_auth_trailer
  split
  · exact (put16_fills _ _).chain ((put16_fills _ _).chain (rip_digest_fills _ _))
  · exact Fills.same b

theorem rip_payload_fills (cb : Collab) (co : config_options) (b : Builder) :
    Fills b (rip_payload cb co b) := by
  unfold rip_payload
  exact (rip_header_fills _ _).chain ((rip_auth_entry_fills _ _).chain
    ((rip_route_entry_fills _ _ _).chain (rip_auth_trailer_fills _ _)))

theorem rip_hdr_len_le (auth : Bool) : rip_hdr_len auth ≤ 64 := by
  cases auth <;> decide

/-- After `ripv2` the first six bytes of the UDP header are those written at lines
69-72. -/
theorem ripv2_finish_udp_frame (cb : Collab) (co : config_options) (w : World) (src : Nat)
    (h : cb.conforms co) (a : Nat) (h1 : (ripv2_start cb co w).udp ≤ a)
    (h2 : a < (ripv2_start cb co w).udp + 6) :
    (ripv2_finish cb co (ripv2_start cb co w)
      (rip_payload cb co (ripv2_start cb co w).b) src).world.packet a =
      (ripv2_start cb co w).b.world.packet a := by
  obtain ⟨_, hudp, _, hptr, _⟩ := ripv2_start_facts cb co w h
  obtain ⟨⟨_, hframe, _⟩, hpp⟩ := rip_payload_grows cb co (ripv2_start cb co w).b
  obtain ⟨_, hpf, _⟩ := rip_pseudo_facts co (ripv2_start cb co w).udp src
    (rip_payload cb co (ripv2_start cb co w).b)
  rw [ripv2_finish_frame cb co _ _ src h hudp a h1,
    (rip_check_frame co _ _ _).1 a (by omega) (by omega), hpf a (by omega),
    hframe a (by omega)]

/-- The operations of a run of `ripv2`, one by one. -/
theorem ripv2_finish_log_exact (cb : Collab) (co : config_options) (w : World) (src : Nat)
    (h : cb.conforms co) :
    (ripv2_finish cb co (ripv2_start cb co w)
      (rip_payload cb co (ripv2_start cb co w).b) src).log =
    ([Op.alloc_packet (ripv2_start cb co w).size, Op.ip_header (ripv2_start cb co w).size,
        Op.gre_encapsulation (20 + 8 + rip_hdr_len co.rip.auth)] ++
      (List.range 8).map (fun i => Op.store ((ripv2_start cb co w).udp + i))) ++
    (List.range (rip_hdr_len co.rip.auth)).map
      (fun i => Op.store ((ripv2_start cb co w).udp + 8 + i)) ++
    ((List.range 12).map (fun i =>
        Op.store ((ripv2_start cb co w).udp + 8 + rip_hdr_len co.rip.auth + i)) ++
      (if co.bogus_csum then []
        else [Op.cksum (ripv2_start cb co w).udp (8 + rip_hdr_len co.rip.auth + 12)]) ++
      [Op.store ((ripv2_start cb co w).udp + 6), Op.store ((ripv2_start cb co w).udp + 7)] ++
      [Op.gre_checksum (ripv2_start cb co w).size]) := by
  obtain ⟨_, _, _, hptr, hlog⟩ := ripv2_start_facts cb co w h
  obtain ⟨_, hpp⟩ := rip_payload_grows cb co (ripv2_start cb co w).b
  obtain ⟨_, hfl⟩ := rip_payload_fills cb co (ripv2_start cb co w).b
  obtain ⟨hlen, _, hplog⟩ := rip_pseudo_facts co (ripv2_start cb co w).udp src
    (rip_payload cb co (ripv2_start cb co w).b)
  have hadv : (rip_payload cb co (ripv2_start cb co w).b).ptr - (ripv2_start cb co w).b.ptr =
      rip_hdr_len co.rip.auth := by omega
  have hl2 : (rip_payload cb co (ripv2_start cb co w).b).ptr - (ripv2_start cb co w).udp =
      8 + rip_hdr_len co.rip.auth := by omega
  simp only [ripv2_finish, rip_check_log, hplog, hlen]
  rw [hl2, hfl, hadv, hlog, hpp, hptr]
  simp only [sizeof_psdhdr, List.append_assoc]

/-- C21, UDP header of the RIPv2 builder. For every configuration, with collaborators
that conform, `ripv2` returns and in the packet it leaves the UDP source port and the UDP
destination port are both `IPPORT_RIP` = 520 in network byte order (bytes 0x02, 0x08),
whatever the configuration holds, and the UDP length field is
`sizeof(udphdr) + rip_hdr_len(co.rip.auth)` in network byte order (high byte first, here
0). -/
theorem ripv2_udp_header (cb : Collab) (co : config_options) (w : World)
    (h : cb.conforms co) :
    ∃ r, ripv2 cb co w = some r ∧
      IPPORT_RIP = 520 ∧
      load16 r.world.packet r.udp = IPPORT_RIP ∧
      load16 r.world.packet (r.udp + 2) = IPPORT_RIP ∧
      load16 r.world.packet (r.udp + 4) = sizeof_udphdr + rip_hdr_len co.rip.auth ∧
      load8 r.world.packet r.udp = 2 ∧ load8 r.world.packet (r.udp + 1) = 8 ∧
      load8 r.world.packet (r.udp + 2) = 2 ∧ load8 r.world.packet (r.udp + 3) = 8 ∧
      load8 r.world.packet (r.udp + 4) = 0 ∧
      load8 r.world.packet (r.udp + 5) = sizeof_udphdr + rip_hdr_len co.rip.auth := by
  obtain ⟨src, hsrc⟩ := ripv2_src cb co w h
  obtain ⟨hr, _⟩ := ripv2_of_src cb co w src hsrc
  obtain ⟨h0, h2, h4, _, _⟩ := ripv2_start_bytes cb co w
  have hle := rip_hdr_len_le co.rip.auth
  have hfr := ripv2_finish_udp_frame cb co w src h
  have e0 : load16 (ripv2_finish cb co (ripv2_start cb co w)
      (rip_payload cb co (ripv2_start cb co w).b) src).world.packet (ripv2_start cb co w).udp
      = 520 := by
    rw [load16_congr _ _ _ (hfr _ (by omega) (by omega)) (hfr _ (by omega) (by omega)), h0]
  have e2 : load16 (ripv2_finish cb co (ripv2_start cb co w)
      (rip_payload cb co (ripv2_start cb co w).b) src).world.packet
      ((ripv2_start cb co w).udp + 2) = 520 := by
    rw [load16_congr _ _ _ (hfr _ (by omega) (by omega)) (hfr _ (by omega) (by omega)), h2]
  have e4 : load16 (ripv2_finish cb co (ripv2_start cb co w)
      (rip_payload cb co (ripv2_start cb co w).b) src).world.packet
      ((ripv2_start cb co w).udp + 4) = 8 + rip_hdr_len co.rip.auth := by
    rw [load16_congr _ _ _ (hfr _ (by omega) (by omega)) (hfr _ (by omega) (by omega)), h4]
    exact Nat.mod_eq_of_lt (by omega)
  have hudpr : (ripv2_finish cb co (ripv2_start cb co w)
      (rip_payload cb co (ripv2_start cb co w).b) src).udp = (ripv2_start cb co w).udp := rfl
  refine ⟨_, hr, rfl, ?_, ?_, ?_, ?_, ?_, ?_, ?_, ?_, ?_⟩
  · rw [hudpr, e0]; rfl
  · rw [hudpr, e2]; rfl
  · rw [hudpr, e4]; rfl
  · rw [hudpr]; unfold load16 load8 at e0; unfold load8; omega
  · rw [hudpr]; unfold load16 load8 at e0; unfold load8; omega
  · rw [hudpr]; unfold load16 load8 at e2; simp only [Nat.add_assoc, Nat.reduceAdd] at e2; unfold load8; omega
  · rw [hudpr]; unfold load16 load8 at e2; simp only [Nat.add_assoc, Nat.reduceAdd] at e2; unfold load8; omega
  · rw [hudpr]; unfold load16 load8 at e4; simp only [Nat.add_assoc, Nat.reduceAdd] at e4; unfold load8; omega
  · rw [hudpr]; unfold load16 load8 at e4; simp only [Nat.add_assoc, Nat.reduceAdd] at e4; unfold load8; simp only [sizeof_udphdr]; omega

theorem ripv2_udp_header_witness :
    ∃ r, ripv2 collab_example co_ripv2 world_example = some r ∧
      IPPORT_RIP = 520 ∧
      load16 r.world.packet r.udp = IPPORT_RIP ∧
      load16 r.world.packet (r.udp + 2) = IPPORT_RIP ∧
      load16 r.world.packet (r.udp + 4) = sizeof_udphdr + rip_hdr_len co_ripv2.rip.auth ∧
      load8 r.world.packet r.udp = 2 ∧ load8 r.world.packet (r.udp + 1) = 8 ∧
      load8 r.world.packet (r.udp + 2) = 2 ∧ load8 r.world.packet (r.udp + 3) = 8 ∧
      load8 r.world.packet (r.udp + 4) = 0 ∧
      load8 r.world.packet (r.udp + 5) = sizeof_udphdr + rip_hdr_len co_ripv2.rip.auth :=
  ripv2_udp_header collab_example co_ripv2 world_example (collab_example_conforms co_ripv2)

/-- C22, length consistency. With the upstream constants (`rip_hdr_len` is 4 + 20 without
authentication and 4 + 20 + 20 + 4 + 16 with it) and collaborators that conform, `ripv2`
returns; the `length` it derives at line 250 is the pseudo-header start minus the UDP
header start and equals `sizeof(udphdr) + rip_hdr_len(co.rip.auth)`; the UDP header's
`len` field and the pseudo-header's `len` field both hold that value; the checksum, when
it is computed, spans `length + sizeof(psdhdr)` bytes from the UDP header; and the run
stores one byte at each of the `rip_hdr_len(co.rip.auth)` offsets that follow the UDP
header, in order, no other store of the run falling between the UDP header and the
pseudo-header. -/
theorem ripv2_length_consistent (cb : Collab) (co : config_options) (w : World)
    (h : cb.conforms co) :
    rip_hdr_len false = 4 + 20 ∧ rip_hdr_len true = 4 + 20 + 20 + 4 + 16 ∧
    ∃ r, ripv2 cb co w = some r ∧
      r.length = r.pseudo - r.udp ∧
      r.length = sizeof_udphdr + rip_hdr_len co.rip.auth ∧
      load16 r.world.packet (r.udp + 4) = r.length ∧
      load16 r.world.packet (r.pseudo + 10) = r.length ∧
      (co.bogus_csum = false → Op.cksum r.udp (r.length + sizeof_psdhdr) ∈ r.log) ∧
      ∃ pre post, r.log = pre ++
          (List.range (rip_hdr_len co.rip.auth)).map
            (fun i => Op.store (r.udp + sizeof_udphdr + i)) ++ post ∧
        (∀ off, Op.store off ∈ pre ++ post →
          off < r.udp + sizeof_udphdr ∨ r.pseudo ≤ off) := by
  refine ⟨by decide, by decide, ?_⟩
  obtain ⟨src, hsrc⟩ := ripv2_src cb co w h
  obtain ⟨hr, _⟩ := ripv2_of_src cb co w src hsrc
  obtain ⟨_, _, h4, _, _⟩ := ripv2_start_bytes cb co w
  obtain ⟨_, _, _, hptr, _⟩ := ripv2_start_facts cb co w h
  obtain ⟨_, hpp⟩ := rip_payload_grows cb co (ripv2_start cb co w).b
  obtain ⟨hps, hlen, _, _, _, hl⟩ := ripv2_finish_pseudo cb co w src h
  have hle := rip_hdr_len_le co.rip.auth
  have hfr := ripv2_finish_udp_frame cb co w src h
  have hlog := ripv2_finish_log_exact cb co w src h
  have hudpr : (ripv2_finish cb co (ripv2_start cb co w)
      (rip_payload cb co (ripv2_start cb co w).b) src).udp = (ripv2_start cb co w).udp := rfl
  refine ⟨_, hr, ?_, ?_, ?_, ?_, fun hb => ?_, _, _, hlog, ?_⟩
  · rw [hlen, hps, hudpr]; omega
  · rw [hlen]; rfl
  · rw [hudpr, hlen,
      load16_congr _ _ _ (hfr _ (by omega) (by omega)) (hfr _ (by omega) (by omega)), h4]
    exact Nat.mod_eq_of_lt (by omega)
  · rw [hps, hl, hlen]
    exact Nat.mod_eq_of_lt (by omega)
  · rw [hlog, hudpr, hlen, hb]
    simp [sizeof_psdhdr]
  · intro off hmem
    rw [hps, hudpr]
    simp only [sizeof_udphdr]
    simp only [List.mem_append, List.mem_cons, List.mem_map, List.mem_range,
      List.not_mem_nil, or_false, sizeof_udphdr] at hmem
    rcases hmem with ((h1 | h1 | h1) | ⟨i, hi, h1⟩) |
      (((⟨i, hi, h1⟩ | h1) | h1 | h1) | h1)
    · cases h1
    · cases h1
    · cases h1
    · cases h1; omega
    · cases h1; omega
    · split at h1
      · simp at h1
      · simp at h1
    · cases h1; omega
    · cases h1; omega
    · cases h1

theorem ripv2_length_consistent_witness :
    (rip_hdr_len false = 4 + 20 ∧ rip_hdr_len true = 4 + 20 + 20 + 4 + 16 ∧
    ∃ r, ripv2 collab_example co_ripv2 world_example = some r ∧
      r.length = r.pseudo - r.udp ∧
      r.length = sizeof_udphdr + rip_hdr_len co_ripv2.rip.auth ∧
      load16 r.world.packet (r.udp + 4) = r.length ∧
      load16 r.world.packet (r.pseudo + 10) = r.length ∧
      (co_ripv2.bogus_csum = false → Op.cksum r.udp (r.length + sizeof_psdhdr) ∈ r.log) ∧
      ∃ pre post, r.log = pre ++
          (List.range (rip_hdr_len co_ripv2.rip.auth)).map
            (fun i => Op.store (r.udp + sizeof_udphdr + i)) ++ post ∧
        (∀ off, Op.store off ∈ pre ++ post →
          off < r.udp + sizeof_udphdr ∨ r.pseudo ≤ off)) ∧
    (rip_hdr_len false = 4 + 20 ∧ rip_hdr_len true = 4 + 20 + 20 + 4 + 16 ∧
    ∃ r, ripv2 collab_example co_ripv2_plain world_example = some r ∧
      r.length = r.pseudo - r.udp ∧
      r.length = sizeof_udphdr + rip_hdr_len co_ripv2_plain.rip.auth ∧
      load16 r.world.packet (r.udp + 4) = r.length ∧
      load16 r.world.packet (r.pseudo + 10) = r.length ∧
      (co_ripv2_plain.bogus_csum = false → Op.cksum r.udp (r.length + sizeof_psdhdr) ∈ r.log) ∧
      ∃ pre post, r.log = pre ++
          (List.range (rip_hdr_len co_ripv2_plain.rip.auth)).map
            (fun i => Op.store (r.udp + sizeof_udphdr + i)) ++ post ∧
        (∀ off, Op.store off ∈ pre ++ post →
          off < r.udp + sizeof_udphdr ∨ r.pseudo ≤ off)) :=
  ⟨ripv2_length_consistent collab_example co_ripv2 world_example
      (collab_example_conforms co_ripv2),
    ripv2_length_consistent collab_example co_ripv2_plain world_example
      (collab_example_conforms co_ripv2_plain)⟩

/-- C23, unreached upper bound. For a CIDR descriptor with `hostid > 0` whose block lies
in the 32-bit address space, in any state of the loop (any configuration, any PRNG
sample), lines 143-145 select `first_host + (sample mod hostid)`, which is at least
`first_host` and at most `first_host + hostid - 1`, never `first_host + hostid`, and is
`first_host` when `hostid = 1`; the builder of the iteration is called with that
destination converted by `htonl`. Conversely every address of
`[first_host, first_host + hostid - 1]` is selected for some sample, one below `hostid`. -/
theorem cidr_upper_bound_unreached (cidr_ptr : cidr) (s : LoopState)
    (hpos : 0 < cidr_ptr.hostid)
    (h : cidr_ptr.__1st_addr + cidr_ptr.hostid ≤ 4294967296) :
    (∃ co1 w1, pick_daddr cidr_ptr s.co s.world = some (co1, w1) ∧
      co1.ip.daddr = cidr_ptr.__1st_addr + s.world.rng s.world.rng_pos % cidr_ptr.hostid ∧
      cidr_ptr.__1st_addr ≤ co1.ip.daddr ∧
      co1.ip.daddr ≤ cidr_ptr.__1st_addr + cidr_ptr.hostid - 1 ∧
      co1.ip.daddr ≠ cidr_ptr.__1st_addr + cidr_ptr.hostid ∧
      (cidr_ptr.hostid = 1 → co1.ip.daddr = cidr_ptr.__1st_addr) ∧
      (∀ (env : Env) (proto : Nat) (entry : modules_table_t) (func : module_func_ptr_t),
        env.mod_table.get? s.ptbl = some entry → entry.func = some func →
        ∃ size, (loop_body env proto cidr_ptr s).state.trace =
          s.trace ++ [Event.build s.ptbl entry.protocol_id (env.htonl co1.ip.daddr),
            Event.send size (env.sendPacket s.sends)])) ∧
    (∀ a, cidr_ptr.__1st_addr ≤ a → a ≤ cidr_ptr.__1st_addr + cidr_ptr.hostid - 1 →
      ∃ sample, sample < cidr_ptr.hostid ∧
        (pick_daddr cidr_ptr s.co { s.world with rng := fun _ => sample }).map
          (fun r => r.1.ip.daddr) = some a) := by
  have h0 : cidr_ptr.hostid ≠ 0 := by omega
  constructor
  · have hlt : s.world.rng s.world.rng_pos % cidr_ptr.hostid < cidr_ptr.hostid :=
      Nat.mod_lt _ hpos
    have hm : (cidr_ptr.__1st_addr + s.world.rng s.world.rng_pos % cidr_ptr.hostid) %
        4294967296 = cidr_ptr.__1st_addr + s.world.rng s.world.rng_pos % cidr_ptr.hostid :=
      Nat.mod_eq_of_lt (by omega)
    have hp : pick_daddr cidr_ptr s.co s.world = some
        ({ s.co with ip := { s.co.ip with
            daddr := cidr_ptr.__1st_addr + s.world.rng s.world.rng_pos % cidr_ptr.hostid } },
          { s.world with rng_pos := s.world.rng_pos + 1 }) := by
      unfold pick_daddr
      simp only [h0, RANDOM, c_mod, ne_eq, not_false_eq_true, if_true, if_false, hm]
    refine ⟨_, _, hp, rfl, ?_, ?_, ?_, fun h1 => ?_, fun env proto entry func he hf =>
      ⟨_, loop_body_trace env proto cidr_ptr s entry func _ _ hp he hf⟩⟩
    · show cidr_ptr.__1st_addr ≤ cidr_ptr.__1st_addr + _
      omega
    · show cidr_ptr.__1st_addr + _ ≤ _
      omega
    · show cidr_ptr.__1st_addr + _ ≠ _
      omega
    · show cidr_ptr.__1st_addr + _ = _
      rw [h1, Nat.mod_one]
      rfl
  · intro a ha1 ha2
    refine ⟨a - cidr_ptr.__1st_addr, by omega, ?_⟩
    have hmod : (a - cidr_ptr.__1st_addr) % cidr_ptr.hostid = a - cidr_ptr.__1st_addr :=
      Nat.mod_eq_of_lt (by omega)
    have hm : (cidr_ptr.__1st_addr + (a - cidr_ptr.__1st_addr)) % 4294967296 = a := by
      rw [Nat.mod_eq_of_lt (by omega)]
      omega
    unfold pick_daddr
    simp only [h0, RANDOM, c_mod, ne_eq, not_false_eq_true, if_true, if_false, hmod, hm,
      Option.map_some']

theorem cidr_upper_bound_unreached_witness :
    (∃ co1 w1, pick_daddr cidr_example (loop_start env_example (-1) co_ripv2 []).co
        (loop_start env_example (-1) co_ripv2 []).world = some (co1, w1) ∧
      co1.ip.daddr = cidr_example.__1st_addr +
        (loop_start env_example (-1) co_ripv2 []).world.rng
          (loop_start env_example (-1) co_ripv2 []).world.rng_pos % cidr_example.hostid ∧
      cidr_example.__1st_addr ≤ co1.ip.daddr ∧
      co1.ip.daddr ≤ cidr_example.__1st_addr + cidr_example.hostid - 1 ∧
      co1.ip.daddr ≠ cidr_example.__1st_addr + cidr_example.hostid ∧
      (cidr_example.hostid = 1 → co1.ip.daddr = cidr_example.__1st_addr) ∧
      (∀ (env : Env) (proto : Nat) (entry : modules_table_t) (func : module_func_ptr_t),
        env.mod_table.get? (loop_start env_example (-1) co_ripv2 []).ptbl = some entry →
        entry.func = some func →
        ∃ size, (loop_body env proto cidr_example
            (loop_start env_example (-1) co_ripv2 [])).state.trace =
          (loop_start env_example (-1) co_ripv2 []).trace ++
            [Event.build (loop_start env_example (-1) co_ripv2 []).ptbl entry.protocol_id
              (env.htonl co1.ip.daddr),
             Event.send size
              (env.sendPacket (loop_start env_example (-1) co_ripv2 []).sends)])) ∧
    (∀ a, cidr_example.__1st_addr ≤ a →
      a ≤ cidr_example.__1st_addr + cidr_example.hostid - 1 →
      ∃ sample, sample < cidr_example.hostid ∧
        (pick_daddr cidr_example (loop_start env_example (-1) co_ripv2 []).co
          { (loop_start env_example (-1) co_ripv2 []).world with rng := fun _ => sample }).map
          (fun r => r.1.ip.daddr) = some a) :=
  cidr_upper_bound_unreached cidr_example (loop_start env_example (-1) co_ripv2 [])
    (by decide) (by decide)

theorem turbo_section_no_fork (env : Env) (co : config_options)
    (hno : co.turbo = false ∨ turbo_eligible env co = false) :
    turbo_section env co = TurboResult.go (-1) co [] := by
  rcases turbo_section_cases env co with ⟨⟨_, h2, h3⟩, _⟩ | ⟨_, hgo⟩
  · rcases hno with hno | hno
    · rw [h2] at hno; cases hno
    · rw [h3] at hno; cases hno
  · exact hgo

theorem main_no_fork (env : Env) (co : config_options) (fuel : Nat)
    (hcfg : env.getConfigOptions = some co)
    (hno : co.turbo = false ∨ turbo_eligible env co = false) :
    ∀ p, Event.fork p ∉ (main env fuel).trace := by
  intro p hp
  by_cases hu : env.getuid = 0
  · cases hc : env.checkConfigOptions co
    · simp [main, hcfg, hu, hc] at hp
    · cases hs : env.createSocket
      · simp [main, hcfg, hu, hc, hs] at hp
      · rw [main_started env co co (-1) [] fuel hcfg hu hc hs
          (turbo_section_no_fork env co hno)] at hp
        obtain ⟨evs, he, hnf, _⟩ := main_inject_shape env fuel (-1) co [Event.createSocket]
        rw [he] at hp
        simp only [List.mem_append, List.mem_singleton] at hp
        rcases hp with hp | hp
        · cases hp
        · exact hnf p hp
  · rw [main_unprivileged env co fuel hcfg hu] at hp
    simp at hp

/-- C24, kill target of the signal handler. In a build with `__HAVE_TURBO__`, when the
configuration has `turbo` clear or a threshold that is not eligible, no run of `main`
calls `fork`, so the static `pid` is -1 at every point of the run; a trapped signal
delivered after any number `n` of calls then makes `signal_handler` call
`kill(-1, SIGKILL)`, then `closeSocket`, and exit with status `128 + signo`. The handler
tests only that `pid` is not 0, not that a child was forked. -/
theorem signal_handler_kills_all (env : Env) (co : config_options) (fuel n : Nat)
    (signo : Int) (hbuild : env.have_turbo = true)
    (hcfg : env.getConfigOptions = some co)
    (hno : co.turbo = false ∨ turbo_eligible env co = false) :
    (∀ p, Event.fork p ∉ (main env fuel).trace) ∧
    pid_after ((main env fuel).trace.take n) = -1 ∧
    signal_handler env.have_turbo (pid_after ((main env fuel).trace.take n)) signo =
      ([Event.kill (-1) 9, Event.closeSocket], Outcome.exited (128 + signo)) ∧
    (interrupted env fuel n signo).trace =
      (main env fuel).trace.take n ++ [Event.kill (-1) 9, Event.closeSocket] ∧
    (interrupted env fuel n signo).outcome = Outcome.exited (128 + signo) := by
  have hnf := main_no_fork env co fuel hcfg hno
  have hpid : pid_after ((main env fuel).trace.take n) = -1 :=
    pid_after_no_fork _ (fun p hp => hnf p (List.mem_of_mem_take hp))
  have hsig : signal_handler env.have_turbo (pid_after ((main env fuel).trace.take n)) signo =
      ([Event.kill (-1) 9, Event.closeSocket], Outcome.exited (128 + signo)) := by
    rw [hpid, hbuild]
    rfl
  refine ⟨hnf, hpid, hsig, ?_, rfl⟩
  simp only [interrupted, hsig]

theorem signal_handler_kills_all_witness :
    ((∀ p, Event.fork p ∉ (main env_example 4).trace) ∧
      pid_after ((main env_example 4).trace.take 3) = -1 ∧
      signal_handler env_example.have_turbo
          (pid_after ((main env_example 4).trace.take 3)) 2 =
        ([Event.kill (-1) 9, Event.closeSocket], Outcome.exited (128 + 2)) ∧
      (interrupted env_example 4 3 2).trace =
        (main env_example 4).trace.take 3 ++ [Event.kill (-1) 9, Event.closeSocket] ∧
      (interrupted env_example 4 3 2).outcome = Outcome.exited (128 + 2)) ∧
    (interrupted env_example 4 3 2).trace =
      [Event.createSocket, Event.launch_banner, Event.alloc_packet 2048, Event.kill (-1) 9,
        Event.closeSocket] :=
  ⟨signal_handler_kills_all env_example co_ripv2 4 3 2 rfl rfl (Or.inl rfl), rfl⟩

/-! ## The second worker, the transmitted size and the inner header -/

/-- C6, pseudo-header and the transmitted size. When the table entry under the cursor
holds the builder `ripv2`, with collaborators that conform, one execution of the loop
body calls it with the configuration and the state that lines 143-149 left and hands to
`sendPacket` the very size that this call stored in `*size`. That size is the one
`ripv2` handed to `ip_header`, and it ends 12 bytes after the start of the pseudo-header:
each of the 12 pseudo-header bytes that `ripv2` stores lies below it, among the bytes
`buf[0..size)` handed to the send. The other lengths that `ripv2` writes leave the
pseudo-header out: the UDP `len` field is `pseudo - udp`, and the length given to
`gre_encapsulation` is `sizeof(iphdr) + (pseudo - udp)`. -/
theorem ripv2_pseudo_header_sent (cb : Collab) (env : Env) (proto : Nat) (cidr_ptr : cidr)
    (s : LoopState) (entry : modules_table_t)
    (h : ∀ co, cb.conforms co)
    (he : env.mod_table.get? s.ptbl = some entry)
    (hf : entry.func = some (ripv2_func cb)) :
    ∃ co1 w1 r, pick_daddr cidr_ptr s.co s.world = some (co1, w1) ∧
      ripv2 cb { co1 with ip := { co1.ip with
          daddr := env.htonl co1.ip.daddr
          protocol := entry.protocol_id } } w1 = some r ∧
      (loop_body env proto cidr_ptr s).state.trace =
        s.trace ++ [Event.build s.ptbl entry.protocol_id (env.htonl co1.ip.daddr),
          Event.send r.size (env.sendPacket s.sends)] ∧
      Op.ip_header r.size ∈ r.log ∧
      r.pseudo + sizeof_psdhdr = r.size ∧
      (∀ i, i < sizeof_psdhdr → Op.store (r.pseudo + i) ∈ r.log ∧ r.pseudo + i < r.size) ∧
      load16 r.world.packet (r.udp + 4) = r.pseudo - r.udp ∧
      Op.gre_encapsulation (sizeof_iphdr + (r.pseudo - r.udp)) ∈ r.log := by
  obtain ⟨co1, w1, hp, _, _⟩ := pick_daddr_isSome cidr_ptr s.co s.world
  refine ⟨co1, w1, ?_⟩
  generalize hco : ({ co1 with ip := { co1.ip with
      daddr := env.htonl co1.ip.daddr
      protocol := entry.protocol_id } } : config_options) = co
  have hc := h co
  obtain ⟨src, hsrc⟩ := ripv2_src cb co w1 hc
  obtain ⟨hr, _⟩ := ripv2_of_src cb co w1 src hsrc
  obtain ⟨_, _, h4, _, _⟩ := ripv2_start_bytes cb co w1
  obtain ⟨_, hudp, hsize, hptr, _⟩ := ripv2_start_facts cb co w1 hc
  obtain ⟨hps, _, _, _, _, _⟩ := ripv2_finish_pseudo cb co w1 src hc
  have hle := rip_hdr_len_le co.rip.auth
  have hfr := ripv2_finish_udp_frame cb co w1 src hc
  have hlog := ripv2_finish_log_exact cb co w1 src hc
  have hudpr : (ripv2_finish cb co (ripv2_start cb co w1)
      (rip_payload cb co (ripv2_start cb co w1).b) src).udp = (ripv2_start cb co w1).udp := rfl
  have hsizer : (ripv2_finish cb co (ripv2_start cb co w1)
      (rip_payload cb co (ripv2_start cb co w1).b) src).size = (ripv2_start cb co w1).size :=
    rfl
  have hdiff : (ripv2_start cb co w1).udp + 8 + rip_hdr_len co.rip.auth -
      (ripv2_start cb co w1).udp = 8 + rip_hdr_len co.rip.auth := by omega
  refine ⟨_, hp, hr, ?_, ?_, ?_, ?_, ?_, ?_⟩
  · rw [loop_body_trace env proto cidr_ptr s entry (ripv2_func cb) co1 w1 hp he hf, hco]
    simp only [ripv2_func, hr]
  · rw [hlog, hsizer]
    simp
  · rw [hps, hsizer, hsize, hudp]
    simp only [sizeof_psdhdr]
  · intro i hi
    simp only [sizeof_psdhdr] at hi
    refine ⟨?_, by rw [hps, hsizer, hsize, hudp]; omega⟩
    rw [hlog, hps]
    simp only [List.mem_append, List.mem_map, List.mem_range]
    exact Or.inr (Or.inl (Or.inl (Or.inl ⟨i, hi, rfl⟩)))
  · rw [hps, hudpr, hdiff,
      load16_congr _ _ _ (hfr _ (by omega) (by omega)) (hfr _ (by omega) (by omega)), h4]
    exact Nat.mod_eq_of_lt (by omega)
  · have hgre : sizeof_iphdr + (8 + rip_hdr_len co.rip.auth) =
        20 + 8 + rip_hdr_len co.rip.auth := by
      simp only [sizeof_iphdr]
      omega
    rw [hlog, hps, hudpr, hdiff, hgre]
    simp

theorem ripv2_pseudo_header_sent_witness :
    (∃ co1 w1 r, pick_daddr cidr_example (loop_start env_rip (-1) co_ripv2_plain []).co
        (loop_start env_rip (-1) co_ripv2_plain []).world = some (co1, w1) ∧
      ripv2 collab_example { co1 with ip := { co1.ip with
          daddr := env_rip.htonl co1.ip.daddr
          protocol := 17 } } w1 = some r ∧
      (loop_body env_rip 17 cidr_example (loop_start env_rip (-1) co_ripv2_plain [])).state.trace =
        (loop_start env_rip (-1) co_ripv2_plain []).trace ++
          [Event.build (loop_start env_rip (-1) co_ripv2_plain []).ptbl 17
              (env_rip.htonl co1.ip.daddr),
            Event.send r.size
              (env_rip.sendPacket (loop_start env_rip (-1) co_ripv2_plain []).sends)] ∧
      Op.ip_header r.size ∈ r.log ∧
      r.pseudo + sizeof_psdhdr = r.size ∧
      (∀ i, i < sizeof_psdhdr → Op.store (r.pseudo + i) ∈ r.log ∧ r.pseudo + i < r.size) ∧
      load16 r.world.packet (r.udp + 4) = r.pseudo - r.udp ∧
      Op.gre_encapsulation (sizeof_iphdr + (r.pseudo - r.udp)) ∈ r.log) ∧
    (main env_rip 1).trace =
      [Event.createSocket, Event.launch_banner, Event.alloc_packet 2048,
        Event.build 1 17 3325256712, Event.send 64 true] ∧
    (∃ r, ripv2 collab_example co_ripv2_plain world_example = some r ∧
      r.size = 64 ∧ r.udp = 20 ∧ r.pseudo = 52 ∧ load16 r.world.packet (r.udp + 4) = 32) :=
  ⟨ripv2_pseudo_header_sent collab_example env_rip 17 cidr_example
      (loop_start env_rip (-1) co_ripv2_plain [])
      { protocol_id := 17, func := some (ripv2_func collab_example) }
      collab_example_conforms rfl rfl,
    rfl, ⟨_, rfl, rfl, rfl, rfl, rfl⟩⟩

end T50
